import Mathlib

/-!
# Topology parser of the CHARMM36 / EEF1-SB module

A shallow embedding of `src/energy/parsers/topology_parser.h`, and of the counter of the
angle-bend energy term in `src/energy/term_angle_bend.h`.

Conventions of the embedding.

* `A` is the type of atom identities (`phaistos::Atom*`), compared by identity.
* `R` is the numeric carrier standing for `double`.  Arithmetic is idealised as exact
  arithmetic in a field; `std::sqrt` is an oracle `sqrt : R → R`, and `std::pow (x, 6.0)`,
  `std::pow (x, 12.0)` are the sixth and twelfth powers.
* Everything the parser reads from the molecule (`AtomIterator`, `CovalentBondIterator`,
  `chain_distance`, `eef1_sb_parser::get_atom_type`, ...) is a field of `ChainFB`.
* A local variable that C++ default-constructs (`NonBondedParameter parameter;`) is an explicit
  argument holding the default-constructed value: its numeric members are whatever the
  default constructor leaves there.
* A loop that only appends to the result vector is a `flatMap` over the loop range; a loop
  that also changes other state (the index map, `std::cout`) is a `foldl` on that state; a
  linear table scan is a structural recursion over the table.
* Text written to `std::cout` is returned next to the value, as a list of lines or events.
* A generator that can leave the program through `exit (EXIT_FAILURE)` returns an `Outcome`;
  a dereferenced null neighbour pointer is `none`, or `Outcome.undefined`.
* The member `counter` of the angle-bend term, a 32-bit `int`, is an `Int` that `int_wrap`
  brings back into the range of `int` after every increment.
-/

namespace topology

/-! ## Data model -/

/-- The molecule as the parser sees it: the flattened atom enumeration
(`AtomIterator<ChainFB, definitions::ALL>`), the force-field type and charge of an atom
(`eef1_sb_parser::get_atom_type`, `get_atom_charge`), its mass, the topological distance
oracle `chain_distance<ChainFB>`, the direct covalent neighbours in iteration order
(`CovalentBondIterator<ChainFB>` with `DEPTH_1_ONLY`), and `atom->residue->index`,
`atom->index`. -/
structure ChainFB (A R : Type) where
  atoms : List A
  get_atom_type : A → String
  get_atom_charge : A → R
  mass : A → R
  chain_distance : A → A → Int
  covalent_bonds : A → List A
  residue_index : A → Int
  index : A → Int

/-- Record of the per-type non-bonded table (`read_nonbonded_parameters`). -/
structure NonBondedParameter (R : Type) where
  atom_type : String
  atom_number : Nat
  atom_mass : R
  atom_charge : R
  atom_ptype : String
  sigma : R
  epsilon : R
deriving DecidableEq

/-- Record of the pair-specific 1-4 table (`read_nonbonded_14_parameters`). -/
structure NonBonded14Parameter (R : Type) where
  atom_type1 : String
  atom_type2 : String
  pair_function : Nat
  sigma : R
  epsilon : R
deriving DecidableEq

/-- The local `struct AtomTypeInfo`. -/
structure AtomTypeInfo (A R : Type) where
  atom : A
  non_bonded_parameter : NonBondedParameter R
  atom_type : String
  charge : R
deriving DecidableEq

/-- Non-bonded interaction record, with every member the two generators assign. -/
structure NonBondedInteraction (A R : Type) where
  atom1 : A
  atom2 : A
  qq : R
  c6 : R
  c12 : R
  is_14_interaction : Bool
  do_eef1 : Bool
  fac_12 : R
  fac_21 : R
  R_vdw_1 : R
  R_vdw_2 : R
  lambda1 : R
  lambda2 : R
deriving DecidableEq

/-! ## Non-bonded parameters -/

section NonBonded

variable {A R : Type}

/-- Source `get_non_bonded_parameter`: the first table entry whose `atom_type` equals the
requested one; when the scan ends without a hit, the default-constructed `parameter`. -/
def get_non_bonded_parameter (parameter : NonBondedParameter R) (atom_type : String) :
    List (NonBondedParameter R) → NonBondedParameter R
  | [] => parameter
  | p :: rest =>
    if p.atom_type = atom_type then p
    else get_non_bonded_parameter parameter atom_type rest

/-- Scan of `get_non_bonded14_parameter` (the `for` loop with `break`): `some p` stands for
`found_parameter = true` with `parameter = p`, `none` for `found_parameter = false`. -/
def scan_non_bonded14 (atom_type1 atom_type2 : String) :
    List (NonBonded14Parameter R) → Option (NonBonded14Parameter R)
  | [] => none
  | p :: rest =>
    if (p.atom_type1 = atom_type1 ∧ p.atom_type2 = atom_type2) ∨
       (p.atom_type1 = atom_type2 ∧ p.atom_type2 = atom_type1) then some p
    else scan_non_bonded14 atom_type1 atom_type2 rest

/-- Source `get_non_bonded14_parameter`.  `parameter` and `parameter0` are the
default-constructed 1-4 and per-type records. -/
def get_non_bonded14_parameter [Field R] (sqrt : R → R) (parameter : NonBonded14Parameter R)
    (parameter0 : NonBondedParameter R) (atom_type1 atom_type2 : String)
    (non_bonded14_parameters : List (NonBonded14Parameter R))
    (non_bonded_parameters : List (NonBondedParameter R)) : NonBonded14Parameter R :=
  match scan_non_bonded14 atom_type1 atom_type2 non_bonded14_parameters with
  | some p => p
  | none =>
    let parameter1 := get_non_bonded_parameter parameter0 atom_type1 non_bonded_parameters
    let parameter2 := get_non_bonded_parameter parameter0 atom_type2 non_bonded_parameters
    let epsilon_effective := sqrt (parameter1.epsilon * parameter2.epsilon)
    let sigma_effective := 0.5 * (parameter1.sigma + parameter2.sigma)
    { parameter with
      atom_type1 := atom_type1
      atom_type2 := atom_type1
      sigma := sigma_effective
      epsilon := epsilon_effective }

/-- Body of the first loop of both non-bonded generators: the `AtomTypeInfo` of one atom. -/
def atom_type_info (parameter0 : NonBondedParameter R) (chain : ChainFB A R)
    (non_bonded_parameters : List (NonBondedParameter R)) (atom1 : A) : AtomTypeInfo A R :=
  { atom := atom1
    atom_type := chain.get_atom_type atom1
    charge := chain.get_atom_charge atom1
    non_bonded_parameter :=
      get_non_bonded_parameter parameter0 (chain.get_atom_type atom1) non_bonded_parameters }

/-- First loop of both non-bonded generators: one `AtomTypeInfo` per atom of the chain, in
enumeration order. -/
def atom_type_infos (parameter0 : NonBondedParameter R) (chain : ChainFB A R)
    (non_bonded_parameters : List (NonBondedParameter R)) : List (AtomTypeInfo A R) :=
  chain.atoms.map (atom_type_info parameter0 chain non_bonded_parameters)

/-- Branch `d > 3` of `generate_non_bonded_interactions`: the full pair built from the two
cached per-type parameters by the mixing rule. -/
def full_pair_interaction [Field R] (sqrt : R → R) (FELEC : R)
    (interaction0 : NonBondedInteraction A R)
    (info1 info2 : AtomTypeInfo A R) : NonBondedInteraction A R :=
  let parameter1 := info1.non_bonded_parameter
  let parameter2 := info2.non_bonded_parameter
  let epsilon_effective := sqrt (parameter1.epsilon * parameter2.epsilon)
  let sigma_effective := 0.5 * (parameter1.sigma + parameter2.sigma)
  { interaction0 with
    atom1 := info1.atom
    atom2 := info2.atom
    qq := info1.charge * info2.charge * FELEC
    c6 := 4 * epsilon_effective * sigma_effective ^ 6
    c12 := 4 * epsilon_effective * sigma_effective ^ 12
    is_14_interaction := false }

/-- Branch `d == 3` of `generate_non_bonded_interactions`: the 1-4 pair built from
`get_non_bonded14_parameter`. -/
def pair14_interaction [Field R] (sqrt : R → R) (FELEC : R)
    (interaction0 : NonBondedInteraction A R)
    (parameter14_0 : NonBonded14Parameter R) (parameter0 : NonBondedParameter R)
    (non_bonded_parameters : List (NonBondedParameter R))
    (non_bonded_14_parameters : List (NonBonded14Parameter R))
    (info1 info2 : AtomTypeInfo A R) : NonBondedInteraction A R :=
  let parameter14 := get_non_bonded14_parameter sqrt parameter14_0 parameter0
    info1.atom_type info2.atom_type non_bonded_14_parameters non_bonded_parameters
  { interaction0 with
    atom1 := info1.atom
    atom2 := info2.atom
    qq := info1.charge * info2.charge * FELEC
    c6 := 4 * parameter14.epsilon * parameter14.sigma ^ 6
    c12 := 4 * parameter14.epsilon * parameter14.sigma ^ 12
    is_14_interaction := true }

/-- Body of the inner loop of `generate_non_bonded_interactions` for one index pair `(i, j)`:
the records it appends. -/
def non_bonded_step [Field R] (sqrt : R → R) (FELEC : R)
    (interaction0 : NonBondedInteraction A R)
    (parameter14_0 : NonBonded14Parameter R) (parameter0 : NonBondedParameter R)
    (chain : ChainFB A R) (non_bonded_parameters : List (NonBondedParameter R))
    (non_bonded_14_parameters : List (NonBonded14Parameter R))
    (i : Nat) (info1 : AtomTypeInfo A R) (j : Nat) (info2 : AtomTypeInfo A R) :
    List (NonBondedInteraction A R) :=
  if i > j then []
  else
    let d := chain.chain_distance info1.atom info2.atom
    if d > 3 then [full_pair_interaction sqrt FELEC interaction0 info1 info2]
    else if d = 3 then
      [pair14_interaction sqrt FELEC interaction0 parameter14_0 parameter0
        non_bonded_parameters non_bonded_14_parameters info1 info2]
    else []

/-- Source `generate_non_bonded_interactions`. -/
def generate_non_bonded_interactions [Field R] (sqrt : R → R) (FELEC : R)
    (interaction0 : NonBondedInteraction A R) (parameter14_0 : NonBonded14Parameter R)
    (parameter0 : NonBondedParameter R) (chain : ChainFB A R)
    (non_bonded_parameters : List (NonBondedParameter R))
    (non_bonded_14_parameters : List (NonBonded14Parameter R)) :
    List (NonBondedInteraction A R) :=
  let infos := atom_type_infos parameter0 chain non_bonded_parameters
  infos.enum.flatMap fun x =>
    infos.enum.flatMap fun y =>
      non_bonded_step sqrt FELEC interaction0 parameter14_0 parameter0 chain
        non_bonded_parameters non_bonded_14_parameters x.1 x.2 y.1 y.2

end NonBonded

/-! ## Non-bonded interactions with cached EEF1 factors -/

/-- The `std::map<std::string, unsigned int>` from atom type to solvation-table index, as an
association list. -/
abbrev IndexMap := List (String × Nat)

/-- Source `eef1_atom_type_index_map[key]` (`std::map::operator[]`): the stored value when the
key is present; otherwise the key is inserted with the value-initialised index `0`, which is
returned.  The second component is the map after the access. -/
def map_subscript (m : IndexMap) (key : String) : Nat × IndexMap :=
  match m.lookup key with
  | some v => (v, m)
  | none => (0, m ++ [(key, 0)])

section NonBondedCached

variable {A R : Type} [Field R] [DecidableEq R]

/-- The block shared by both branches of `generate_non_bonded_interactions_cached` that sets
`do_eef1` and, when it is set, the solvation members.  `std::vector::operator[]` is read
with `getD`: an index past the end (undefined in C++) reads `0`. -/
def attach_eef1 (atom_h_weight : R) (chain : ChainFB A R) (factors : List (List R))
    (vdw_radii lambda : List R) (info1 info2 : AtomTypeInfo A R)
    (interaction : NonBondedInteraction A R) (m : IndexMap) :
    NonBondedInteraction A R × IndexMap :=
  if ¬ (chain.mass info1.atom = atom_h_weight) ∧
     ¬ (chain.chain_distance info1.atom info2.atom < 3) ∧
     ¬ (chain.mass info2.atom = atom_h_weight) then
    let r1 := map_subscript m info1.atom_type
    let r2 := map_subscript r1.2 info2.atom_type
    let index1 := r1.1
    let index2 := r2.1
    ({ interaction with
        do_eef1 := true
        fac_12 := (factors.getD index1 []).getD index2 0
        fac_21 := (factors.getD index2 []).getD index1 0
        R_vdw_1 := vdw_radii.getD index1 0
        R_vdw_2 := vdw_radii.getD index2 0
        lambda1 := lambda.getD index1 0
        lambda2 := lambda.getD index2 0 }, r2.2)
  else ({ interaction with do_eef1 := false }, m)

/-- Body of the inner loop of `generate_non_bonded_interactions_cached` for one index pair,
as a transformer of the state (result vector, index map). -/
def non_bonded_step_cached (sqrt : R → R) (FELEC atom_h_weight : R)
    (interaction0 : NonBondedInteraction A R) (parameter14_0 : NonBonded14Parameter R)
    (parameter0 : NonBondedParameter R) (chain : ChainFB A R)
    (non_bonded_parameters : List (NonBondedParameter R))
    (non_bonded_14_parameters : List (NonBonded14Parameter R))
    (factors : List (List R)) (vdw_radii lambda : List R)
    (st : List (NonBondedInteraction A R) × IndexMap)
    (i : Nat) (info1 : AtomTypeInfo A R) (j : Nat) (info2 : AtomTypeInfo A R) :
    List (NonBondedInteraction A R) × IndexMap :=
  if i > j then st
  else
    let d := chain.chain_distance info1.atom info2.atom
    if d > 3 then
      let r := attach_eef1 atom_h_weight chain factors vdw_radii lambda info1 info2
        (full_pair_interaction sqrt FELEC interaction0 info1 info2) st.2
      (st.1 ++ [r.1], r.2)
    else if d = 3 then
      let r := attach_eef1 atom_h_weight chain factors vdw_radii lambda info1 info2
        (pair14_interaction sqrt FELEC interaction0 parameter14_0 parameter0
          non_bonded_parameters non_bonded_14_parameters info1 info2) st.2
      (st.1 ++ [r.1], r.2)
    else st

/-- Source `generate_non_bonded_interactions_cached`: the returned vector and the index map
as the call leaves it.  The argument `dGref` is never read by the source. -/
def generate_non_bonded_interactions_cached (sqrt : R → R) (FELEC atom_h_weight : R)
    (interaction0 : NonBondedInteraction A R) (parameter14_0 : NonBonded14Parameter R)
    (parameter0 : NonBondedParameter R) (chain : ChainFB A R)
    (non_bonded_parameters : List (NonBondedParameter R))
    (non_bonded_14_parameters : List (NonBonded14Parameter R))
    (_dGref : List R) (factors : List (List R)) (vdw_radii lambda : List R)
    (eef1_atom_type_index_map : IndexMap) :
    List (NonBondedInteraction A R) × IndexMap :=
  let infos := atom_type_infos parameter0 chain non_bonded_parameters
  infos.enum.foldl
    (fun st x =>
      infos.enum.foldl
        (fun st y =>
          non_bonded_step_cached sqrt FELEC atom_h_weight interaction0 parameter14_0
            parameter0 chain non_bonded_parameters non_bonded_14_parameters
            factors vdw_radii lambda st x.1 x.2 y.1 y.2)
        st)
    ([], eef1_atom_type_index_map)

end NonBondedCached

/-! ## Bonded pairs -/

/-- Record of the bonded-pair table (`read_bonded_pair_parameters`). -/
structure BondedPairParameter (R : Type) where
  type1 : String
  type2 : String
  r0 : R
  kb : R
deriving DecidableEq

/-- Bonded-pair interaction record. -/
structure BondedPairInteraction (A R : Type) where
  atom1 : A
  atom2 : A
  kb : R
  r0 : R
deriving DecidableEq

section Bonded

variable {A R : Type}

/-- The test of the table scan in `generate_bonded_pair_interactions`. -/
def bonded_pair_matches (parameter : BondedPairParameter R) (type1 type2 : String) : Prop :=
  (parameter.type1 = type1 ∧ parameter.type2 = type2) ∨
  (parameter.type1 = type2 ∧ parameter.type2 = type1)

instance (parameter : BondedPairParameter R) (type1 type2 : String) :
    Decidable (bonded_pair_matches parameter type1 type2) := by
  unfold bonded_pair_matches; infer_instance

/-- Table scan of `generate_bonded_pair_interactions` for one ordered bond: the records it
appends (one for the first matching entry, then `break`; none when nothing matches). -/
def scan_bonded_pair (atom1 atom2 : A) (type1 type2 : String) :
    List (BondedPairParameter R) → List (BondedPairInteraction A R)
  | [] => []
  | parameter :: rest =>
    if bonded_pair_matches parameter type1 type2 then
      [{ atom1 := atom1, atom2 := atom2, kb := parameter.kb, r0 := parameter.r0 }]
    else scan_bonded_pair atom1 atom2 type1 type2 rest

/-- Source `generate_bonded_pair_interactions`. -/
def generate_bonded_pair_interactions (chain : ChainFB A R)
    (bonded_pair_parameters : List (BondedPairParameter R)) :
    List (BondedPairInteraction A R) :=
  chain.atoms.flatMap fun atom1 =>
    (chain.covalent_bonds atom1).flatMap fun atom2 =>
      if chain.residue_index atom1 < chain.residue_index atom2 ∨
         (chain.residue_index atom1 = chain.residue_index atom2 ∧
          chain.index atom1 < chain.index atom2) then
        scan_bonded_pair atom1 atom2 (chain.get_atom_type atom1) (chain.get_atom_type atom2)
          bonded_pair_parameters
      else []

end Bonded

/-! ## Angle bends -/

/-- Record of the angle table (`read_angle_bend_parameters`). -/
structure AngleBendParameter (R : Type) where
  type1 : String
  type2 : String
  type3 : String
  theta0 : R
  k0 : R
  r13 : R
  kub : R
deriving DecidableEq

/-- Angle-bend interaction record. -/
structure AngleBendInteraction (A R : Type) where
  atom1 : A
  atom2 : A
  atom3 : A
  theta0 : R
  k0 : R
  r13 : R
  kub : R
deriving DecidableEq

section AngleBend

variable {A R : Type}

/-- The test of the table scan in `generate_angle_bend_interactions`. -/
def angle_bend_matches (parameter : AngleBendParameter R) (type1 type2 type3 : String) : Prop :=
  (parameter.type1 = type1 ∧ parameter.type2 = type2 ∧ parameter.type3 = type3) ∨
  (parameter.type1 = type3 ∧ parameter.type2 = type2 ∧ parameter.type3 = type1)

instance (parameter : AngleBendParameter R) (type1 type2 type3 : String) :
    Decidable (angle_bend_matches parameter type1 type2 type3) := by
  unfold angle_bend_matches; infer_instance

/-- Table scan of `generate_angle_bend_interactions` for one triple: `some interaction` for
the first matching entry (`found_this_parameter = true`), `none` when nothing matches. -/
def scan_angle_bend (atom1 atom2 atom3 : A) (type1 type2 type3 : String) :
    List (AngleBendParameter R) → Option (AngleBendInteraction A R)
  | [] => none
  | parameter :: rest =>
    if angle_bend_matches parameter type1 type2 type3 then
      some { atom1 := atom1, atom2 := atom2, atom3 := atom3, theta0 := parameter.theta0,
             k0 := parameter.k0, r13 := parameter.r13, kub := parameter.kub }
    else scan_angle_bend atom1 atom2 atom3 type1 type2 type3 rest

/-- The pairs `(*it2, *it3)` visited by the two neighbour iterators of
`generate_angle_bend_interactions`: `it3` starts one past `it2` and runs to the end. -/
def neighbour_pairs : List A → List (A × A)
  | [] => []
  | atom1 :: rest => rest.map (fun atom3 => (atom1, atom3)) ++ neighbour_pairs rest

/-- Body of the innermost loop of `generate_angle_bend_interactions`, on the state
(result vector, triples reported on `std::cout`). -/
def angle_bend_step (chain : ChainFB A R) (angle_bend_parameters : List (AngleBendParameter R))
    (st : List (AngleBendInteraction A R) × List (A × A × A)) (atom2 : A) (pair : A × A) :
    List (AngleBendInteraction A R) × List (A × A × A) :=
  match scan_angle_bend pair.1 atom2 pair.2 (chain.get_atom_type pair.1)
      (chain.get_atom_type atom2) (chain.get_atom_type pair.2) angle_bend_parameters with
  | some interaction => (st.1 ++ [interaction], st.2)
  | none => (st.1, st.2 ++ [(pair.1, atom2, pair.2)])

/-- Source `generate_angle_bend_interactions`: the returned vector, and the triples for which
the two "COULD NOT FIND" lines are written to `std::cout`, in order. -/
def generate_angle_bend_interactions (chain : ChainFB A R)
    (angle_bend_parameters : List (AngleBendParameter R)) :
    List (AngleBendInteraction A R) × List (A × A × A) :=
  chain.atoms.foldl
    (fun st atom2 =>
      (neighbour_pairs (chain.covalent_bonds atom2)).foldl
        (fun st pair => angle_bend_step chain angle_bend_parameters st atom2 pair) st)
    ([], [])

end AngleBend

/-! ## Improper torsions -/

/-- Record of the improper-torsion table (`read_improper_torsion_parameters`). -/
structure ImproperTorsionParameter (R : Type) where
  type1 : String
  type2 : String
  type3 : String
  type4 : String
  phi0 : R
  cp : R
deriving DecidableEq

/-- Improper-torsion interaction record. -/
structure ImproperTorsionInteraction (A R : Type) where
  atom1 : A
  atom2 : A
  atom3 : A
  atom4 : A
  phi0 : R
  cp : R
deriving DecidableEq

section Improper

variable {A R : Type}

/-- The test of the table scan in `atoms_to_improper_torsion`. -/
def improper_matches (p : ImproperTorsionParameter R) (type1 type2 type3 type4 : String) :
    Prop :=
  (p.type1 = type1 ∧ p.type2 = type2 ∧ p.type3 = type3 ∧ p.type4 = type4) ∨
  (p.type1 = type4 ∧ p.type2 = type3 ∧ p.type3 = type2 ∧ p.type4 = type1) ∨
  (p.type1 = type1 ∧ p.type2 = "X" ∧ p.type3 = "X" ∧ p.type4 = type4) ∨
  (p.type1 = type4 ∧ p.type2 = "X" ∧ p.type3 = "X" ∧ p.type4 = type1)

instance (p : ImproperTorsionParameter R) (type1 type2 type3 type4 : String) :
    Decidable (improper_matches p type1 type2 type3 type4) := by
  unfold improper_matches; infer_instance

/-- Source `atoms_to_improper_torsion` on the quadruple `atoms[0..3]`.  The scan has no
`break`: it runs over the whole table on the state (`found_parameter`, `improper_torsion`).
`improper_torsion0` is the default-constructed record.  The second component is what the
call writes to `std::cout`. -/
def atoms_to_improper_torsion (get_atom_type : A → String)
    (improper_torsion0 : ImproperTorsionInteraction A R) (atoms : A × A × A × A)
    (improper_torsion_parameters : List (ImproperTorsionParameter R)) :
    ImproperTorsionInteraction A R × List String :=
  let improper_torsion : ImproperTorsionInteraction A R :=
    { improper_torsion0 with
      atom1 := atoms.1, atom2 := atoms.2.1, atom3 := atoms.2.2.1, atom4 := atoms.2.2.2 }
  let type1 := get_atom_type atoms.1
  let type2 := get_atom_type atoms.2.1
  let type3 := get_atom_type atoms.2.2.1
  let type4 := get_atom_type atoms.2.2.2
  let st := improper_torsion_parameters.foldl
    (fun (st : Bool × ImproperTorsionInteraction A R) p =>
      if improper_matches p type1 type2 type3 type4 then
        (true, { st.2 with phi0 := p.phi0, cp := p.cp })
      else st)
    (false, improper_torsion)
  (st.2, if st.1 then [] else ["ERROR: DIDN\x27T FIND PARAMETER"])

end Improper

/-! ## Proper torsions -/

/-- Record of the torsion table (`read_torsion_parameters`). -/
structure TorsionParameter (R : Type) where
  type1 : String
  type2 : String
  type3 : String
  type4 : String
  phi0 : R
  cp : R
  mult : Nat
deriving DecidableEq

/-- Torsion interaction record. -/
structure TorsionInteraction (A R : Type) where
  atom1 : A
  atom2 : A
  atom3 : A
  atom4 : A
  phi0 : R
  cp : R
  mult : Nat
deriving DecidableEq

section Torsion

variable {A R : Type}

/-- First test of the exact scan of `generate_torsion_interactions`: the entry is
`(type1, type2, type3, type4)`. -/
def torsion_exact_forward (p : TorsionParameter R) (type1 type2 type3 type4 : String) : Prop :=
  p.type1 = type1 ∧ p.type2 = type2 ∧ p.type3 = type3 ∧ p.type4 = type4

/-- Second test of the exact scan: the entry is `(type4, type3, type2, type1)`. -/
def torsion_exact_reverse (p : TorsionParameter R) (type1 type2 type3 type4 : String) : Prop :=
  p.type1 = type4 ∧ p.type2 = type3 ∧ p.type3 = type2 ∧ p.type4 = type1

/-- First test of the wildcard scan: the entry is `(X, type2, type3, X)`. -/
def torsion_wildcard_forward (p : TorsionParameter R) (type2 type3 : String) : Prop :=
  p.type1 = "X" ∧ p.type2 = type2 ∧ p.type3 = type3 ∧ p.type4 = "X"

/-- Second test of the wildcard scan: the entry is `(X, type3, type2, X)`. -/
def torsion_wildcard_reverse (p : TorsionParameter R) (type2 type3 : String) : Prop :=
  p.type1 = "X" ∧ p.type2 = type3 ∧ p.type3 = type2 ∧ p.type4 = "X"

instance (p : TorsionParameter R) (type1 type2 type3 type4 : String) :
    Decidable (torsion_exact_forward p type1 type2 type3 type4) := by
  unfold torsion_exact_forward; infer_instance

instance (p : TorsionParameter R) (type1 type2 type3 type4 : String) :
    Decidable (torsion_exact_reverse p type1 type2 type3 type4) := by
  unfold torsion_exact_reverse; infer_instance

instance (p : TorsionParameter R) (type2 type3 : String) :
    Decidable (torsion_wildcard_forward p type2 type3) := by
  unfold torsion_wildcard_forward; infer_instance

instance (p : TorsionParameter R) (type2 type3 : String) :
    Decidable (torsion_wildcard_reverse p type2 type3) := by
  unfold torsion_wildcard_reverse; infer_instance

/-- The record built in each of the four matching branches: the given atoms, in the given
order, with the constants of the entry. -/
def torsion_interaction_of (atom1 atom2 atom3 atom4 : A) (p : TorsionParameter R) :
    TorsionInteraction A R :=
  { atom1 := atom1, atom2 := atom2, atom3 := atom3, atom4 := atom4,
    phi0 := p.phi0, cp := p.cp, mult := p.mult }

/-- First scan of `generate_torsion_interactions` for one quadruple (the loop without
`break`): the records it appends, one for every entry that matches forward or, failing
that, reverse (then with the atoms in reverse order).  `found_this_parameter` is true after
the scan exactly when this list is not empty. -/
def scan_torsion_exact (atom1 atom2 atom3 atom4 : A) (type1 type2 type3 type4 : String) :
    List (TorsionParameter R) → List (TorsionInteraction A R)
  | [] => []
  | p :: rest =>
    if torsion_exact_forward p type1 type2 type3 type4 then
      torsion_interaction_of atom1 atom2 atom3 atom4 p ::
        scan_torsion_exact atom1 atom2 atom3 atom4 type1 type2 type3 type4 rest
    else if torsion_exact_reverse p type1 type2 type3 type4 then
      torsion_interaction_of atom4 atom3 atom2 atom1 p ::
        scan_torsion_exact atom1 atom2 atom3 atom4 type1 type2 type3 type4 rest
    else scan_torsion_exact atom1 atom2 atom3 atom4 type1 type2 type3 type4 rest

/-- Second scan of `generate_torsion_interactions` for one quadruple (the loop with
`break`): the record of the first entry that matches as wildcard, forward or, failing that,
reverse; `none` when no entry does. -/
def scan_torsion_wildcard (atom1 atom2 atom3 atom4 : A) (type2 type3 : String) :
    List (TorsionParameter R) → Option (TorsionInteraction A R)
  | [] => none
  | p :: rest =>
    if torsion_wildcard_forward p type2 type3 then
      some (torsion_interaction_of atom1 atom2 atom3 atom4 p)
    else if torsion_wildcard_reverse p type2 type3 then
      some (torsion_interaction_of atom4 atom3 atom2 atom1 p)
    else scan_torsion_wildcard atom1 atom2 atom3 atom4 type2 type3 rest

/-- Body of the innermost loop of `generate_torsion_interactions` for one candidate
quadruple: the records it appends and the quadruples it reports on `std::cout` (the two
"TORERR" lines). -/
def torsion_quadruple (chain : ChainFB A R) (torsion_parameters : List (TorsionParameter R))
    (atom1 atom2 atom3 atom4 : A) :
    List (TorsionInteraction A R) × List (A × A × A × A) :=
  let type1 := chain.get_atom_type atom1
  let type2 := chain.get_atom_type atom2
  let type3 := chain.get_atom_type atom3
  let type4 := chain.get_atom_type atom4
  let exact := scan_torsion_exact atom1 atom2 atom3 atom4 type1 type2 type3 type4
    torsion_parameters
  if exact.isEmpty then
    match scan_torsion_wildcard atom1 atom2 atom3 atom4 type2 type3 torsion_parameters with
    | some interaction => ([interaction], [])
    | none => ([], [(atom1, atom2, atom3, atom4)])
  else (exact, [])

/-- Source `generate_torsion_interactions`: the returned vector, and the quadruples for which
the "TORERR" lines are written to `std::cout`, in order. -/
def generate_torsion_interactions [DecidableEq A] (chain : ChainFB A R)
    (torsion_parameters : List (TorsionParameter R)) :
    List (TorsionInteraction A R) × List (A × A × A × A) :=
  chain.atoms.foldl
    (fun st atom2 =>
      chain.atoms.foldl
        (fun st atom3 =>
          if chain.residue_index atom2 > chain.residue_index atom3 ∨
             (chain.residue_index atom2 = chain.residue_index atom3 ∧
              chain.index atom2 > chain.index atom3) then st
          else if chain.chain_distance atom2 atom3 ≠ 1 then st
          else
            (chain.covalent_bonds atom2).foldl
              (fun st atom1 =>
                (chain.covalent_bonds atom3).foldl
                  (fun st atom4 =>
                    if atom2 ≠ atom4 ∧ atom1 ≠ atom3 then
                      let out := torsion_quadruple chain torsion_parameters
                        atom1 atom2 atom3 atom4
                      (st.1 ++ out.1, st.2 ++ out.2)
                    else st)
                  st)
              st)
        st)
    ([], [])

/-- The candidate quadruples `(atom1, atom2, atom3, atom4)` of
`generate_torsion_interactions`, in the order in which the four loops reach them. -/
def torsion_candidates [DecidableEq A] (chain : ChainFB A R) : List (A × A × A × A) :=
  chain.atoms.flatMap fun atom2 =>
    chain.atoms.flatMap fun atom3 =>
      if chain.residue_index atom2 > chain.residue_index atom3 ∨
         (chain.residue_index atom2 = chain.residue_index atom3 ∧
          chain.index atom2 > chain.index atom3) then []
      else if chain.chain_distance atom2 atom3 ≠ 1 then []
      else
        (chain.covalent_bonds atom2).flatMap fun atom1 =>
          (chain.covalent_bonds atom3).flatMap fun atom4 =>
            if atom2 ≠ atom4 ∧ atom1 ≠ atom3 then [(atom1, atom2, atom3, atom4)] else []

end Torsion

/-! ## Improper torsions of a chain -/

/-- The residue types of `definitions::ResidueEnum` that `generate_improper_torsion_interactions`
names, and `OTHER` for every further value (the `default` label of its `switch`). -/
inductive ResidueEnum where
  | ALA | ARG | ASN | ASP | CYS | GLN | GLU | GLY | HIS | ILE | LEU | LYS | MET | PHE | PRO
  | SER | THR | TRP | TYR | VAL | OTHER
deriving DecidableEq

/-- The atom names of `definitions::AtomEnum` that `generate_improper_torsion_interactions`
uses. -/
inductive AtomEnum where
  | N | CA | C | O | H | OXT | CB | CG | CD | CZ | NE | NH1 | NH2 | ND1 | ND2 | NE2
  | OD1 | OD2 | OE1 | OE2 | CD2 | CE1 | HD1 | HD2 | HE1 | HE2 | HD21 | HD22 | HE21 | HE22
deriving DecidableEq

/-- The values of `res->terminal_status`. -/
inductive TerminalEnum where
  | NTERM | CTERM | INTERNAL
deriving DecidableEq

/-- A residue as `generate_improper_torsion_interactions` reads it: its type, its terminal
status, the atom `(*res)[name]` for an atom name, and `res->has_atom (name)`. -/
structure Residue (A : Type) where
  residue_type : ResidueEnum
  terminal_status : TerminalEnum
  atom : AtomEnum → A
  has_atom : AtomEnum → Bool

section ImproperChain

variable {A R : Type}

/-- The `switch` of `generate_improper_torsion_interactions`: the side-chain quadruples
`enum_pairs` of a residue, and the lines the `switch` writes to `std::cout` (without the
printed residue). -/
def side_chain_enum_pairs (res : Residue A) :
    List (AtomEnum × AtomEnum × AtomEnum × AtomEnum) × List String :=
  match res.residue_type with
  | .ALA => ([], [])
  | .ARG => ([(.CZ, .NH1, .NH2, .NE)], [])
  | .ASN =>
    ([(.CG, .ND2, .CB, .OD1), (.CG, .CB, .ND2, .OD1), (.ND2, .CG, .HD21, .HD22),
      (.ND2, .CG, .HD22, .HD21)], [])
  | .ASP => ([(.CG, .CB, .OD2, .OD1)], [])
  | .CYS => ([], [])
  | .GLN =>
    ([(.CD, .NE2, .CG, .OE1), (.CD, .CG, .NE2, .OE1), (.NE2, .CD, .HE21, .HE22),
      (.NE2, .CD, .HE22, .HE21)], [])
  | .GLU => ([(.CD, .CG, .OE2, .OE1)], [])
  | .GLY => ([], [])
  | .HIS =>
    if res.has_atom .HD1 && res.has_atom .HE2 then
      ([(.ND1, .CG, .CE1, .HD1), (.ND1, .CE1, .CG, .HD1), (.NE2, .CD2, .CE1, .HE2),
        (.NE2, .CE1, .CD2, .HE2)], [])
    else if !(res.has_atom .HD1) && res.has_atom .HE2 then
      ([(.NE2, .CD2, .CE1, .HE2), (.CD2, .CG, .NE2, .HD2), (.CE1, .ND1, .NE2, .HE1),
        (.NE2, .CE1, .CD2, .HE2), (.CD2, .NE2, .CG, .HD2), (.CE1, .NE2, .ND1, .HE1)], [])
    else if res.has_atom .HD1 && !(res.has_atom .HE2) then
      ([(.ND1, .CG, .CE1, .HD1), (.CD2, .CG, .NE2, .HD2), (.CE1, .ND1, .NE2, .HE1),
        (.ND1, .CE1, .CG, .HD1), (.CD2, .NE2, .CG, .HD2), (.CE1, .NE2, .ND1, .HE1)], [])
    else ([], ["Unknown protonations state on "])
  | .ILE => ([], [])
  | .LEU => ([], [])
  | .LYS => ([], [])
  | .MET => ([], [])
  | .PHE => ([], [])
  | .PRO => ([], [])
  | .SER => ([], [])
  | .THR => ([], [])
  | .TRP => ([], [])
  | .TYR => ([], [])
  | .VAL => ([], [])
  | .OTHER => ([], ["ASC: Unknown residue type: "])

/-- One pass of `atoms_to_improper_torsion` followed by `push_back`, on the state
(result vector, lines on `std::cout`). -/
def push_improper_torsion (get_atom_type : A → String)
    (improper_torsion0 : ImproperTorsionInteraction A R)
    (improper_torsion_parameters : List (ImproperTorsionParameter R))
    (st : List (ImproperTorsionInteraction A R) × List String) (atoms : A × A × A × A) :
    List (ImproperTorsionInteraction A R) × List String :=
  let out := atoms_to_improper_torsion get_atom_type improper_torsion0 atoms
    improper_torsion_parameters
  (st.1 ++ [out.1], st.2 ++ out.2)

/-- The side-chain part of the loop body of `generate_improper_torsion_interactions` for one
residue: the `switch`, then the loop over `enum_pairs` that resolves and appends every
quadruple. -/
def side_chain_improper_torsions (get_atom_type : A → String)
    (improper_torsion0 : ImproperTorsionInteraction A R)
    (improper_torsion_parameters : List (ImproperTorsionParameter R))
    (st : List (ImproperTorsionInteraction A R) × List String) (res : Residue A) :
    List (ImproperTorsionInteraction A R) × List String :=
  let enum_pairs := side_chain_enum_pairs res
  enum_pairs.1.foldl
    (fun st q =>
      push_improper_torsion get_atom_type improper_torsion0 improper_torsion_parameters st
        (res.atom q.1, res.atom q.2.1, res.atom q.2.2.1, res.atom q.2.2.2))
    (st.1, st.2 ++ enum_pairs.2)

/-- The block `N -C CA HN` of the loop body of `generate_improper_torsion_interactions`: for
a residue that is not N-terminal, the quadruple `(N, previous C, CA, H)`, with `CD` in place
of `H` for proline.  `previous_residue` is `res->get_neighbour (-1)` (`none` for a null
pointer); the result is `none` when the source dereferences a null pointer, which C++
leaves undefined. -/
def backbone_n_improper_torsion (get_atom_type : A → String)
    (improper_torsion0 : ImproperTorsionInteraction A R)
    (improper_torsion_parameters : List (ImproperTorsionParameter R))
    (st : List (ImproperTorsionInteraction A R) × List String)
    (previous_residue : Option (Residue A)) (res : Residue A) :
    Option (List (ImproperTorsionInteraction A R) × List String) :=
  if ¬ (res.terminal_status = .NTERM) then
    let amide_atom := if res.residue_type = .PRO then AtomEnum.CD else AtomEnum.H
    match previous_residue with
    | none => none
    | some previous =>
      some (push_improper_torsion get_atom_type improper_torsion0 improper_torsion_parameters
        st (res.atom .N, previous.atom .C, res.atom .CA, res.atom amide_atom))
  else some st

/-- The block `C CA +N O` of the loop body of `generate_improper_torsion_interactions`: for a
residue that is not C-terminal, the quadruple `(C, CA, next N, O)`; for a C-terminal one,
`(C, CA, OXT, O)`.  `next_residue` is `res->get_neighbour (+1)`; the result is `none` when
the source dereferences a null pointer. -/
def backbone_c_improper_torsion (get_atom_type : A → String)
    (improper_torsion0 : ImproperTorsionInteraction A R)
    (improper_torsion_parameters : List (ImproperTorsionParameter R))
    (st : List (ImproperTorsionInteraction A R) × List String)
    (next_residue : Option (Residue A)) (res : Residue A) :
    Option (List (ImproperTorsionInteraction A R) × List String) :=
  if ¬ (res.terminal_status = .CTERM) then
    match next_residue with
    | none => none
    | some next =>
      some (push_improper_torsion get_atom_type improper_torsion0 improper_torsion_parameters
        st (res.atom .C, res.atom .CA, next.atom .N, res.atom .O))
  else if res.terminal_status = .CTERM then
    some (push_improper_torsion get_atom_type improper_torsion0 improper_torsion_parameters
      st (res.atom .C, res.atom .CA, res.atom .OXT, res.atom .O))
  else some st

/-- The backbone part of the loop body of `generate_improper_torsion_interactions` for one
residue with its two neighbours: the `N` block, then the `C` block. -/
def backbone_improper_torsions (get_atom_type : A → String)
    (improper_torsion0 : ImproperTorsionInteraction A R)
    (improper_torsion_parameters : List (ImproperTorsionParameter R))
    (st : List (ImproperTorsionInteraction A R) × List String)
    (previous_residue next_residue : Option (Residue A)) (res : Residue A) :
    Option (List (ImproperTorsionInteraction A R) × List String) :=
  match backbone_n_improper_torsion get_atom_type improper_torsion0
      improper_torsion_parameters st previous_residue res with
  | none => none
  | some st1 =>
    backbone_c_improper_torsion get_atom_type improper_torsion0 improper_torsion_parameters
      st1 next_residue res

/-- Body of the residue loop of `generate_improper_torsion_interactions`: side chain, then
backbone. -/
def residue_improper_torsions (get_atom_type : A → String)
    (improper_torsion0 : ImproperTorsionInteraction A R)
    (improper_torsion_parameters : List (ImproperTorsionParameter R))
    (st : List (ImproperTorsionInteraction A R) × List String)
    (previous_residue next_residue : Option (Residue A)) (res : Residue A) :
    Option (List (ImproperTorsionInteraction A R) × List String) :=
  backbone_improper_torsions get_atom_type improper_torsion0 improper_torsion_parameters
    (side_chain_improper_torsions get_atom_type improper_torsion0 improper_torsion_parameters
      st res)
    previous_residue next_residue res

/-- Source `generate_improper_torsion_interactions` on the residues of the chain in
`ResidueIterator` order, the neighbours of a residue being the residues before and after it:
the returned vector and the lines written to `std::cout`, or `none` when a null neighbour is
dereferenced. -/
def generate_improper_torsion_interactions (get_atom_type : A → String)
    (improper_torsion0 : ImproperTorsionInteraction A R) (residues : List (Residue A))
    (improper_torsion_parameters : List (ImproperTorsionParameter R)) :
    Option (List (ImproperTorsionInteraction A R) × List String) :=
  residues.enum.foldl
    (fun st x =>
      match st with
      | none => none
      | some st =>
        residue_improper_torsions get_atom_type improper_torsion0 improper_torsion_parameters
          st (if x.1 = 0 then none else residues[x.1 - 1]?) residues[x.1 + 1]? x.2)
    (some ([], []))

end ImproperChain

/-! ## CMAP interactions -/

/-- Source `CmapInteraction` as `generate_cmap_interactions` fills it: the residue, its
position in the chain and the index of its CMAP class. -/
structure CmapInteraction (A : Type) where
  residue : Residue A
  residue_index : Int
  cmap_type_index : Nat

/-- How a call of a generator ends: it returns a value, it leaves the program through
`exit (EXIT_FAILURE)` after a message on `std::cerr`, or it dereferences a null neighbour
pointer, which C++ leaves undefined. -/
inductive Outcome (α : Type) where
  | returned : α → Outcome α
  | exit_failure : Outcome α
  | undefined : Outcome α
deriving DecidableEq

section Cmap

variable {A : Type}

/-- The `if` / `else if` chain of `generate_cmap_interactions` on the five atom types: the
value assigned to `cmap_type_index`, or `none` for the final `else` branch. -/
def cmap_type_index (type1 type2 type3 type4 type5 : String) : Option Nat :=
  if type1 = "C" ∧ type2 = "NH1" ∧ type3 = "CT1" ∧ type4 = "C" ∧ type5 = "NH1" then some 0
  else if type1 = "C" ∧ type2 = "NH1" ∧ type3 = "CT1" ∧ type4 = "C" ∧ type5 = "N" then some 1
  else if type1 = "C" ∧ type2 = "N" ∧ type3 = "CP1" ∧ type4 = "C" ∧ type5 = "NH1" then some 2
  else if type1 = "C" ∧ type2 = "N" ∧ type3 = "CP1" ∧ type4 = "C" ∧ type5 = "N" then some 3
  else if type1 = "C" ∧ type2 = "NH1" ∧ type3 = "CT2" ∧ type4 = "C" ∧ type5 = "NH1" then some 4
  else if type1 = "C" ∧ type2 = "NH1" ∧ type3 = "CT2" ∧ type4 = "C" ∧ type5 = "N" then some 5
  else none

/-- Body of the residue loop of `generate_cmap_interactions` after `i += 1`, on the vector
built so far: `i` is the counter, `previous_residue` and `next_residue` are
`res->get_neighbour (-1)` and `res->get_neighbour (+1)` (`none` for a null pointer). -/
def cmap_step (get_atom_type : A → String)
    (previous_residue next_residue : Option (Residue A)) (i : Int) (res : Residue A)
    (cmap_interactions : List (CmapInteraction A)) : Outcome (List (CmapInteraction A)) :=
  if res.terminal_status = .NTERM then .returned cmap_interactions
  else if res.terminal_status = .CTERM then .returned cmap_interactions
  else
    match previous_residue, next_residue with
    | some previous, some next =>
      match cmap_type_index (get_atom_type (previous.atom .C)) (get_atom_type (res.atom .N))
          (get_atom_type (res.atom .CA)) (get_atom_type (res.atom .C))
          (get_atom_type (next.atom .N)) with
      | some k =>
        .returned
          (cmap_interactions ++ [{ residue := res, residue_index := i, cmap_type_index := k }])
      | none => .exit_failure
    | _, _ => .undefined

/-- Source `generate_cmap_interactions` on the residues of the chain in `ResidueIterator`
order, the neighbours of a residue being the residues before and after it.  An iteration runs
only while the call has neither left the program nor become undefined. -/
def generate_cmap_interactions (get_atom_type : A → String) (residues : List (Residue A)) :
    Outcome (List (CmapInteraction A)) :=
  residues.enum.foldl
    (fun st x =>
      match st with
      | .returned cmap_interactions =>
        cmap_step get_atom_type (if x.1 = 0 then none else residues[x.1 - 1]?)
          residues[x.1 + 1]? (x.1 : Int) x.2 cmap_interactions
      | .exit_failure => .exit_failure
      | .undefined => .undefined)
    (.returned [])

/-- The six patterns of the `if` chain of `generate_cmap_interactions`, each with the value
it assigns to `cmap_type_index`, in the order of the chain. -/
def cmap_pattern_table : List ((String × String × String × String × String) × Nat) :=
  [(("C", "NH1", "CT1", "C", "NH1"), 0), (("C", "NH1", "CT1", "C", "N"), 1),
   (("C", "N", "CP1", "C", "NH1"), 2), (("C", "N", "CP1", "C", "N"), 3),
   (("C", "NH1", "CT2", "C", "NH1"), 4), (("C", "NH1", "CT2", "C", "N"), 5)]

end Cmap

/-! ## The angle-bend energy term -/

section TermAngleBend

variable {A R : Type}

/-- The value a 32-bit `int` holds for the arithmetic result `x`: the representative of `x`
modulo `2^32` in the range from `-2^31` to `2^31 - 1`.  Past `INT_MAX` the C++ standard
leaves the result of `counter++` undefined; the compiled code wraps around. -/
def int_wrap (x : Int) : Int := (x + 2147483648) % 4294967296 - 2147483648

/-- Source `calc_spring_energy` of `TermGromacsAngleBendBase`, on the member `counter`, a
32-bit `int`: the returned energy and the counter after `counter++`. -/
def calc_spring_energy [Field R] (counter : Int) (x x_eq k : R) : R × Int :=
  let counter := int_wrap (counter + 1)
  let dx := x - x_eq
  (k * dx * dx, counter)

/-- Source `calc_anglebend_energy`: the two neighbour iterators of `atom2` (`it3` starts one
past `it1`), on the state (local `energy`, member `counter`).  `is_ps a` is
`a->atom_type == PS` and `calc_angle a b c` is `calc_angle` on the positions of the three
atoms. -/
def calc_anglebend_energy [Field R] (chain : ChainFB A R) (is_ps : A → Bool)
    (calc_angle : A → A → A → R) (counter : Int) (atom2 : A) : R × Int :=
  (neighbour_pairs (chain.covalent_bonds atom2)).foldl
    (fun st pair =>
      if is_ps pair.1 || is_ps atom2 || is_ps pair.2 then st
      else
        let angle := calc_angle pair.1 atom2 pair.2
        let out := calc_spring_energy st.2 angle 1 1
        (st.1 + out.1, out.2))
    (0, counter)

/-- Source `evaluate`: `counter = 0`, then the loops over the residues of the chain and the
atoms of each residue (`residues` lists `res->atoms` for every residue), on the state
(`energy_sum`, member `counter`).  The last argument is the value of `counter` before the
call. -/
def evaluate [Field R] (chain : ChainFB A R) (residues : List (List A)) (is_ps : A → Bool)
    (is_sidechain_atom : A → Bool) (calc_angle : A → A → A → R) (omit_sidechains : Bool)
    (_counter : Int) : R × Int :=
  residues.foldl
    (fun st res =>
      res.foldl
        (fun st atom =>
          if omit_sidechains && is_sidechain_atom atom then st
          else
            let out := calc_anglebend_energy chain is_ps calc_angle st.2 atom
            (st.1 + out.1, out.2))
        st)
    (0, 0)

/-- The triples `(atom1, atom2, atom3)` with vertex `atom2` that contain no atom of type
`PS`: one for every pair of neighbours of `atom2`, in iterator order. -/
def vertex_triples (chain : ChainFB A R) (is_ps : A → Bool) (atom2 : A) : List (A × A × A) :=
  ((neighbour_pairs (chain.covalent_bonds atom2)).filter
    fun pair => !(is_ps pair.1 || is_ps atom2 || is_ps pair.2)).map
    fun pair => (pair.1, atom2, pair.2)

/-- The triples of all vertices of the chain, residue by residue, without the side-chain
vertices when `omit_sidechains` is set. -/
def summed_triples (chain : ChainFB A R) (residues : List (List A)) (is_ps : A → Bool)
    (is_sidechain_atom : A → Bool) (omit_sidechains : Bool) : List (A × A × A) :=
  residues.flatMap fun res =>
    (res.filter fun atom => !(omit_sidechains && is_sidechain_atom atom)).flatMap
      (vertex_triples chain is_ps)

end TermAngleBend

/-! ## Example inputs -/

/-- An unbranched molecule of `n` atoms `0 - 1 - ... - (n - 1)` in a single residue: atom `a`
is bonded to `a - 1` and `a + 1`, the topological distance of two atoms is the difference of
their positions, and `type_of` gives the force-field types. -/
def linear_chain (n : Nat) (type_of : Nat → String) : ChainFB Nat ℚ where
  atoms := List.range n
  get_atom_type := type_of
  get_atom_charge := fun _ => 1
  mass := fun _ => 12
  chain_distance := fun a b => Int.natAbs ((a : Int) - (b : Int))
  covalent_bonds := fun a =>
    (if a = 0 then [] else [a - 1]) ++ (if a + 1 < n then [a + 1] else [])
  residue_index := fun _ => 0
  index := fun a => (a : Int)

/-- Force-field types of a five-atom example: `NH1 - CT1 - C - O - HB1`. -/
def example_types (a : Nat) : String :=
  if a = 0 then "NH1" else if a = 1 then "CT1" else if a = 2 then "C"
  else if a = 3 then "O" else "HB1"

/-- The five-atom example molecule `NH1 - CT1 - C - O - HB1`. -/
def example_chain : ChainFB Nat ℚ := linear_chain 5 example_types

/-- A stand-in for `std::sqrt` on the rationals, exact on quotients of perfect squares. -/
def example_sqrt (x : ℚ) : ℚ := (Nat.sqrt x.num.toNat : ℚ) / (Nat.sqrt x.den : ℚ)

/-- A per-type non-bonded table with entries for `NH1`, `CT1`, `C` and `O`, and none for
`HB1`. -/
def example_non_bonded_parameters : List (NonBondedParameter ℚ) :=
  [ { atom_type := "NH1", atom_number := 7, atom_mass := 14, atom_charge := 0,
      atom_ptype := "A", sigma := 3, epsilon := 4 },
    { atom_type := "CT1", atom_number := 6, atom_mass := 12, atom_charge := 0,
      atom_ptype := "A", sigma := 4, epsilon := 1 },
    { atom_type := "C", atom_number := 6, atom_mass := 12, atom_charge := 0,
      atom_ptype := "A", sigma := 2, epsilon := 9 },
    { atom_type := "O", atom_number := 8, atom_mass := 16, atom_charge := 0,
      atom_ptype := "A", sigma := 1, epsilon := 16 } ]

/-- A 1-4 table with the single pair entry `(O, NH1)`. -/
def example_non_bonded_14_parameters : List (NonBonded14Parameter ℚ) :=
  [ { atom_type1 := "O", atom_type2 := "NH1", pair_function := 1, sigma := 5, epsilon := 6 } ]

/-- A default-constructed per-type record for the examples. -/
def example_parameter0 : NonBondedParameter ℚ :=
  { atom_type := "", atom_number := 0, atom_mass := 0, atom_charge := 0, atom_ptype := "",
    sigma := 0, epsilon := 0 }

/-- A default-constructed 1-4 record for the examples. -/
def example_parameter14_0 : NonBonded14Parameter ℚ :=
  { atom_type1 := "", atom_type2 := "", pair_function := 0, sigma := 0, epsilon := 0 }

/-- A default-constructed non-bonded interaction for the examples. -/
def example_interaction0 : NonBondedInteraction Nat ℚ :=
  { atom1 := 0, atom2 := 0, qq := 0, c6 := 0, c12 := 0, is_14_interaction := false,
    do_eef1 := false, fac_12 := 0, fac_21 := 0, R_vdw_1 := 0, R_vdw_2 := 0,
    lambda1 := 0, lambda2 := 0 }

/-- A bonded-pair table with the single entry `(CT1, NH1)`. -/
def example_bonded_pair_parameters : List (BondedPairParameter ℚ) :=
  [ { type1 := "CT1", type2 := "NH1", r0 := 1, kb := 300 } ]

/-- An angle table with the single entry `(NH1, CT1, C)`. -/
def example_angle_bend_parameters : List (AngleBendParameter ℚ) :=
  [ { type1 := "NH1", type2 := "CT1", type3 := "C", theta0 := 107, k0 := 50, r13 := 0,
      kub := 0 } ]

/-- An improper-torsion table with the single entry `(O, X, X, C)`. -/
def example_improper_torsion_parameters : List (ImproperTorsionParameter ℚ) :=
  [ { type1 := "O", type2 := "X", type3 := "X", type4 := "C", phi0 := 0, cp := 120 } ]

/-- A torsion table with a wildcard entry `(X, CT1, C, X)` followed by the specific entry
`(NH1, CT1, C, O)`. -/
def example_torsion_parameters : List (TorsionParameter ℚ) :=
  [ { type1 := "X", type2 := "CT1", type3 := "C", type4 := "X", phi0 := 180, cp := 2,
      mult := 2 },
    { type1 := "NH1", type2 := "CT1", type3 := "C", type4 := "O", phi0 := 0, cp := 1,
      mult := 1 } ]

/-- A torsion table with two entries for the same types `(NH1, CT1, C, O)`, of
multiplicities 1 and 2. -/
def example_torsion_parameters_two_terms : List (TorsionParameter ℚ) :=
  [ { type1 := "NH1", type2 := "CT1", type3 := "C", type4 := "O", phi0 := 0, cp := 1,
      mult := 1 },
    { type1 := "NH1", type2 := "CT1", type3 := "C", type4 := "O", phi0 := 180, cp := 3,
      mult := 2 } ]

/-- A torsion table with the wildcard entry `(X, C, CT1, X)` followed by the wildcard entry
`(X, CT1, C, X)`. -/
def example_torsion_parameters_wildcards : List (TorsionParameter ℚ) :=
  [ { type1 := "X", type2 := "C", type3 := "CT1", type4 := "X", phi0 := 0, cp := 5,
      mult := 3 },
    { type1 := "X", type2 := "CT1", type3 := "C", type4 := "X", phi0 := 180, cp := 2,
      mult := 2 } ]

/-- A torsion table with the single entry `(NH1, CT1, C, O)`. -/
def example_torsion_parameters_single : List (TorsionParameter ℚ) :=
  [ { type1 := "NH1", type2 := "CT1", type3 := "C", type4 := "O", phi0 := 0, cp := 1,
      mult := 1 } ]

/-- A pairwise solvation factor matrix for two solvation indices. -/
def example_factors : List (List ℚ) := [[11, 12], [21, 22]]

/-- Van-der-Waals radii for two solvation indices. -/
def example_vdw_radii : List ℚ := [3, 4]

/-- Screening lengths for two solvation indices. -/
def example_lambda : List ℚ := [5, 6]

/-- A map from atom type to solvation index covering the types of the example chain. -/
def example_index_map : IndexMap := [("NH1", 0), ("O", 1), ("CT1", 1), ("HB1", 0)]

/-- An improper table with two entries that both match a quadruple of types
`(NH1, CT1, C, O)`: the first forward, the second reverse. -/
def example_improper_torsion_parameters_two_exact : List (ImproperTorsionParameter ℚ) :=
  [ { type1 := "NH1", type2 := "CT1", type3 := "C", type4 := "O", phi0 := 0, cp := 100 },
    { type1 := "O", type2 := "C", type3 := "CT1", type4 := "NH1", phi0 := 35, cp := 45 } ]

/-- An improper table with the exact entry `(NH1, CT1, C, O)` followed by the wildcard-outer
entry `(NH1, X, X, O)`. -/
def example_improper_torsion_parameters_exact_wildcard : List (ImproperTorsionParameter ℚ) :=
  [ { type1 := "NH1", type2 := "CT1", type3 := "C", type4 := "O", phi0 := 0, cp := 100 },
    { type1 := "NH1", type2 := "X", type3 := "X", type4 := "O", phi0 := 35, cp := 45 } ]

/-- A default-constructed improper-torsion record for the examples on the chain
`NH1 - CT1 - C - O - HB1`. -/
def example_improper_torsion0_chain : ImproperTorsionInteraction Nat ℚ :=
  { atom1 := 9, atom2 := 9, atom3 := 9, atom4 := 9, phi0 := 7, cp := 7 }

/-- A default-constructed improper-torsion record for the residue examples. -/
def example_improper_torsion0 : ImproperTorsionInteraction (Nat × AtomEnum) ℚ :=
  { atom1 := (0, .N), atom2 := (0, .N), atom3 := (0, .N), atom4 := (0, .N), phi0 := 0, cp := 0 }

/-- The residue number `i` of the examples: its atom named `name` is `(i, name)`, and it has
every atom. -/
def example_residue (i : Nat) (residue_type : ResidueEnum) (terminal_status : TerminalEnum) :
    Residue (Nat × AtomEnum) :=
  { residue_type := residue_type, terminal_status := terminal_status,
    atom := fun name => (i, name), has_atom := fun _ => true }

/-- A three-residue chain: N-terminal alanine, asparagine, C-terminal glycine. -/
def example_residues : List (Residue (Nat × AtomEnum)) :=
  [example_residue 0 .ALA .NTERM, example_residue 1 .ASN .INTERNAL,
   example_residue 2 .GLY .CTERM]

/-- Force-field types of the atoms of the example residues. -/
def example_atom_type (a : Nat × AtomEnum) : String :=
  match a.2 with
  | .N => "NH1"
  | .CA => "CT1"
  | .C => "C"
  | .O => "O"
  | _ => "HB1"

/-- A histidine residue number `i` that has neither of the protons `HD1` and `HE2` (and every
other atom). -/
def example_histidine_without_protons (i : Nat) (terminal_status : TerminalEnum) :
    Residue (Nat × AtomEnum) :=
  { residue_type := .HIS, terminal_status := terminal_status,
    atom := fun name => (i, name),
    has_atom := fun name => !(name = AtomEnum.HD1 || name = AtomEnum.HE2) }

/-- A three-residue chain whose middle residue is a histidine without `HD1` and `HE2`. -/
def example_residues_histidine : List (Residue (Nat × AtomEnum)) :=
  [example_residue 0 .ALA .NTERM, example_histidine_without_protons 1 .INTERNAL,
   example_residue 2 .GLY .CTERM]

/-- A five-residue chain: N-terminal alanine, asparagine, glycine, proline, C-terminal
glycine. -/
def example_residues_five : List (Residue (Nat × AtomEnum)) :=
  [example_residue 0 .ALA .NTERM, example_residue 1 .ASN .INTERNAL,
   example_residue 2 .GLY .INTERNAL, example_residue 3 .PRO .INTERNAL,
   example_residue 4 .GLY .CTERM]

/-- Force-field types of the backbone atoms of `example_residues_five`: glycine has the
alpha carbon `CT2`, proline the nitrogen `N` and the alpha carbon `CP1`. -/
def example_backbone_type (a : Nat × AtomEnum) : String :=
  match a with
  | (2, .CA) => "CT2"
  | (3, .N) => "N"
  | (3, .CA) => "CP1"
  | (_, .N) => "NH1"
  | (_, .CA) => "CT1"
  | (_, .C) => "C"
  | (_, .O) => "O"
  | _ => "HB1"

/-- The types of `example_backbone_type`, with an alpha carbon of residue 2 that no CMAP
pattern names. -/
def example_backbone_type_unknown (a : Nat × AtomEnum) : String :=
  match a with
  | (2, .CA) => "CT3"
  | _ => example_backbone_type a

/-- A torsion table with two specific entries `(NH1, CT1, C, O)` of different constants, the
wildcard entry `(X, CT1, C, X)` between them. -/
def example_torsion_parameters_two_specific : List (TorsionParameter ℚ) :=
  [ { type1 := "NH1", type2 := "CT1", type3 := "C", type4 := "O", phi0 := 0, cp := 1,
      mult := 1 },
    { type1 := "X", type2 := "CT1", type3 := "C", type4 := "X", phi0 := 180, cp := 2,
      mult := 2 },
    { type1 := "NH1", type2 := "CT1", type3 := "C", type4 := "O", phi0 := 90, cp := 7,
      mult := 3 } ]

/-- An improper-torsion table with the wildcard-outer entry `(NH1, X, X, O)` followed by the
exact entry `(NH1, CT1, C, O)`. -/
def example_improper_torsion_parameters_wildcard_exact : List (ImproperTorsionParameter ℚ) :=
  [ { type1 := "NH1", type2 := "X", type3 := "X", type4 := "O", phi0 := 35, cp := 45 },
    { type1 := "NH1", type2 := "CT1", type3 := "C", type4 := "O", phi0 := 0, cp := 100 } ]

/-- An improper table with the exact entry `(NH1, CT1, C, O)` between two wildcard-outer
entries `(NH1, X, X, O)`. -/
def example_improper_torsion_parameters_wildcard_exact_wildcard :
    List (ImproperTorsionParameter ℚ) :=
  [ { type1 := "NH1", type2 := "X", type3 := "X", type4 := "O", phi0 := 35, cp := 45 },
    { type1 := "NH1", type2 := "CT1", type3 := "C", type4 := "O", phi0 := 0, cp := 100 },
    { type1 := "NH1", type2 := "X", type3 := "X", type4 := "O", phi0 := 35, cp := 45 } ]

/-- An index map that knows the type `NH1` only. -/
def example_index_map_partial : IndexMap := [("NH1", 1)]

/-- The atoms of the five-atom example molecule by residue: `0, 1, 2` and `3, 4`. -/
def example_residue_atoms : List (List Nat) := [[0, 1, 2], [3, 4]]

/-- An angle oracle for the examples. -/
def example_calc_angle (atom1 atom2 atom3 : Nat) : ℚ := (atom1 + atom2 + atom3 : Nat)

/-! ## General lemmas on loops -/

section LoopLemmas

/-- A property of the loop state that holds initially and is kept by every iteration holds
after the loop. -/
theorem foldl_invariant {σ α : Type} (P : σ → Prop) (f : σ → α → σ) (l : List α)
    (init : σ) (h0 : P init) (hstep : ∀ s x, x ∈ l → P s → P (f s x)) : P (l.foldl f init) := by
  induction l generalizing init with
  | nil => simpa using h0
  | cons x xs ih =>
    simp only [List.foldl_cons]
    apply ih
    · exact hstep init x (List.mem_cons_self _ _) h0
    · intro s y hy hs
      exact hstep s y (List.mem_cons_of_mem _ hy) hs

/-- A loop whose body only appends to two output lists yields the two concatenations. -/
theorem foldl_append_pair {σ τ α : Type} (f : α → List σ) (g : α → List τ) (l : List α)
    (st : List σ × List τ) :
    l.foldl (fun st x => (st.1 ++ f x, st.2 ++ g x)) st =
      (st.1 ++ l.flatMap f, st.2 ++ l.flatMap g) := by
  induction l generalizing st with
  | nil => simp
  | cons x xs ih =>
    simp only [List.foldl_cons, List.flatMap_cons]
    rw [ih]
    simp only [List.append_assoc]

/-- In a list without duplicates an element sits at one position only. -/
theorem getElem?_unique_of_nodup {A : Type} {l : List A} (hl : l.Nodup) {i j : Nat} {a : A}
    (hi : l[i]? = some a) (hj : l[j]? = some a) : i = j := by
  obtain ⟨hi', hia⟩ := List.getElem?_eq_some_iff.mp hi
  obtain ⟨hj', hja⟩ := List.getElem?_eq_some_iff.mp hj
  exact (hl.getElem_inj_iff).mp (hia.trans hja.symm)

end LoopLemmas

/-! ## Lemmas on the non-bonded generators -/

section NonBondedLemmas

variable {A R : Type} [Field R]

/-- The records appended by one pass of the inner loop body. -/
theorem mem_non_bonded_step (sqrt : R → R) (FELEC : R)
    (interaction0 : NonBondedInteraction A R)
    (parameter14_0 : NonBonded14Parameter R) (parameter0 : NonBondedParameter R)
    (chain : ChainFB A R) (nbp : List (NonBondedParameter R))
    (nb14 : List (NonBonded14Parameter R))
    (i : Nat) (info1 : AtomTypeInfo A R) (j : Nat) (info2 : AtomTypeInfo A R)
    (r : NonBondedInteraction A R) :
    r ∈ non_bonded_step sqrt FELEC interaction0 parameter14_0 parameter0 chain nbp nb14
        i info1 j info2 ↔
      i ≤ j ∧
        ((chain.chain_distance info1.atom info2.atom > 3 ∧
            r = full_pair_interaction sqrt FELEC interaction0 info1 info2) ∨
         (chain.chain_distance info1.atom info2.atom = 3 ∧
            r = pair14_interaction sqrt FELEC interaction0 parameter14_0 parameter0 nbp nb14
              info1 info2)) := by
  unfold non_bonded_step
  by_cases hij : i > j
  · simp [hij]
  · have hle : i ≤ j := by omega
    by_cases h3 : chain.chain_distance info1.atom info2.atom > 3
    · have : chain.chain_distance info1.atom info2.atom ≠ 3 := by omega
      simp [hij, h3, hle, this]
    · by_cases h4 : chain.chain_distance info1.atom info2.atom = 3
      · simp [hij, h3, h4, hle]
      · simp [hij, h3, h4, hle]

/-- A record is returned by `generate_non_bonded_interactions` exactly when the loop body
appends it for some pair of positions of the atom enumeration. -/
theorem mem_generate_non_bonded_interactions (sqrt : R → R) (FELEC : R)
    (interaction0 : NonBondedInteraction A R)
    (parameter14_0 : NonBonded14Parameter R) (parameter0 : NonBondedParameter R)
    (chain : ChainFB A R) (nbp : List (NonBondedParameter R))
    (nb14 : List (NonBonded14Parameter R)) (r : NonBondedInteraction A R) :
    r ∈ generate_non_bonded_interactions sqrt FELEC interaction0 parameter14_0 parameter0
        chain nbp nb14 ↔
      ∃ i j a1 a2, chain.atoms[i]? = some a1 ∧ chain.atoms[j]? = some a2 ∧
        r ∈ non_bonded_step sqrt FELEC interaction0 parameter14_0 parameter0 chain nbp nb14
          i (atom_type_info parameter0 chain nbp a1) j
          (atom_type_info parameter0 chain nbp a2) := by
  unfold generate_non_bonded_interactions atom_type_infos
  simp only [List.mem_flatMap, List.mem_enum_iff_getElem?, List.getElem?_map]
  constructor
  · rintro ⟨⟨i, x⟩, hx, ⟨j, y⟩, hy, hr⟩
    simp only [Option.map_eq_some'] at hx hy
    obtain ⟨a1, h1, rfl⟩ := hx
    obtain ⟨a2, h2, rfl⟩ := hy
    exact ⟨i, j, a1, a2, h1, h2, hr⟩
  · rintro ⟨i, j, a1, a2, h1, h2, hr⟩
    refine ⟨(i, atom_type_info parameter0 chain nbp a1), ?_,
      (j, atom_type_info parameter0 chain nbp a2), ?_, hr⟩
    · exact Option.map_eq_some'.mpr ⟨a1, h1, rfl⟩
    · exact Option.map_eq_some'.mpr ⟨a2, h2, rfl⟩

/-- Origin of a record appended by the inner loop body: its index pair, atoms, distance and
1-4 flag. -/
theorem non_bonded_step_origin (sqrt : R → R) (FELEC : R)
    (interaction0 : NonBondedInteraction A R)
    (parameter14_0 : NonBonded14Parameter R) (parameter0 : NonBondedParameter R)
    (chain : ChainFB A R) (nbp : List (NonBondedParameter R))
    (nb14 : List (NonBonded14Parameter R))
    (i j : Nat) (a1 a2 : A) (r : NonBondedInteraction A R)
    (hr : r ∈ non_bonded_step sqrt FELEC interaction0 parameter14_0 parameter0 chain nbp nb14
        i (atom_type_info parameter0 chain nbp a1) j (atom_type_info parameter0 chain nbp a2)) :
    i ≤ j ∧ r.atom1 = a1 ∧ r.atom2 = a2 ∧ 3 ≤ chain.chain_distance a1 a2 ∧
      (r.is_14_interaction = true ↔ chain.chain_distance a1 a2 = 3) := by
  rw [mem_non_bonded_step] at hr
  obtain ⟨hij, h | h⟩ := hr
  · obtain ⟨hd, rfl⟩ := h
    have hd' : chain.chain_distance a1 a2 > 3 := hd
    refine ⟨hij, rfl, rfl, by omega, ?_⟩
    simp only [full_pair_interaction]
    constructor
    · intro h; cases h
    · intro h; omega
  · obtain ⟨hd, rfl⟩ := h
    have hd' : chain.chain_distance a1 a2 = 3 := hd
    refine ⟨hij, rfl, rfl, by omega, ?_⟩
    simp only [pair14_interaction]
    simp [hd']

end NonBondedLemmas

section NonBondedParameterLemmas

variable {A R : Type}

/-- The scan of `get_non_bonded_parameter` returns the first entry of the requested type, or
the default-constructed record. -/
theorem get_non_bonded_parameter_eq_find (parameter0 : NonBondedParameter R) (atom_type : String)
    (table : List (NonBondedParameter R)) :
    get_non_bonded_parameter parameter0 atom_type table =
      (table.find? fun p => decide (p.atom_type = atom_type)).getD parameter0 := by
  induction table with
  | nil => rfl
  | cons p rest ih =>
    unfold get_non_bonded_parameter
    by_cases h : p.atom_type = atom_type
    · simp [h]
    · simp [h, ih]

/-- The scan of `get_non_bonded14_parameter` finds the first entry matching in either order. -/
theorem scan_non_bonded14_eq_find (atom_type1 atom_type2 : String)
    (table : List (NonBonded14Parameter R)) :
    scan_non_bonded14 atom_type1 atom_type2 table =
      table.find? fun p => decide ((p.atom_type1 = atom_type1 ∧ p.atom_type2 = atom_type2) ∨
        (p.atom_type1 = atom_type2 ∧ p.atom_type2 = atom_type1)) := by
  induction table with
  | nil => rfl
  | cons p rest ih =>
    unfold scan_non_bonded14
    by_cases h : (p.atom_type1 = atom_type1 ∧ p.atom_type2 = atom_type2) ∨
        (p.atom_type1 = atom_type2 ∧ p.atom_type2 = atom_type1)
    · rw [if_pos h, List.find?_cons_of_pos _ (by simpa using h)]
    · rw [if_neg h, List.find?_cons_of_neg _ (by simpa using h), ih]

/-- The scan of `get_non_bonded14_parameter` does not depend on the order of the two types. -/
theorem scan_non_bonded14_comm (atom_type1 atom_type2 : String)
    (table : List (NonBonded14Parameter R)) :
    scan_non_bonded14 atom_type1 atom_type2 table =
      scan_non_bonded14 atom_type2 atom_type1 table := by
  induction table with
  | nil => rfl
  | cons p rest ih =>
    unfold scan_non_bonded14
    rw [ih]
    by_cases h : (p.atom_type1 = atom_type1 ∧ p.atom_type2 = atom_type2) ∨
        (p.atom_type1 = atom_type2 ∧ p.atom_type2 = atom_type1)
    · rw [if_pos h, if_pos (Or.symm h)]
    · rw [if_neg h, if_neg (fun h' => h (Or.symm h'))]

/-- Multiplying by the literal `0.5` is halving. -/
theorem half_mul_eq_div_two [Field R] [CharZero R] (x : R) : (0.5 : R) * x = x / 2 := by
  norm_num
  ring

end NonBondedParameterLemmas

section NonBondedCachedLemmas

variable {A R : Type} [Field R] [DecidableEq R]

/-- The solvation block leaves the atoms, `qq`, `c6`, `c12` and the 1-4 flag untouched. -/
theorem attach_eef1_fields (atom_h_weight : R) (chain : ChainFB A R) (factors : List (List R))
    (vdw_radii lambda : List R) (info1 info2 : AtomTypeInfo A R)
    (interaction : NonBondedInteraction A R) (m : IndexMap) :
    (attach_eef1 atom_h_weight chain factors vdw_radii lambda info1 info2 interaction m).1.atom1
        = interaction.atom1 ∧
    (attach_eef1 atom_h_weight chain factors vdw_radii lambda info1 info2 interaction m).1.atom2
        = interaction.atom2 ∧
    (attach_eef1 atom_h_weight chain factors vdw_radii lambda info1 info2 interaction m).1.qq
        = interaction.qq ∧
    (attach_eef1 atom_h_weight chain factors vdw_radii lambda info1 info2 interaction m).1.c6
        = interaction.c6 ∧
    (attach_eef1 atom_h_weight chain factors vdw_radii lambda info1 info2 interaction m).1.c12
        = interaction.c12 ∧
    (attach_eef1 atom_h_weight chain factors vdw_radii lambda info1 info2 interaction
        m).1.is_14_interaction = interaction.is_14_interaction := by
  unfold attach_eef1
  split_ifs <;> exact ⟨rfl, rfl, rfl, rfl, rfl, rfl⟩

end NonBondedCachedLemmas

/-! ## Lemmas on the angle-bend generator -/

section AngleBendLemmas

variable {A R : Type}

/-- The neighbour pairs are the pairs `(a, b)` with `a` listed before `b`. -/
theorem mem_neighbour_pairs (l : List A) (a b : A) :
    (a, b) ∈ neighbour_pairs l ↔ List.Sublist [a, b] l := by
  induction l with
  | nil => simp [neighbour_pairs]
  | cons x rest ih =>
    unfold neighbour_pairs
    rw [List.mem_append, List.mem_map, ih, List.sublist_cons_iff]
    constructor
    · rintro (⟨c, hc, hcx⟩ | h)
      · right
        obtain ⟨rfl, rfl⟩ := Prod.mk.inj hcx
        exact ⟨[c], rfl, List.singleton_sublist.mpr hc⟩
      · left; exact h
    · rintro (h | ⟨r, hr, hsub⟩)
      · right; exact h
      · left
        obtain ⟨rfl, rfl⟩ := List.cons.inj hr
        exact ⟨b, List.singleton_sublist.mp hsub, rfl⟩

/-- A record found by the angle scan carries the three atoms and comes from a matching
entry. -/
theorem scan_angle_bend_some (atom1 atom2 atom3 : A) (type1 type2 type3 : String)
    (table : List (AngleBendParameter R)) (r : AngleBendInteraction A R)
    (h : scan_angle_bend atom1 atom2 atom3 type1 type2 type3 table = some r) :
    r.atom1 = atom1 ∧ r.atom2 = atom2 ∧ r.atom3 = atom3 ∧
      ∃ p ∈ table, angle_bend_matches p type1 type2 type3 := by
  induction table with
  | nil => cases h
  | cons p rest ih =>
    unfold scan_angle_bend at h
    by_cases hp : angle_bend_matches p type1 type2 type3
    · rw [if_pos hp] at h
      cases h
      exact ⟨rfl, rfl, rfl, p, List.mem_cons_self _ _, hp⟩
    · rw [if_neg hp] at h
      obtain ⟨h1, h2, h3, q, hq, hm⟩ := ih h
      exact ⟨h1, h2, h3, q, List.mem_cons_of_mem _ hq, hm⟩

/-- The angle scan finds nothing exactly when no entry matches. -/
theorem scan_angle_bend_none (atom1 atom2 atom3 : A) (type1 type2 type3 : String)
    (table : List (AngleBendParameter R)) :
    scan_angle_bend atom1 atom2 atom3 type1 type2 type3 table = none ↔
      ∀ p ∈ table, ¬ angle_bend_matches p type1 type2 type3 := by
  induction table with
  | nil => simp [scan_angle_bend]
  | cons p rest ih =>
    unfold scan_angle_bend
    by_cases hp : angle_bend_matches p type1 type2 type3
    · simp [hp]
    · simp [hp, ih]

/-- Closed form of `generate_angle_bend_interactions`: the records found, and the triples
not found, both in loop order. -/
theorem generate_angle_bend_interactions_eq (chain : ChainFB A R)
    (table : List (AngleBendParameter R)) :
    generate_angle_bend_interactions chain table =
      (chain.atoms.flatMap fun atom2 =>
          (neighbour_pairs (chain.covalent_bonds atom2)).flatMap fun pair =>
            (scan_angle_bend pair.1 atom2 pair.2 (chain.get_atom_type pair.1)
              (chain.get_atom_type atom2) (chain.get_atom_type pair.2) table).toList,
       chain.atoms.flatMap fun atom2 =>
          (neighbour_pairs (chain.covalent_bonds atom2)).flatMap fun pair =>
            if (scan_angle_bend (R := R) pair.1 atom2 pair.2 (chain.get_atom_type pair.1)
              (chain.get_atom_type atom2) (chain.get_atom_type pair.2) table).isNone
            then [(pair.1, atom2, pair.2)] else []) := by
  unfold generate_angle_bend_interactions
  have hstep : ∀ (atom2 : A) (st : List (AngleBendInteraction A R) × List (A × A × A))
      (pair : A × A),
      angle_bend_step chain table st atom2 pair =
        (st.1 ++ (scan_angle_bend pair.1 atom2 pair.2 (chain.get_atom_type pair.1)
              (chain.get_atom_type atom2) (chain.get_atom_type pair.2) table).toList,
         st.2 ++ if (scan_angle_bend (R := R) pair.1 atom2 pair.2 (chain.get_atom_type pair.1)
              (chain.get_atom_type atom2) (chain.get_atom_type pair.2) table).isNone
            then [(pair.1, atom2, pair.2)] else []) := by
    intro atom2 st pair
    unfold angle_bend_step
    cases scan_angle_bend pair.1 atom2 pair.2 (chain.get_atom_type pair.1)
        (chain.get_atom_type atom2) (chain.get_atom_type pair.2) table with
    | none => simp
    | some r => simp
  simp only [hstep, foldl_append_pair, List.nil_append]

end AngleBendLemmas

/-! ## Lemmas on the torsion generator -/

section TorsionLemmas
variable {A R : Type}

/-- A loop whose body appends to two output lists, whatever its shape, yields the two
concatenations. -/
theorem foldl_append_pair_of {σ τ α : Type} (h : List σ × List τ → α → List σ × List τ)
    (f : α → List σ) (g : α → List τ)
    (hh : ∀ st x, h st x = (st.1 ++ f x, st.2 ++ g x)) (l : List α) (st : List σ × List τ) :
    l.foldl h st = (st.1 ++ l.flatMap f, st.2 ++ l.flatMap g) := by
  have : h = fun st x => (st.1 ++ f x, st.2 ++ g x) := by
    funext st x
    exact hh st x
  rw [this]
  exact foldl_append_pair f g l st

/-- Closed form of `generate_torsion_interactions`: the outputs of the loop body on the
candidate quadruples, concatenated in loop order. -/
theorem generate_torsion_interactions_eq [DecidableEq A] (chain : ChainFB A R)
    (table : List (TorsionParameter R)) :
    generate_torsion_interactions chain table =
      ((torsion_candidates chain).flatMap fun q =>
          (torsion_quadruple chain table q.1 q.2.1 q.2.2.1 q.2.2.2).1,
       (torsion_candidates chain).flatMap fun q =>
          (torsion_quadruple chain table q.1 q.2.1 q.2.2.1 q.2.2.2).2) := by
  unfold generate_torsion_interactions torsion_candidates
  have h4 : ∀ (atom1 atom2 atom3 : A) (l : List A)
      (st : List (TorsionInteraction A R) × List (A × A × A × A)),
      l.foldl (fun st atom4 =>
          if atom2 ≠ atom4 ∧ atom1 ≠ atom3 then
            let out := torsion_quadruple chain table atom1 atom2 atom3 atom4
            (st.1 ++ out.1, st.2 ++ out.2)
          else st) st =
        (st.1 ++ (l.flatMap fun atom4 =>
            if atom2 ≠ atom4 ∧ atom1 ≠ atom3 then [(atom1, atom2, atom3, atom4)]
            else []).flatMap (fun q =>
              (torsion_quadruple chain table q.1 q.2.1 q.2.2.1 q.2.2.2).1),
         st.2 ++ (l.flatMap fun atom4 =>
            if atom2 ≠ atom4 ∧ atom1 ≠ atom3 then [(atom1, atom2, atom3, atom4)]
            else []).flatMap (fun q =>
              (torsion_quadruple chain table q.1 q.2.1 q.2.2.1 q.2.2.2).2)) := by
    intro atom1 atom2 atom3 l st
    rw [List.flatMap_assoc, List.flatMap_assoc]
    apply foldl_append_pair_of
    intro st atom4
    by_cases hc : atom2 ≠ atom4 ∧ atom1 ≠ atom3
    · simp [hc]
    · simp [hc]
  have h3 : ∀ (atom2 atom3 : A) (l : List A)
      (st : List (TorsionInteraction A R) × List (A × A × A × A)),
      l.foldl (fun st atom1 =>
          (chain.covalent_bonds atom3).foldl (fun st atom4 =>
            if atom2 ≠ atom4 ∧ atom1 ≠ atom3 then
              let out := torsion_quadruple chain table atom1 atom2 atom3 atom4
              (st.1 ++ out.1, st.2 ++ out.2)
            else st) st) st =
        (st.1 ++ (l.flatMap fun atom1 => (chain.covalent_bonds atom3).flatMap fun atom4 =>
            if atom2 ≠ atom4 ∧ atom1 ≠ atom3 then [(atom1, atom2, atom3, atom4)]
            else []).flatMap (fun q =>
              (torsion_quadruple chain table q.1 q.2.1 q.2.2.1 q.2.2.2).1),
         st.2 ++ (l.flatMap fun atom1 => (chain.covalent_bonds atom3).flatMap fun atom4 =>
            if atom2 ≠ atom4 ∧ atom1 ≠ atom3 then [(atom1, atom2, atom3, atom4)]
            else []).flatMap (fun q =>
              (torsion_quadruple chain table q.1 q.2.1 q.2.2.1 q.2.2.2).2)) := by
    intro atom2 atom3 l st
    rw [List.flatMap_assoc, List.flatMap_assoc]
    apply foldl_append_pair_of
    intro st atom1
    exact h4 atom1 atom2 atom3 _ st
  have h2 : ∀ (atom2 : A) (l : List A)
      (st : List (TorsionInteraction A R) × List (A × A × A × A)),
      l.foldl (fun st atom3 =>
          if chain.residue_index atom2 > chain.residue_index atom3 ∨
             (chain.residue_index atom2 = chain.residue_index atom3 ∧
              chain.index atom2 > chain.index atom3) then st
          else if chain.chain_distance atom2 atom3 ≠ 1 then st
          else
            (chain.covalent_bonds atom2).foldl (fun st atom1 =>
              (chain.covalent_bonds atom3).foldl (fun st atom4 =>
                if atom2 ≠ atom4 ∧ atom1 ≠ atom3 then
                  let out := torsion_quadruple chain table atom1 atom2 atom3 atom4
                  (st.1 ++ out.1, st.2 ++ out.2)
                else st) st) st) st =
        (st.1 ++ (l.flatMap fun atom3 =>
            if chain.residue_index atom2 > chain.residue_index atom3 ∨
               (chain.residue_index atom2 = chain.residue_index atom3 ∧
                chain.index atom2 > chain.index atom3) then []
            else if chain.chain_distance atom2 atom3 ≠ 1 then []
            else (chain.covalent_bonds atom2).flatMap fun atom1 =>
              (chain.covalent_bonds atom3).flatMap fun atom4 =>
                if atom2 ≠ atom4 ∧ atom1 ≠ atom3 then [(atom1, atom2, atom3, atom4)]
                else []).flatMap (fun q =>
              (torsion_quadruple chain table q.1 q.2.1 q.2.2.1 q.2.2.2).1),
         st.2 ++ (l.flatMap fun atom3 =>
            if chain.residue_index atom2 > chain.residue_index atom3 ∨
               (chain.residue_index atom2 = chain.residue_index atom3 ∧
                chain.index atom2 > chain.index atom3) then []
            else if chain.chain_distance atom2 atom3 ≠ 1 then []
            else (chain.covalent_bonds atom2).flatMap fun atom1 =>
              (chain.covalent_bonds atom3).flatMap fun atom4 =>
                if atom2 ≠ atom4 ∧ atom1 ≠ atom3 then [(atom1, atom2, atom3, atom4)]
                else []).flatMap (fun q =>
              (torsion_quadruple chain table q.1 q.2.1 q.2.2.1 q.2.2.2).2)) := by
    intro atom2 l st
    rw [List.flatMap_assoc, List.flatMap_assoc]
    apply foldl_append_pair_of
    intro st atom3
    split_ifs
    · simp
    · simp
    · exact h3 atom2 atom3 _ st
  rw [List.flatMap_assoc, List.flatMap_assoc]
  have h1 := foldl_append_pair_of
    (fun (st : List (TorsionInteraction A R) × List (A × A × A × A)) atom2 =>
      chain.atoms.foldl (fun st atom3 =>
          if chain.residue_index atom2 > chain.residue_index atom3 ∨
             (chain.residue_index atom2 = chain.residue_index atom3 ∧
              chain.index atom2 > chain.index atom3) then st
          else if chain.chain_distance atom2 atom3 ≠ 1 then st
          else
            (chain.covalent_bonds atom2).foldl (fun st atom1 =>
              (chain.covalent_bonds atom3).foldl (fun st atom4 =>
                if atom2 ≠ atom4 ∧ atom1 ≠ atom3 then
                  let out := torsion_quadruple chain table atom1 atom2 atom3 atom4
                  (st.1 ++ out.1, st.2 ++ out.2)
                else st) st) st) st)
    _ _ (fun st atom2 => h2 atom2 chain.atoms st) chain.atoms ([], [])
  simpa using h1

/-- The records of the exact scan: one for every entry that matches forward, or reverse
without matching forward. -/
theorem mem_scan_torsion_exact (atom1 atom2 atom3 atom4 : A) (type1 type2 type3 type4 : String)
    (table : List (TorsionParameter R)) (r : TorsionInteraction A R) :
    r ∈ scan_torsion_exact atom1 atom2 atom3 atom4 type1 type2 type3 type4 table ↔
      ∃ p ∈ table,
        (torsion_exact_forward p type1 type2 type3 type4 ∧
          r = torsion_interaction_of atom1 atom2 atom3 atom4 p) ∨
        (¬ torsion_exact_forward p type1 type2 type3 type4 ∧
          torsion_exact_reverse p type1 type2 type3 type4 ∧
          r = torsion_interaction_of atom4 atom3 atom2 atom1 p) := by
  induction table with
  | nil => simp [scan_torsion_exact]
  | cons p rest ih =>
    unfold scan_torsion_exact
    by_cases hf : torsion_exact_forward p type1 type2 type3 type4
    · simp [hf, ih]
    · by_cases hr : torsion_exact_reverse p type1 type2 type3 type4
      · simp [hf, hr, ih]
      · simp [hf, hr, ih]

/-- The exact scan finds nothing exactly when no entry matches forward or reverse. -/
theorem scan_torsion_exact_eq_nil (atom1 atom2 atom3 atom4 : A)
    (type1 type2 type3 type4 : String) (table : List (TorsionParameter R)) :
    scan_torsion_exact atom1 atom2 atom3 atom4 type1 type2 type3 type4 table = [] ↔
      ∀ p ∈ table, ¬ (torsion_exact_forward p type1 type2 type3 type4 ∨
        torsion_exact_reverse p type1 type2 type3 type4) := by
  induction table with
  | nil => simp [scan_torsion_exact]
  | cons p rest ih =>
    unfold scan_torsion_exact
    by_cases hf : torsion_exact_forward p type1 type2 type3 type4
    · simp [hf]
    · by_cases hr : torsion_exact_reverse p type1 type2 type3 type4
      · simp [hf, hr]
      · simp [hf, hr, ih]

/-- The constants of the records of the exact scan are those of the entries that match
forward or reverse, in table order. -/
theorem scan_torsion_exact_constants (atom1 atom2 atom3 atom4 : A)
    (type1 type2 type3 type4 : String) (table : List (TorsionParameter R)) :
    (scan_torsion_exact atom1 atom2 atom3 atom4 type1 type2 type3 type4 table).map
        (fun r => (r.phi0, r.cp, r.mult)) =
      (table.filter fun p => decide (torsion_exact_forward p type1 type2 type3 type4 ∨
        torsion_exact_reverse p type1 type2 type3 type4)).map
        (fun p => (p.phi0, p.cp, p.mult)) := by
  induction table with
  | nil => simp [scan_torsion_exact]
  | cons p rest ih =>
    unfold scan_torsion_exact
    by_cases hf : torsion_exact_forward p type1 type2 type3 type4
    · simp [hf, ih, torsion_interaction_of]
    · by_cases hr : torsion_exact_reverse p type1 type2 type3 type4
      · simp [hf, hr, ih, torsion_interaction_of]
      · simp [hf, hr, ih]

/-- The exact scan only reads the entries that match forward or reverse: dropping other
entries from the table does not change it. -/
theorem scan_torsion_exact_filter (atom1 atom2 atom3 atom4 : A)
    (type1 type2 type3 type4 : String) (table : List (TorsionParameter R))
    (keep : TorsionParameter R → Bool)
    (hkeep : ∀ p ∈ table, torsion_exact_forward p type1 type2 type3 type4 ∨
      torsion_exact_reverse p type1 type2 type3 type4 → keep p = true) :
    scan_torsion_exact atom1 atom2 atom3 atom4 type1 type2 type3 type4 (table.filter keep) =
      scan_torsion_exact atom1 atom2 atom3 atom4 type1 type2 type3 type4 table := by
  induction table with
  | nil => rfl
  | cons p rest ih =>
    have ih' := ih (fun q hq h => hkeep q (List.mem_cons_of_mem _ hq) h)
    by_cases hk : keep p = true
    · rw [List.filter_cons_of_pos hk]
      unfold scan_torsion_exact
      rw [ih']
    · rw [List.filter_cons_of_neg hk, ih']
      have hne : ¬ (torsion_exact_forward p type1 type2 type3 type4 ∨
          torsion_exact_reverse p type1 type2 type3 type4) :=
        fun h => hk (hkeep p (List.mem_cons_self _ _) h)
      have hf : ¬ torsion_exact_forward p type1 type2 type3 type4 := fun h => hne (Or.inl h)
      have hr : ¬ torsion_exact_reverse p type1 type2 type3 type4 := fun h => hne (Or.inr h)
      conv_rhs => unfold scan_torsion_exact
      rw [if_neg hf, if_neg hr]

/-- The wildcard scan returns the record of the first entry that matches as wildcard in
either direction: forward atom order when that entry matches forward, reverse otherwise. -/
theorem scan_torsion_wildcard_eq_find (atom1 atom2 atom3 atom4 : A) (type2 type3 : String)
    (table : List (TorsionParameter R)) :
    scan_torsion_wildcard atom1 atom2 atom3 atom4 type2 type3 table =
      (table.find? fun p => decide (torsion_wildcard_forward p type2 type3 ∨
          torsion_wildcard_reverse p type2 type3)).map
        (fun p => if torsion_wildcard_forward p type2 type3
          then torsion_interaction_of atom1 atom2 atom3 atom4 p
          else torsion_interaction_of atom4 atom3 atom2 atom1 p) := by
  induction table with
  | nil => rfl
  | cons p rest ih =>
    unfold scan_torsion_wildcard
    by_cases hf : torsion_wildcard_forward p type2 type3
    · simp [hf]
    · by_cases hr : torsion_wildcard_reverse p type2 type3
      · simp [hf, hr]
      · simp [hf, hr, ih]

/-- Dropping from a list the elements that contribute nothing does not change a
concatenation. -/
theorem flatMap_filter_of_nil {α β : Type} (l : List α) (f : α → List β) (keep : α → Bool)
    (h : ∀ x ∈ l, keep x = false → f x = []) :
    (l.filter keep).flatMap f = l.flatMap f := by
  induction l with
  | nil => rfl
  | cons x xs ih =>
    have ih' := ih (fun y hy => h y (List.mem_cons_of_mem _ hy))
    by_cases hk : keep x = true
    · rw [List.filter_cons_of_pos hk, List.flatMap_cons, List.flatMap_cons, ih']
    · rw [List.filter_cons_of_neg hk, List.flatMap_cons, ih',
        h x (List.mem_cons_self _ _) (by simpa using hk), List.nil_append]

/-- Membership in the candidate quadruples, spelled out. -/
theorem mem_torsion_candidates [DecidableEq A] (chain : ChainFB A R)
    (atom1 atom2 atom3 atom4 : A) :
    (atom1, atom2, atom3, atom4) ∈ torsion_candidates chain ↔
      atom2 ∈ chain.atoms ∧ atom3 ∈ chain.atoms ∧
      ¬ (chain.residue_index atom2 > chain.residue_index atom3 ∨
        (chain.residue_index atom2 = chain.residue_index atom3 ∧
          chain.index atom2 > chain.index atom3)) ∧
      chain.chain_distance atom2 atom3 = 1 ∧
      atom1 ∈ chain.covalent_bonds atom2 ∧ atom4 ∈ chain.covalent_bonds atom3 ∧
      atom2 ≠ atom4 ∧ atom1 ≠ atom3 := by
  unfold torsion_candidates
  simp only [List.mem_flatMap]
  constructor
  · rintro ⟨b2, hb2, b3, hb3, h⟩
    split_ifs at h with h1 h2
    · cases h
    · cases h
    · simp only [List.mem_flatMap] at h
      obtain ⟨b1, hb1, b4, hb4, h⟩ := h
      split_ifs at h with h3
      · rw [List.mem_singleton] at h
        obtain ⟨rfl, rfl, rfl, rfl⟩ := by simpa using h
        exact ⟨hb2, hb3, h1, by simpa using h2, hb1, hb4, h3.1, h3.2⟩
      · cases h
  · rintro ⟨h2, h3, hord, hd, h1, h4, hne1, hne2⟩
    refine ⟨atom2, h2, atom3, h3, ?_⟩
    rw [if_neg hord, if_neg (by simpa using hd)]
    simp only [List.mem_flatMap]
    refine ⟨atom1, h1, atom4, h4, ?_⟩
    rw [if_pos ⟨hne1, hne2⟩]
    exact List.mem_singleton.mpr rfl

end TorsionLemmas

/-! ## Lemmas on the improper-torsion generator -/

section ImproperLemmas
variable {A R : Type}

/-- The scan of `atoms_to_improper_torsion` from any state: either some matching entry gave
the final `phi0` and `cp` and the flag is set, or no entry matches and the state is
unchanged; the atoms are never changed. -/
theorem improper_scan_cases (type1 type2 type3 type4 : String)
    (table : List (ImproperTorsionParameter R))
    (st : Bool × ImproperTorsionInteraction A R) :
    ((∃ p ∈ table, improper_matches p type1 type2 type3 type4 ∧
        (table.foldl (fun (st : Bool × ImproperTorsionInteraction A R) p =>
          if improper_matches p type1 type2 type3 type4 then
            (true, { st.2 with phi0 := p.phi0, cp := p.cp })
          else st) st).2.phi0 = p.phi0 ∧
        (table.foldl (fun (st : Bool × ImproperTorsionInteraction A R) p =>
          if improper_matches p type1 type2 type3 type4 then
            (true, { st.2 with phi0 := p.phi0, cp := p.cp })
          else st) st).2.cp = p.cp ∧
        (table.foldl (fun (st : Bool × ImproperTorsionInteraction A R) p =>
          if improper_matches p type1 type2 type3 type4 then
            (true, { st.2 with phi0 := p.phi0, cp := p.cp })
          else st) st).1 = true) ∨
      ((∀ p ∈ table, ¬ improper_matches p type1 type2 type3 type4) ∧
        table.foldl (fun (st : Bool × ImproperTorsionInteraction A R) p =>
          if improper_matches p type1 type2 type3 type4 then
            (true, { st.2 with phi0 := p.phi0, cp := p.cp })
          else st) st = st)) ∧
    (table.foldl (fun (st : Bool × ImproperTorsionInteraction A R) p =>
        if improper_matches p type1 type2 type3 type4 then
          (true, { st.2 with phi0 := p.phi0, cp := p.cp })
        else st) st).2.atom1 = st.2.atom1 ∧
    (table.foldl (fun (st : Bool × ImproperTorsionInteraction A R) p =>
        if improper_matches p type1 type2 type3 type4 then
          (true, { st.2 with phi0 := p.phi0, cp := p.cp })
        else st) st).2.atom2 = st.2.atom2 ∧
    (table.foldl (fun (st : Bool × ImproperTorsionInteraction A R) p =>
        if improper_matches p type1 type2 type3 type4 then
          (true, { st.2 with phi0 := p.phi0, cp := p.cp })
        else st) st).2.atom3 = st.2.atom3 ∧
    (table.foldl (fun (st : Bool × ImproperTorsionInteraction A R) p =>
        if improper_matches p type1 type2 type3 type4 then
          (true, { st.2 with phi0 := p.phi0, cp := p.cp })
        else st) st).2.atom4 = st.2.atom4 := by
  induction table generalizing st with
  | nil => exact ⟨Or.inr ⟨fun p hp => (by cases hp), rfl⟩, rfl, rfl, rfl, rfl⟩
  | cons q rest ih =>
    simp only [List.foldl_cons]
    by_cases hq : improper_matches q type1 type2 type3 type4
    · rw [if_pos hq]
      obtain ⟨h, a1, a2, a3, a4⟩ := ih (true, { st.2 with phi0 := q.phi0, cp := q.cp })
      refine ⟨Or.inl ?_, a1, a2, a3, a4⟩
      rcases h with ⟨p, hp, hm, e1, e2, e3⟩ | ⟨_, heq⟩
      · exact ⟨p, List.mem_cons_of_mem _ hp, hm, e1, e2, e3⟩
      · rw [heq]
        exact ⟨q, List.mem_cons_self _ _, hq, rfl, rfl, rfl⟩
    · rw [if_neg hq]
      obtain ⟨h, a1, a2, a3, a4⟩ := ih st
      refine ⟨?_, a1, a2, a3, a4⟩
      rcases h with ⟨p, hp, hm, e1, e2, e3⟩ | ⟨hnone, heq⟩
      · exact Or.inl ⟨p, List.mem_cons_of_mem _ hp, hm, e1, e2, e3⟩
      · refine Or.inr ⟨?_, heq⟩
        intro p hp
        rcases List.mem_cons.mp hp with rfl | hp'
        · exact hq
        · exact hnone p hp'

/-- The record returned by `atoms_to_improper_torsion` holds the four atoms it was given. -/
theorem atoms_to_improper_torsion_atoms (get_atom_type : A → String)
    (improper_torsion0 : ImproperTorsionInteraction A R) (atoms : A × A × A × A)
    (table : List (ImproperTorsionParameter R)) :
    (atoms_to_improper_torsion get_atom_type improper_torsion0 atoms table).1.atom1 = atoms.1 ∧
    (atoms_to_improper_torsion get_atom_type improper_torsion0 atoms table).1.atom2
      = atoms.2.1 ∧
    (atoms_to_improper_torsion get_atom_type improper_torsion0 atoms table).1.atom3
      = atoms.2.2.1 ∧
    (atoms_to_improper_torsion get_atom_type improper_torsion0 atoms table).1.atom4
      = atoms.2.2.2 := by
  unfold atoms_to_improper_torsion
  obtain ⟨_, a1, a2, a3, a4⟩ := improper_scan_cases (A := A) (get_atom_type atoms.1)
    (get_atom_type atoms.2.1) (get_atom_type atoms.2.2.1) (get_atom_type atoms.2.2.2) table
    (false, { improper_torsion0 with
      atom1 := atoms.1, atom2 := atoms.2.1, atom3 := atoms.2.2.1, atom4 := atoms.2.2.2 })
  exact ⟨a1, a2, a3, a4⟩

end ImproperLemmas

/-! ## Claims on missing parameters -/

/-- C1 (evaluation at the failing input): in the chain `NH1 - CT1 - C - O - HB1` atoms 2 and 3
are covalently bonded and their type pair `(C, O)` matches no entry of the pair table, yet
`generate_bonded_pair_interactions` returns a list, and that list holds the record of the
bond 0 - 1 only: the three unmatched bonds are skipped without any error. -/
theorem generate_bonded_pair_interactions_skips_unmatched_bond :
    3 ∈ example_chain.covalent_bonds 2 ∧
    (∀ p ∈ example_bonded_pair_parameters,
      ¬ bonded_pair_matches p (example_types 2) (example_types 3)) ∧
    generate_bonded_pair_interactions example_chain
        example_bonded_pair_parameters =
      [{ atom1 := 0, atom2 := 1, kb := 300, r0 := 1 }] := by
  refine ⟨by decide, by decide, by decide⟩

/-- C2 (evaluation at the failing input): for the quadruple of types `(NH1, CT1, C, O)` no
entry of the improper table matches, yet `atoms_to_improper_torsion` returns a record; its
`phi0` and `cp` are those of the default-constructed record, whatever they are, and the only
effect of the miss is one line on `std::cout`. -/
theorem atoms_to_improper_torsion_unmatched_returns_record
    (improper_torsion0 : ImproperTorsionInteraction Nat ℚ) :
    (∀ p ∈ example_improper_torsion_parameters,
      ¬ improper_matches p (example_types 0) (example_types 1) (example_types 2)
        (example_types 3)) ∧
    atoms_to_improper_torsion example_types improper_torsion0 (0, 1, 2, 3)
        example_improper_torsion_parameters =
      ({ atom1 := 0, atom2 := 1, atom3 := 2, atom4 := 3,
         phi0 := improper_torsion0.phi0, cp := improper_torsion0.cp },
       ["ERROR: DIDN\x27T FIND PARAMETER"]) := by
  refine ⟨by decide, rfl⟩

/-- C3 (counterexample): in the chain `NH1 - CT1 - C - O - HB1` the triple `(1, 2, 3)` has a
vertex and two distinct neighbours, its types `(CT1, C, O)` match no angle-table entry, and
`generate_angle_bend_interactions` still returns a list, which omits that triple. -/
theorem generate_angle_bend_interactions_returns_without_unmatched_triple :
    2 ∈ example_chain.atoms ∧
    List.Sublist [1, 3] (example_chain.covalent_bonds 2) ∧
    (∀ p ∈ example_angle_bend_parameters,
      ¬ angle_bend_matches p (example_types 1) (example_types 2) (example_types 3)) ∧
    generate_angle_bend_interactions example_chain
        example_angle_bend_parameters =
      ([{ atom1 := 0, atom2 := 1, atom3 := 2, theta0 := 107, k0 := 50, r13 := 0, kub := 0 }],
       [(1, 2, 3), (2, 3, 4)]) := by
  refine ⟨by decide, ?_, by decide, by decide⟩
  exact List.Sublist.refl _

/-- C3 (amended): `generate_angle_bend_interactions` always returns.  For a triple
`(atom1, atom2, atom3)` of a vertex `atom2` of the chain and two neighbours, `atom1` listed
before `atom3` among the direct neighbours of `atom2`: when some angle-table entry matches
the type triple in forward or reverse order, the returned list holds a record for the
triple; when none matches, the triple is reported on `std::cout` and the returned list holds
no record for it. -/
theorem angle_bend_triple_record_or_diagnostic {A R : Type} (chain : ChainFB A R)
    (table : List (AngleBendParameter R)) (atom1 atom2 atom3 : A)
    (h2 : atom2 ∈ chain.atoms)
    (h13 : List.Sublist [atom1, atom3] (chain.covalent_bonds atom2)) :
    ((∃ p ∈ table, angle_bend_matches p (chain.get_atom_type atom1)
          (chain.get_atom_type atom2) (chain.get_atom_type atom3)) →
      ∃ r ∈ (generate_angle_bend_interactions chain table).1,
        r.atom1 = atom1 ∧ r.atom2 = atom2 ∧ r.atom3 = atom3) ∧
    ((∀ p ∈ table, ¬ angle_bend_matches p (chain.get_atom_type atom1)
          (chain.get_atom_type atom2) (chain.get_atom_type atom3)) →
      (atom1, atom2, atom3) ∈ (generate_angle_bend_interactions chain table).2 ∧
      ∀ r ∈ (generate_angle_bend_interactions chain table).1,
        ¬ (r.atom1 = atom1 ∧ r.atom2 = atom2 ∧ r.atom3 = atom3)) := by
  rw [generate_angle_bend_interactions_eq]
  have hpair : (atom1, atom3) ∈ neighbour_pairs (chain.covalent_bonds atom2) :=
    (mem_neighbour_pairs _ _ _).mpr h13
  constructor
  · rintro ⟨p, hp, hm⟩
    cases hs : scan_angle_bend (A := A) atom1 atom2 atom3 (chain.get_atom_type atom1)
        (chain.get_atom_type atom2) (chain.get_atom_type atom3) table with
    | none => exact absurd hm ((scan_angle_bend_none _ _ _ _ _ _ _).mp hs p hp)
    | some r =>
      obtain ⟨e1, e2, e3, _⟩ := scan_angle_bend_some _ _ _ _ _ _ _ _ hs
      refine ⟨r, ?_, e1, e2, e3⟩
      simp only [List.mem_flatMap]
      exact ⟨atom2, h2, (atom1, atom3), hpair, by simp [hs]⟩
  · intro hnone
    have hs := (scan_angle_bend_none (A := A) atom1 atom2 atom3 _ _ _ _).mpr hnone
    constructor
    · simp only [List.mem_flatMap]
      exact ⟨atom2, h2, (atom1, atom3), hpair, by simp [hs]⟩
    · intro r hr
      simp only [List.mem_flatMap] at hr
      obtain ⟨b2, _, pair, _, hrp⟩ := hr
      rw [Option.mem_toList] at hrp
      obtain ⟨e1, e2, e3, q, hq, hm⟩ := scan_angle_bend_some _ _ _ _ _ _ _ _ hrp
      rintro ⟨f1, f2, f3⟩
      rw [← e1, f1, ← e2, f2, ← e3, f3] at hm
      exact hnone q hq hm

/-- Witness of C3 (amended) at the chain `NH1 - CT1 - C - O - HB1` and the triple
`(0, 1, 2)`. -/
theorem angle_bend_triple_record_or_diagnostic_witness :
    (1 ∈ example_chain.atoms ∧
      List.Sublist [0, 2] (example_chain.covalent_bonds 1)) ∧
    ((∃ p ∈ example_angle_bend_parameters, angle_bend_matches p
          (example_chain.get_atom_type 0)
          (example_chain.get_atom_type 1)
          (example_chain.get_atom_type 2)) →
      ∃ r ∈ (generate_angle_bend_interactions example_chain
          example_angle_bend_parameters).1,
        r.atom1 = 0 ∧ r.atom2 = 1 ∧ r.atom3 = 2) ∧
    ((∀ p ∈ example_angle_bend_parameters, ¬ angle_bend_matches p
          (example_chain.get_atom_type 0)
          (example_chain.get_atom_type 1)
          (example_chain.get_atom_type 2)) →
      (0, 1, 2) ∈ (generate_angle_bend_interactions example_chain
          example_angle_bend_parameters).2 ∧
      ∀ r ∈ (generate_angle_bend_interactions example_chain
          example_angle_bend_parameters).1,
        ¬ (r.atom1 = 0 ∧ r.atom2 = 1 ∧ r.atom3 = 2)) :=
  ⟨⟨by decide, List.Sublist.refl _⟩,
    angle_bend_triple_record_or_diagnostic example_chain
      example_angle_bend_parameters 0 1 2 (by decide) (List.Sublist.refl _)⟩

/-- C4 (evaluation at the failing input): atom 4 of the chain `NH1 - CT1 - C - O - HB1` has
type `HB1`, which has no entry in the per-type table, yet `generate_non_bonded_interactions`
returns a list, and its record for the pair `(0, 4)` has `c6` and `c12` computed from the
`sigma` and `epsilon` of the default-constructed parameter, whatever they are. -/
theorem generate_non_bonded_interactions_missing_type_uses_default
    (parameter0 : NonBondedParameter ℚ) :
    (∀ p ∈ example_non_bonded_parameters, p.atom_type ≠ example_types 4) ∧
    ∃ r ∈ generate_non_bonded_interactions example_sqrt 332 example_interaction0
        example_parameter14_0 parameter0 example_chain
        example_non_bonded_parameters example_non_bonded_14_parameters,
      r.atom1 = 0 ∧ r.atom2 = 4 ∧
      r.c6 = 4 * example_sqrt (4 * parameter0.epsilon) * (0.5 * (3 + parameter0.sigma)) ^ 6 ∧
      r.c12 = 4 * example_sqrt (4 * parameter0.epsilon) * (0.5 * (3 + parameter0.sigma)) ^ 12 := by
  refine ⟨by decide, ?_⟩
  refine ⟨full_pair_interaction example_sqrt 332 example_interaction0
    (atom_type_info parameter0 example_chain example_non_bonded_parameters 0)
    (atom_type_info parameter0 example_chain example_non_bonded_parameters 4),
    ?_, rfl, rfl, rfl, rfl⟩
  rw [mem_generate_non_bonded_interactions]
  refine ⟨0, 4, 0, 4, rfl, rfl, ?_⟩
  rw [mem_non_bonded_step]
  exact ⟨by decide,
    Or.inl ⟨(by decide : example_chain.chain_distance 0 4 > 3), rfl⟩⟩

/-! ## Claims on the non-bonded generators -/

/-- C5: for two atoms at flattened positions `i < j`, the list returned by
`generate_non_bonded_interactions` holds a record for `(atom_i, atom_j)` if and only if
`chain_distance (atom_i, atom_j) > 2`; in particular it holds none when the distance is 1
or 2. -/
theorem non_bonded_record_iff_distance_gt_two {A R : Type} [Field R] (sqrt : R → R) (FELEC : R)
    (interaction0 : NonBondedInteraction A R)
    (parameter14_0 : NonBonded14Parameter R) (parameter0 : NonBondedParameter R)
    (chain : ChainFB A R) (nbp : List (NonBondedParameter R))
    (nb14 : List (NonBonded14Parameter R))
    (i j : Nat) (atom_i atom_j : A) (hij : i < j)
    (hi : chain.atoms[i]? = some atom_i) (hj : chain.atoms[j]? = some atom_j) :
    ((∃ r ∈ generate_non_bonded_interactions sqrt FELEC interaction0 parameter14_0 parameter0
          chain nbp nb14, r.atom1 = atom_i ∧ r.atom2 = atom_j) ↔
        chain.chain_distance atom_i atom_j > 2) ∧
    (chain.chain_distance atom_i atom_j = 1 ∨ chain.chain_distance atom_i atom_j = 2 →
      ¬ ∃ r ∈ generate_non_bonded_interactions sqrt FELEC interaction0 parameter14_0 parameter0
          chain nbp nb14, r.atom1 = atom_i ∧ r.atom2 = atom_j) := by
  have key : (∃ r ∈ generate_non_bonded_interactions sqrt FELEC interaction0 parameter14_0
      parameter0 chain nbp nb14, r.atom1 = atom_i ∧ r.atom2 = atom_j) ↔
        chain.chain_distance atom_i atom_j > 2 := by
    constructor
    · rintro ⟨r, hr, h1, h2⟩
      rw [mem_generate_non_bonded_interactions] at hr
      obtain ⟨i', j', a1, a2, _, _, hstep⟩ := hr
      obtain ⟨_, e1, e2, hd, _⟩ := non_bonded_step_origin _ _ _ _ _ _ _ _ _ _ _ _ _ hstep
      rw [← h1, ← h2, e1, e2]
      omega
    · intro hd
      have hle : i ≤ j := by omega
      by_cases h3 : chain.chain_distance atom_i atom_j > 3
      · refine ⟨full_pair_interaction sqrt FELEC interaction0
          (atom_type_info parameter0 chain nbp atom_i)
          (atom_type_info parameter0 chain nbp atom_j), ?_, rfl, rfl⟩
        rw [mem_generate_non_bonded_interactions]
        refine ⟨i, j, atom_i, atom_j, hi, hj, ?_⟩
        rw [mem_non_bonded_step]
        exact ⟨hle, Or.inl ⟨h3, rfl⟩⟩
      · have h4 : chain.chain_distance atom_i atom_j = 3 := by omega
        refine ⟨pair14_interaction sqrt FELEC interaction0 parameter14_0 parameter0 nbp nb14
          (atom_type_info parameter0 chain nbp atom_i)
          (atom_type_info parameter0 chain nbp atom_j), ?_, rfl, rfl⟩
        rw [mem_generate_non_bonded_interactions]
        refine ⟨i, j, atom_i, atom_j, hi, hj, ?_⟩
        rw [mem_non_bonded_step]
        exact ⟨hle, Or.inr ⟨h4, rfl⟩⟩
  refine ⟨key, ?_⟩
  intro h hex
  have := key.mp hex
  omega

/-- Witness of C5 at the chain `NH1 - CT1 - C - O - HB1`, positions 0 and 3. -/
theorem non_bonded_record_iff_distance_gt_two_witness :
    (0 < 3 ∧ example_chain.atoms[0]? = some 0 ∧
      example_chain.atoms[3]? = some 3) ∧
    ((∃ r ∈ generate_non_bonded_interactions example_sqrt 332 example_interaction0
        example_parameter14_0 example_parameter0 example_chain
        example_non_bonded_parameters example_non_bonded_14_parameters,
        r.atom1 = 0 ∧ r.atom2 = 3) ↔
      example_chain.chain_distance 0 3 > 2) ∧
    (example_chain.chain_distance 0 3 = 1 ∨
        example_chain.chain_distance 0 3 = 2 →
      ¬ ∃ r ∈ generate_non_bonded_interactions example_sqrt 332 example_interaction0
        example_parameter14_0 example_parameter0 example_chain
        example_non_bonded_parameters example_non_bonded_14_parameters,
        r.atom1 = 0 ∧ r.atom2 = 3) :=
  ⟨⟨by decide, rfl, rfl⟩,
    non_bonded_record_iff_distance_gt_two example_sqrt 332 example_interaction0
      example_parameter14_0 example_parameter0 example_chain
      example_non_bonded_parameters example_non_bonded_14_parameters 0 3 0 3 (by decide) rfl rfl⟩

/-- C6: every record returned by `generate_non_bonded_interactions`, and every record
returned by `generate_non_bonded_interactions_cached`, has `is_14_interaction = true` if and
only if the topological distance of its two atoms is exactly 3; a record of a pair at
distance greater than 3 has `is_14_interaction = false`. -/
theorem is_14_interaction_iff_distance_three {A R : Type} [Field R] [DecidableEq R]
    (sqrt : R → R) (FELEC atom_h_weight : R)
    (interaction0 : NonBondedInteraction A R)
    (parameter14_0 : NonBonded14Parameter R) (parameter0 : NonBondedParameter R)
    (chain : ChainFB A R) (nbp : List (NonBondedParameter R))
    (nb14 : List (NonBonded14Parameter R))
    (dGref : List R) (factors : List (List R)) (vdw_radii lambda : List R)
    (index_map : IndexMap) :
    (∀ r ∈ generate_non_bonded_interactions sqrt FELEC interaction0 parameter14_0 parameter0
        chain nbp nb14,
      (r.is_14_interaction = true ↔ chain.chain_distance r.atom1 r.atom2 = 3) ∧
      (chain.chain_distance r.atom1 r.atom2 > 3 → r.is_14_interaction = false)) ∧
    (∀ r ∈ (generate_non_bonded_interactions_cached sqrt FELEC atom_h_weight interaction0
        parameter14_0 parameter0 chain nbp nb14 dGref factors vdw_radii lambda index_map).1,
      (r.is_14_interaction = true ↔ chain.chain_distance r.atom1 r.atom2 = 3) ∧
      (chain.chain_distance r.atom1 r.atom2 > 3 → r.is_14_interaction = false)) := by
  have weaken : ∀ r : NonBondedInteraction A R,
      (r.is_14_interaction = true ↔ chain.chain_distance r.atom1 r.atom2 = 3) →
      (r.is_14_interaction = true ↔ chain.chain_distance r.atom1 r.atom2 = 3) ∧
      (chain.chain_distance r.atom1 r.atom2 > 3 → r.is_14_interaction = false) := by
    intro r h
    refine ⟨h, fun hd => ?_⟩
    cases hb : r.is_14_interaction with
    | false => rfl
    | true => have := h.mp hb; omega
  constructor
  · intro r hr
    apply weaken
    rw [mem_generate_non_bonded_interactions] at hr
    obtain ⟨i, j, a1, a2, _, _, hstep⟩ := hr
    obtain ⟨_, e1, e2, _, h14⟩ := non_bonded_step_origin _ _ _ _ _ _ _ _ _ _ _ _ _ hstep
    rw [e1, e2]
    exact h14
  · intro r hr
    apply weaken
    revert r
    unfold generate_non_bonded_interactions_cached
    apply foldl_invariant
      (fun st : List (NonBondedInteraction A R) × IndexMap =>
        ∀ r ∈ st.1, (r.is_14_interaction = true ↔ chain.chain_distance r.atom1 r.atom2 = 3))
    · intro r hr
      cases hr
    · intro st x _ hst
      apply foldl_invariant
        (fun st : List (NonBondedInteraction A R) × IndexMap =>
          ∀ r ∈ st.1, (r.is_14_interaction = true ↔ chain.chain_distance r.atom1 r.atom2 = 3))
      · exact hst
      · intro st y _ hst r hr
        unfold non_bonded_step_cached at hr
        dsimp only at hr
        split_ifs at hr with h1 h2 h3
        · exact hst r hr
        · rw [List.mem_append, List.mem_singleton] at hr
          rcases hr with hr | hr
          · exact hst r hr
          · obtain ⟨f1, f2, _, _, _, f6⟩ := attach_eef1_fields atom_h_weight chain factors
              vdw_radii lambda x.2 y.2 (full_pair_interaction sqrt FELEC interaction0 x.2 y.2) st.2
            rw [hr, f1, f2, f6]
            simp only [full_pair_interaction]
            constructor
            · intro h; cases h
            · intro h; omega
        · rw [List.mem_append, List.mem_singleton] at hr
          rcases hr with hr | hr
          · exact hst r hr
          · obtain ⟨f1, f2, _, _, _, f6⟩ := attach_eef1_fields atom_h_weight chain factors
              vdw_radii lambda x.2 y.2 (pair14_interaction sqrt FELEC interaction0 parameter14_0
                parameter0 nbp nb14 x.2 y.2) st.2
            rw [hr, f1, f2, f6]
            simp only [pair14_interaction]
            simp [h3]
        · exact hst r hr

/-- Witness of C6 at the chain `NH1 - CT1 - C - O - HB1`: the record of the pair `(0, 4)` of
the plain generator and the three records of the cached generator. -/
theorem is_14_interaction_iff_distance_three_witness :
    (full_pair_interaction example_sqrt 332 example_interaction0
        (atom_type_info example_parameter0 example_chain example_non_bonded_parameters 0)
        (atom_type_info example_parameter0 example_chain example_non_bonded_parameters 4)
      ∈ generate_non_bonded_interactions example_sqrt 332 example_interaction0
        example_parameter14_0 example_parameter0 example_chain
        example_non_bonded_parameters example_non_bonded_14_parameters) ∧
    ((full_pair_interaction example_sqrt 332 example_interaction0
        (atom_type_info example_parameter0 example_chain example_non_bonded_parameters 0)
        (atom_type_info example_parameter0 example_chain example_non_bonded_parameters
          4)).is_14_interaction = true ↔
      example_chain.chain_distance 0 4 = 3) ∧
    (generate_non_bonded_interactions_cached example_sqrt 332 1 example_interaction0
        example_parameter14_0 example_parameter0 example_chain
        example_non_bonded_parameters example_non_bonded_14_parameters [] [] [] []
        []).1.map (fun r => (r.atom1, r.atom2, r.is_14_interaction)) =
      [(0, 3, true), (0, 4, false), (1, 4, true)] ∧
    (∀ r ∈ (generate_non_bonded_interactions_cached example_sqrt 332 1 example_interaction0
        example_parameter14_0 example_parameter0 example_chain
        example_non_bonded_parameters example_non_bonded_14_parameters [] [] [] [] []).1,
      (r.is_14_interaction = true ↔ example_chain.chain_distance r.atom1 r.atom2 = 3) ∧
      (example_chain.chain_distance r.atom1 r.atom2 > 3 →
        r.is_14_interaction = false)) := by
  have hmem : full_pair_interaction example_sqrt 332 example_interaction0
        (atom_type_info example_parameter0 example_chain example_non_bonded_parameters 0)
        (atom_type_info example_parameter0 example_chain example_non_bonded_parameters 4)
      ∈ generate_non_bonded_interactions example_sqrt 332 example_interaction0
        example_parameter14_0 example_parameter0 example_chain
        example_non_bonded_parameters example_non_bonded_14_parameters := by
    rw [mem_generate_non_bonded_interactions]
    refine ⟨0, 4, 0, 4, rfl, rfl, ?_⟩
    rw [mem_non_bonded_step]
    exact ⟨by decide,
      Or.inl ⟨(by decide : example_chain.chain_distance 0 4 > 3), rfl⟩⟩
  have h := is_14_interaction_iff_distance_three example_sqrt 332 1 example_interaction0
    example_parameter14_0 example_parameter0 example_chain
    example_non_bonded_parameters example_non_bonded_14_parameters [] [] [] [] []
  exact ⟨hmem, (h.1 _ hmem).1, by decide, h.2⟩

/-- C7: a record returned by `generate_non_bonded_interactions` for a pair at distance
greater than 3 has `c6 = 4 * eps * sig ^ 6` and `c12 = 4 * eps * sig ^ 12` with
`sig = (sigma1 + sigma2) / 2` and `eps = sqrt (epsilon1 * epsilon2)`, where
`(sigma_k, epsilon_k)` is the first per-type table entry for the type of atom `k`; the record
is returned whatever the contents of the 1-4 table. -/
theorem full_pair_constants {A R : Type} [Field R] [CharZero R] (sqrt : R → R) (FELEC : R)
    (interaction0 : NonBondedInteraction A R)
    (parameter14_0 : NonBonded14Parameter R) (parameter0 : NonBondedParameter R)
    (chain : ChainFB A R) (nbp : List (NonBondedParameter R))
    (nb14 : List (NonBonded14Parameter R)) (r : NonBondedInteraction A R)
    (hr : r ∈ generate_non_bonded_interactions sqrt FELEC interaction0 parameter14_0 parameter0
        chain nbp nb14)
    (hd : chain.chain_distance r.atom1 r.atom2 > 3)
    (p1 p2 : NonBondedParameter R)
    (h1 : nbp.find? (fun p => decide (p.atom_type = chain.get_atom_type r.atom1)) = some p1)
    (h2 : nbp.find? (fun p => decide (p.atom_type = chain.get_atom_type r.atom2)) = some p2) :
    r.c6 = 4 * sqrt (p1.epsilon * p2.epsilon) * ((p1.sigma + p2.sigma) / 2) ^ 6 ∧
    r.c12 = 4 * sqrt (p1.epsilon * p2.epsilon) * ((p1.sigma + p2.sigma) / 2) ^ 12 ∧
    ∀ nb14' : List (NonBonded14Parameter R),
      r ∈ generate_non_bonded_interactions sqrt FELEC interaction0 parameter14_0 parameter0
        chain nbp nb14' := by
  rw [mem_generate_non_bonded_interactions] at hr
  obtain ⟨i, j, a1, a2, hi, hj, hstep⟩ := hr
  obtain ⟨hle, e1, e2, _, _⟩ := non_bonded_step_origin _ _ _ _ _ _ _ _ _ _ _ _ _ hstep
  rw [mem_non_bonded_step] at hstep
  have hd' : chain.chain_distance a1 a2 > 3 := by rw [← e1, ← e2]; exact hd
  obtain ⟨_, h | h⟩ := hstep
  · obtain ⟨_, hrfull⟩ := h
    rw [e1] at h1
    rw [e2] at h2
    refine ⟨?_, ?_, ?_⟩
    · rw [hrfull]
      simp only [full_pair_interaction, atom_type_info, get_non_bonded_parameter_eq_find, h1, h2,
        Option.getD_some, half_mul_eq_div_two]
    · rw [hrfull]
      simp only [full_pair_interaction, atom_type_info, get_non_bonded_parameter_eq_find, h1, h2,
        Option.getD_some, half_mul_eq_div_two]
    · intro nb14'
      rw [mem_generate_non_bonded_interactions]
      refine ⟨i, j, a1, a2, hi, hj, ?_⟩
      rw [mem_non_bonded_step]
      exact ⟨hle, Or.inl ⟨hd', hrfull⟩⟩
  · obtain ⟨h3, _⟩ := h
    have h3' : chain.chain_distance a1 a2 = 3 := h3
    omega

/-- Witness of C7 at a five-atom chain of `CT1` atoms and the pair `(0, 4)`. -/
theorem full_pair_constants_witness :
    (full_pair_interaction example_sqrt 332 example_interaction0
        (atom_type_info example_parameter0 (linear_chain 5 fun _ => "CT1")
          example_non_bonded_parameters 0)
        (atom_type_info example_parameter0 (linear_chain 5 fun _ => "CT1")
          example_non_bonded_parameters 4)).c6 =
      4 * example_sqrt (1 * 1) * (((4 : ℚ) + 4) / 2) ^ 6 ∧
    (full_pair_interaction example_sqrt 332 example_interaction0
        (atom_type_info example_parameter0 (linear_chain 5 fun _ => "CT1")
          example_non_bonded_parameters 0)
        (atom_type_info example_parameter0 (linear_chain 5 fun _ => "CT1")
          example_non_bonded_parameters 4)).c12 =
      4 * example_sqrt (1 * 1) * (((4 : ℚ) + 4) / 2) ^ 12 ∧
    ∀ nb14 : List (NonBonded14Parameter ℚ),
      full_pair_interaction example_sqrt 332 example_interaction0
        (atom_type_info example_parameter0 (linear_chain 5 fun _ => "CT1")
          example_non_bonded_parameters 0)
        (atom_type_info example_parameter0 (linear_chain 5 fun _ => "CT1")
          example_non_bonded_parameters 4) ∈
      generate_non_bonded_interactions example_sqrt 332 example_interaction0
        example_parameter14_0 example_parameter0 (linear_chain 5 fun _ => "CT1")
        example_non_bonded_parameters nb14 := by
  have hmem : full_pair_interaction example_sqrt 332 example_interaction0
        (atom_type_info example_parameter0 (linear_chain 5 fun _ => "CT1")
          example_non_bonded_parameters 0)
        (atom_type_info example_parameter0 (linear_chain 5 fun _ => "CT1")
          example_non_bonded_parameters 4) ∈
      generate_non_bonded_interactions example_sqrt 332 example_interaction0
        example_parameter14_0 example_parameter0 (linear_chain 5 fun _ => "CT1")
        example_non_bonded_parameters example_non_bonded_14_parameters := by
    rw [mem_generate_non_bonded_interactions]
    refine ⟨0, 4, 0, 4, rfl, rfl, ?_⟩
    rw [mem_non_bonded_step]
    exact ⟨by decide,
      Or.inl ⟨(by decide : (linear_chain 5 fun _ => "CT1").chain_distance 0 4 > 3), rfl⟩⟩
  exact full_pair_constants example_sqrt 332 example_interaction0 example_parameter14_0
    example_parameter0 (linear_chain 5 fun _ => "CT1") example_non_bonded_parameters
    example_non_bonded_14_parameters _ hmem
    (by decide : (linear_chain 5 fun _ => "CT1").chain_distance 0 4 > 3)
    { atom_type := "CT1", atom_number := 6, atom_mass := 12, atom_charge := 0,
      atom_ptype := "A", sigma := 4, epsilon := 1 }
    { atom_type := "CT1", atom_number := 6, atom_mass := 12, atom_charge := 0,
      atom_ptype := "A", sigma := 4, epsilon := 1 } rfl rfl

/-- C8: when the 1-4 table has an entry whose type pair is `(t1, t2)` or `(t2, t1)`,
`get_non_bonded14_parameter` returns the `sigma` and `epsilon` of the first such entry in
table order; otherwise it returns `sigma = (sigma (t1) + sigma (t2)) / 2` and
`epsilon = sqrt (epsilon (t1) * epsilon (t2))`, each taken from the first per-type table
entry of the type. -/
theorem get_non_bonded14_parameter_spec {R : Type} [Field R] [CharZero R] (sqrt : R → R)
    (parameter : NonBonded14Parameter R) (parameter0 : NonBondedParameter R)
    (t1 t2 : String) (table14 : List (NonBonded14Parameter R))
    (table : List (NonBondedParameter R)) :
    (∀ e, table14.find? (fun p => decide ((p.atom_type1 = t1 ∧ p.atom_type2 = t2) ∨
          (p.atom_type1 = t2 ∧ p.atom_type2 = t1))) = some e →
        (get_non_bonded14_parameter sqrt parameter parameter0 t1 t2 table14 table).sigma
            = e.sigma ∧
        (get_non_bonded14_parameter sqrt parameter parameter0 t1 t2 table14 table).epsilon
            = e.epsilon) ∧
    (table14.find? (fun p => decide ((p.atom_type1 = t1 ∧ p.atom_type2 = t2) ∨
          (p.atom_type1 = t2 ∧ p.atom_type2 = t1))) = none →
      ∀ p1 p2, table.find? (fun p => decide (p.atom_type = t1)) = some p1 →
        table.find? (fun p => decide (p.atom_type = t2)) = some p2 →
        (get_non_bonded14_parameter sqrt parameter parameter0 t1 t2 table14 table).sigma
            = (p1.sigma + p2.sigma) / 2 ∧
        (get_non_bonded14_parameter sqrt parameter parameter0 t1 t2 table14 table).epsilon
            = sqrt (p1.epsilon * p2.epsilon)) := by
  constructor
  · intro e he
    unfold get_non_bonded14_parameter
    rw [scan_non_bonded14_eq_find, he]
    exact ⟨rfl, rfl⟩
  · intro hnone p1 p2 h1 h2
    unfold get_non_bonded14_parameter
    rw [scan_non_bonded14_eq_find, hnone]
    dsimp only
    rw [get_non_bonded_parameter_eq_find, get_non_bonded_parameter_eq_find, h1, h2]
    exact ⟨half_mul_eq_div_two _, rfl⟩

/-- Witness of C8: the pair `(NH1, O)` is found in the example 1-4 table in reverse order;
the pair `(CT1, C)` is not found and is mixed from the per-type table. -/
theorem get_non_bonded14_parameter_spec_witness :
    ((get_non_bonded14_parameter example_sqrt example_parameter14_0 example_parameter0
          "NH1" "O" example_non_bonded_14_parameters example_non_bonded_parameters).sigma = 5 ∧
      (get_non_bonded14_parameter example_sqrt example_parameter14_0 example_parameter0
          "NH1" "O" example_non_bonded_14_parameters example_non_bonded_parameters).epsilon
        = 6) ∧
    ((get_non_bonded14_parameter example_sqrt example_parameter14_0 example_parameter0
          "CT1" "C" example_non_bonded_14_parameters example_non_bonded_parameters).sigma
        = ((4 : ℚ) + 2) / 2 ∧
      (get_non_bonded14_parameter example_sqrt example_parameter14_0 example_parameter0
          "CT1" "C" example_non_bonded_14_parameters example_non_bonded_parameters).epsilon
        = example_sqrt (1 * 9)) :=
  ⟨(get_non_bonded14_parameter_spec example_sqrt example_parameter14_0 example_parameter0
      "NH1" "O" example_non_bonded_14_parameters example_non_bonded_parameters).1
      { atom_type1 := "O", atom_type2 := "NH1", pair_function := 1, sigma := 5, epsilon := 6 }
      rfl,
    (get_non_bonded14_parameter_spec example_sqrt example_parameter14_0 example_parameter0
      "CT1" "C" example_non_bonded_14_parameters example_non_bonded_parameters).2 rfl
      { atom_type := "CT1", atom_number := 6, atom_mass := 12, atom_charge := 0,
        atom_ptype := "A", sigma := 4, epsilon := 1 }
      { atom_type := "C", atom_number := 6, atom_mass := 12, atom_charge := 0,
        atom_ptype := "A", sigma := 2, epsilon := 9 } rfl rfl⟩

/-- C9: `get_non_bonded14_parameter (t1, t2, ...)` and `get_non_bonded14_parameter
(t2, t1, ...)` return the same `sigma` and the same `epsilon`, and the mixing rule of the
branch `d > 3` gives the same `c6` and `c12` when the two atoms are swapped. -/
theorem resolved_constants_symmetric {A R : Type} [Field R] (sqrt : R → R) (FELEC : R)
    (parameter : NonBonded14Parameter R) (parameter0 : NonBondedParameter R)
    (interaction0 : NonBondedInteraction A R)
    (t1 t2 : String) (table14 : List (NonBonded14Parameter R))
    (table : List (NonBondedParameter R)) (info1 info2 : AtomTypeInfo A R) :
    (get_non_bonded14_parameter sqrt parameter parameter0 t1 t2 table14 table).sigma =
      (get_non_bonded14_parameter sqrt parameter parameter0 t2 t1 table14 table).sigma ∧
    (get_non_bonded14_parameter sqrt parameter parameter0 t1 t2 table14 table).epsilon =
      (get_non_bonded14_parameter sqrt parameter parameter0 t2 t1 table14 table).epsilon ∧
    (full_pair_interaction sqrt FELEC interaction0 info1 info2).c6 =
      (full_pair_interaction sqrt FELEC interaction0 info2 info1).c6 ∧
    (full_pair_interaction sqrt FELEC interaction0 info1 info2).c12 =
      (full_pair_interaction sqrt FELEC interaction0 info2 info1).c12 := by
  refine ⟨?_, ?_, ?_, ?_⟩
  · unfold get_non_bonded14_parameter
    rw [scan_non_bonded14_comm t1 t2]
    cases scan_non_bonded14 t2 t1 table14 with
    | some p => rfl
    | none => simp only [add_comm]
  · unfold get_non_bonded14_parameter
    rw [scan_non_bonded14_comm t1 t2]
    cases scan_non_bonded14 t2 t1 table14 with
    | some p => rfl
    | none => simp only [mul_comm]
  · simp only [full_pair_interaction]
    rw [mul_comm info1.non_bonded_parameter.epsilon, add_comm info1.non_bonded_parameter.sigma]
  · simp only [full_pair_interaction]
    rw [mul_comm info1.non_bonded_parameter.epsilon, add_comm info1.non_bonded_parameter.sigma]

/-- C10: when the atom enumeration lists distinct atoms and the distance oracle gives every
atom distance 0 to itself, no record returned by `generate_non_bonded_interactions` pairs an
atom with itself, every record has `atom1` strictly before `atom2` in the enumeration, and
no two records have the same unordered atom pair. -/
theorem non_bonded_records_canonical {A R : Type} [Field R] (sqrt : R → R) (FELEC : R)
    (interaction0 : NonBondedInteraction A R)
    (parameter14_0 : NonBonded14Parameter R) (parameter0 : NonBondedParameter R)
    (chain : ChainFB A R) (nbp : List (NonBondedParameter R))
    (nb14 : List (NonBonded14Parameter R))
    (hnodup : chain.atoms.Nodup) (hself : ∀ a, chain.chain_distance a a = 0) :
    (∀ r ∈ generate_non_bonded_interactions sqrt FELEC interaction0 parameter14_0 parameter0
        chain nbp nb14,
      r.atom1 ≠ r.atom2 ∧
      ∃ i j : Nat, i < j ∧ chain.atoms[i]? = some r.atom1 ∧
        chain.atoms[j]? = some r.atom2) ∧
    ((generate_non_bonded_interactions sqrt FELEC interaction0 parameter14_0 parameter0
        chain nbp nb14).map fun r => s(r.atom1, r.atom2)).Nodup := by
  constructor
  · intro r hr
    rw [mem_generate_non_bonded_interactions] at hr
    obtain ⟨i, j, a1, a2, h1, h2, hstep⟩ := hr
    obtain ⟨hle, e1, e2, hd, _⟩ := non_bonded_step_origin _ _ _ _ _ _ _ _ _ _ _ _ _ hstep
    have hne : a1 ≠ a2 := by
      rintro rfl
      rw [hself] at hd
      omega
    refine ⟨by rw [e1, e2]; exact hne, i, j, ?_, by rw [e1]; exact h1, by rw [e2]; exact h2⟩
    rcases Nat.lt_or_ge i j with h | h
    · exact h
    · have : i = j := by omega
      subst this
      rw [h1] at h2
      exact absurd (Option.some.inj h2) hne
  · unfold List.Nodup
    rw [List.pairwise_map]
    unfold generate_non_bonded_interactions
    have henum : ∀ l : List (AtomTypeInfo A R),
        List.Pairwise (fun x y : Nat × AtomTypeInfo A R => x.1 < y.1) l.enum := by
      intro l
      have := List.pairwise_lt_range l.length
      rw [← List.enum_map_fst, List.pairwise_map] at this
      exact this
    have hmem : ∀ x : Nat × AtomTypeInfo A R,
        x ∈ (atom_type_infos parameter0 chain nbp).enum →
        ∃ a, chain.atoms[x.1]? = some a ∧ x.2 = atom_type_info parameter0 chain nbp a := by
      intro x hx
      rw [List.mem_enum_iff_getElem?] at hx
      unfold atom_type_infos at hx
      rw [List.getElem?_map, Option.map_eq_some'] at hx
      obtain ⟨a, ha, hax⟩ := hx
      exact ⟨a, ha, hax.symm⟩
    rw [List.pairwise_flatMap]
    constructor
    · intro x hx
      obtain ⟨ax, hax, hx2⟩ := hmem x hx
      rw [List.pairwise_flatMap]
      constructor
      · intro y _
        unfold non_bonded_step
        dsimp only
        split_ifs
        · exact List.Pairwise.nil
        · exact List.pairwise_singleton _ _
        · exact List.pairwise_singleton _ _
        · exact List.Pairwise.nil
      · refine List.Pairwise.imp_of_mem ?_ (henum _)
        intro y1 y2 hy1 hy2 hlt r hr r' hr'
        obtain ⟨a1, ha1, hy12⟩ := hmem y1 hy1
        obtain ⟨a2, ha2, hy22⟩ := hmem y2 hy2
        rw [hx2, hy12] at hr
        rw [hx2, hy22] at hr'
        obtain ⟨hle, e1, e2, _, _⟩ := non_bonded_step_origin _ _ _ _ _ _ _ _ _ _ _ _ _ hr
        obtain ⟨hle', e1', e2', _, _⟩ := non_bonded_step_origin _ _ _ _ _ _ _ _ _ _ _ _ _ hr'
        rw [e1, e2, e1', e2']
        intro heq
        rw [Sym2.eq_iff] at heq
        rcases heq with ⟨_, h⟩ | ⟨h, h'⟩
        · subst h
          have := getElem?_unique_of_nodup hnodup ha1 ha2
          omega
        · subst h
          subst h'
          have := getElem?_unique_of_nodup hnodup ha1 hax
          have := getElem?_unique_of_nodup hnodup ha2 hax
          omega
    · refine List.Pairwise.imp_of_mem ?_ (henum _)
      intro x1 x2 hx1 hx2 hlt r hr r' hr'
      rw [List.mem_flatMap] at hr hr'
      obtain ⟨y1, hy1, hr⟩ := hr
      obtain ⟨y2, hy2, hr'⟩ := hr'
      obtain ⟨b1, hb1, hx12⟩ := hmem x1 hx1
      obtain ⟨b2, hb2, hx22⟩ := hmem x2 hx2
      obtain ⟨a1, ha1, hy12⟩ := hmem y1 hy1
      obtain ⟨a2, ha2, hy22⟩ := hmem y2 hy2
      rw [hx12, hy12] at hr
      rw [hx22, hy22] at hr'
      obtain ⟨hle, e1, e2, _, _⟩ := non_bonded_step_origin _ _ _ _ _ _ _ _ _ _ _ _ _ hr
      obtain ⟨hle', e1', e2', _, _⟩ := non_bonded_step_origin _ _ _ _ _ _ _ _ _ _ _ _ _ hr'
      rw [e1, e2, e1', e2']
      intro heq
      rw [Sym2.eq_iff] at heq
      rcases heq with ⟨h, _⟩ | ⟨h, h'⟩
      · subst h
        have := getElem?_unique_of_nodup hnodup hb1 hb2
        omega
      · subst h
        subst h'
        have := getElem?_unique_of_nodup hnodup hb1 ha2
        have := getElem?_unique_of_nodup hnodup ha1 hb2
        omega

/-- Witness of C10 at the chain `NH1 - CT1 - C - O - HB1`. -/
theorem non_bonded_records_canonical_witness :
    (example_chain.atoms.Nodup ∧
      ∀ a, example_chain.chain_distance a a = 0) ∧
    (∀ r ∈ generate_non_bonded_interactions example_sqrt 332 example_interaction0
        example_parameter14_0 example_parameter0 example_chain
        example_non_bonded_parameters example_non_bonded_14_parameters,
      r.atom1 ≠ r.atom2 ∧
      ∃ i j : Nat, i < j ∧ example_chain.atoms[i]? = some r.atom1 ∧
        example_chain.atoms[j]? = some r.atom2) ∧
    ((generate_non_bonded_interactions example_sqrt 332 example_interaction0
        example_parameter14_0 example_parameter0 example_chain
        example_non_bonded_parameters example_non_bonded_14_parameters).map
      fun r => s(r.atom1, r.atom2)).Nodup :=
  ⟨⟨by decide, fun a => by simp [example_chain, linear_chain]⟩,
    non_bonded_records_canonical example_sqrt 332 example_interaction0
      example_parameter14_0 example_parameter0 example_chain
      example_non_bonded_parameters example_non_bonded_14_parameters (by decide)
      (fun a => by simp [example_chain, linear_chain])⟩

/-! ## Further lemmas on the generators -/

section NonBondedSolvationLemmas

variable {A R : Type} [Field R] [DecidableEq R]

/-- The solvation block sets `do_eef1` by its three-part test, and leaves the solvation
members untouched when the test fails. -/
theorem attach_eef1_do_eef1 (atom_h_weight : R) (chain : ChainFB A R) (factors : List (List R))
    (vdw_radii lambda : List R) (info1 info2 : AtomTypeInfo A R)
    (interaction : NonBondedInteraction A R) (m : IndexMap) :
    ((attach_eef1 atom_h_weight chain factors vdw_radii lambda info1 info2 interaction
        m).1.do_eef1 = true ↔
      chain.mass info1.atom ≠ atom_h_weight ∧
        ¬ chain.chain_distance info1.atom info2.atom < 3 ∧
        chain.mass info2.atom ≠ atom_h_weight) ∧
    ((attach_eef1 atom_h_weight chain factors vdw_radii lambda info1 info2 interaction
        m).1.do_eef1 = false →
      (attach_eef1 atom_h_weight chain factors vdw_radii lambda info1 info2 interaction
          m).1.fac_12 = interaction.fac_12 ∧
      (attach_eef1 atom_h_weight chain factors vdw_radii lambda info1 info2 interaction
          m).1.fac_21 = interaction.fac_21 ∧
      (attach_eef1 atom_h_weight chain factors vdw_radii lambda info1 info2 interaction
          m).1.R_vdw_1 = interaction.R_vdw_1 ∧
      (attach_eef1 atom_h_weight chain factors vdw_radii lambda info1 info2 interaction
          m).1.R_vdw_2 = interaction.R_vdw_2 ∧
      (attach_eef1 atom_h_weight chain factors vdw_radii lambda info1 info2 interaction
          m).1.lambda1 = interaction.lambda1 ∧
      (attach_eef1 atom_h_weight chain factors vdw_radii lambda info1 info2 interaction
          m).1.lambda2 = interaction.lambda2) := by
  unfold attach_eef1
  split_ifs with h
  · exact ⟨⟨fun _ => h, fun _ => rfl⟩, fun hf => by cases hf⟩
  · exact ⟨⟨fun hf => (by cases hf), fun h' => absurd h' h⟩,
      fun _ => ⟨rfl, rfl, rfl, rfl, rfl, rfl⟩⟩

end NonBondedSolvationLemmas

section TorsionGapLemmas
variable {A R : Type}

/-- The wildcard scan finds nothing exactly when no entry matches as wildcard. -/
theorem scan_torsion_wildcard_eq_none (atom1 atom2 atom3 atom4 : A) (type2 type3 : String)
    (table : List (TorsionParameter R)) :
    scan_torsion_wildcard atom1 atom2 atom3 atom4 type2 type3 table = none ↔
      ∀ p ∈ table, ¬ (torsion_wildcard_forward p type2 type3 ∨
        torsion_wildcard_reverse p type2 type3) := by
  rw [scan_torsion_wildcard_eq_find, Option.map_eq_none', List.find?_eq_none]
  simp

/-- The loop body reports a quadruple exactly when no entry matches it, exactly or as
wildcard, and then appends no record. -/
theorem torsion_quadruple_unmatched_iff (chain : ChainFB A R)
    (table : List (TorsionParameter R)) (atom1 atom2 atom3 atom4 : A) :
    ((∀ p ∈ table,
        ¬ (torsion_exact_forward p (chain.get_atom_type atom1) (chain.get_atom_type atom2)
            (chain.get_atom_type atom3) (chain.get_atom_type atom4) ∨
          torsion_exact_reverse p (chain.get_atom_type atom1) (chain.get_atom_type atom2)
            (chain.get_atom_type atom3) (chain.get_atom_type atom4)) ∧
        ¬ (torsion_wildcard_forward p (chain.get_atom_type atom2)
            (chain.get_atom_type atom3) ∨
          torsion_wildcard_reverse p (chain.get_atom_type atom2)
            (chain.get_atom_type atom3))) →
      torsion_quadruple chain table atom1 atom2 atom3 atom4 =
        ([], [(atom1, atom2, atom3, atom4)])) ∧
    (¬ (∀ p ∈ table,
        ¬ (torsion_exact_forward p (chain.get_atom_type atom1) (chain.get_atom_type atom2)
            (chain.get_atom_type atom3) (chain.get_atom_type atom4) ∨
          torsion_exact_reverse p (chain.get_atom_type atom1) (chain.get_atom_type atom2)
            (chain.get_atom_type atom3) (chain.get_atom_type atom4)) ∧
        ¬ (torsion_wildcard_forward p (chain.get_atom_type atom2)
            (chain.get_atom_type atom3) ∨
          torsion_wildcard_reverse p (chain.get_atom_type atom2)
            (chain.get_atom_type atom3))) →
      (torsion_quadruple chain table atom1 atom2 atom3 atom4).2 = []) := by
  constructor
  · intro h
    have hnil := (scan_torsion_exact_eq_nil atom1 atom2 atom3 atom4
      (chain.get_atom_type atom1) (chain.get_atom_type atom2) (chain.get_atom_type atom3)
      (chain.get_atom_type atom4) table).mpr (fun p hp => (h p hp).1)
    have hnone := (scan_torsion_wildcard_eq_none atom1 atom2 atom3 atom4
      (chain.get_atom_type atom2) (chain.get_atom_type atom3) table).mpr
      (fun p hp => (h p hp).2)
    unfold torsion_quadruple
    simp only [hnil, hnone]
    rfl
  · intro h
    unfold torsion_quadruple
    dsimp only
    split_ifs with hempty
    · cases hw : scan_torsion_wildcard atom1 atom2 atom3 atom4 (chain.get_atom_type atom2)
          (chain.get_atom_type atom3) table with
      | some r => rfl
      | none =>
        exfalso
        apply h
        intro p hp
        refine ⟨?_, (scan_torsion_wildcard_eq_none _ _ _ _ _ _ _).mp hw p hp⟩
        exact (scan_torsion_exact_eq_nil _ _ _ _ _ _ _ _ _).mp
          (List.isEmpty_iff.mp hempty) p hp
    · rfl

end TorsionGapLemmas

section ImproperChainLemmas
variable {A R : Type}

/-- One `push_back` of a resolved quadruple appends one record, which holds the quadruple. -/
theorem push_improper_torsion_fst (get_atom_type : A → String)
    (improper_torsion0 : ImproperTorsionInteraction A R)
    (table : List (ImproperTorsionParameter R))
    (st : List (ImproperTorsionInteraction A R) × List String) (atoms : A × A × A × A) :
    ∃ r : ImproperTorsionInteraction A R,
      (push_improper_torsion get_atom_type improper_torsion0 table st atoms).1 = st.1 ++ [r] ∧
      r.atom1 = atoms.1 ∧ r.atom2 = atoms.2.1 ∧ r.atom3 = atoms.2.2.1 ∧
      r.atom4 = atoms.2.2.2 := by
  obtain ⟨a1, a2, a3, a4⟩ := atoms_to_improper_torsion_atoms get_atom_type improper_torsion0
    atoms table
  exact ⟨_, rfl, a1, a2, a3, a4⟩

/-- The `N` block appends at most one record, centred on the `N` of the residue. -/
theorem backbone_n_improper_torsion_records (get_atom_type : A → String)
    (improper_torsion0 : ImproperTorsionInteraction A R)
    (table : List (ImproperTorsionParameter R))
    (st out : List (ImproperTorsionInteraction A R) × List String)
    (previous_residue : Option (Residue A)) (res : Residue A)
    (h : backbone_n_improper_torsion get_atom_type improper_torsion0 table st
      previous_residue res = some out) :
    ∃ added : List (ImproperTorsionInteraction A R),
      out.1 = st.1 ++ added ∧ added.length ≤ 1 ∧ ∀ r ∈ added, r.atom1 = res.atom .N := by
  unfold backbone_n_improper_torsion at h
  by_cases hn : res.terminal_status = .NTERM
  · rw [if_neg (not_not.mpr hn)] at h
    cases h
    exact ⟨[], by simp, by simp, fun x hx => by cases hx⟩
  · rw [if_pos hn] at h
    cases previous_residue with
    | none => cases h
    | some previous =>
      obtain ⟨r, hr, a1, _⟩ := push_improper_torsion_fst get_atom_type improper_torsion0
        table st (res.atom .N, previous.atom .C, res.atom .CA,
          res.atom (if res.residue_type = .PRO then AtomEnum.CD else AtomEnum.H))
      have h' := Option.some.inj h
      refine ⟨[r], ?_, by simp, ?_⟩
      · rw [← h']; exact hr
      · intro x hx
        rw [List.mem_singleton.mp hx]; exact a1

/-- The `C` block appends exactly one record, centred on the `C` of the residue. -/
theorem backbone_c_improper_torsion_records (get_atom_type : A → String)
    (improper_torsion0 : ImproperTorsionInteraction A R)
    (table : List (ImproperTorsionParameter R))
    (st out : List (ImproperTorsionInteraction A R) × List String)
    (next_residue : Option (Residue A)) (res : Residue A)
    (h : backbone_c_improper_torsion get_atom_type improper_torsion0 table st
      next_residue res = some out) :
    ∃ r : ImproperTorsionInteraction A R, out.1 = st.1 ++ [r] ∧ r.atom1 = res.atom .C := by
  unfold backbone_c_improper_torsion at h
  by_cases hc : res.terminal_status = .CTERM
  · rw [if_neg (not_not.mpr hc), if_pos hc] at h
    obtain ⟨r, hr, a1, _⟩ := push_improper_torsion_fst get_atom_type improper_torsion0
      table st (res.atom .C, res.atom .CA, res.atom .OXT, res.atom .O)
    have h' := Option.some.inj h
    exact ⟨r, by rw [← h']; exact hr, a1⟩
  · rw [if_pos hc] at h
    cases next_residue with
    | none => cases h
    | some next =>
      obtain ⟨r, hr, a1, _⟩ := push_improper_torsion_fst get_atom_type improper_torsion0
        table st (res.atom .C, res.atom .CA, next.atom .N, res.atom .O)
      have h' := Option.some.inj h
      exact ⟨r, by rw [← h']; exact hr, a1⟩

/-- The backbone part appends at most two records, each centred on the `N` or on the `C` of
the residue. -/
theorem backbone_improper_torsions_records (get_atom_type : A → String)
    (improper_torsion0 : ImproperTorsionInteraction A R)
    (table : List (ImproperTorsionParameter R))
    (st out : List (ImproperTorsionInteraction A R) × List String)
    (previous_residue next_residue : Option (Residue A)) (res : Residue A)
    (h : backbone_improper_torsions get_atom_type improper_torsion0 table st
      previous_residue next_residue res = some out) :
    ∃ added : List (ImproperTorsionInteraction A R),
      out.1 = st.1 ++ added ∧ added.length ≤ 2 ∧
      ∀ r ∈ added, r.atom1 = res.atom .N ∨ r.atom1 = res.atom .C := by
  unfold backbone_improper_torsions at h
  cases hn : backbone_n_improper_torsion get_atom_type improper_torsion0 table st
      previous_residue res with
  | none => rw [hn] at h; cases h
  | some st1 =>
    rw [hn] at h
    obtain ⟨pre, hpre, hlen, hall⟩ := backbone_n_improper_torsion_records get_atom_type
      improper_torsion0 table st st1 previous_residue res hn
    obtain ⟨r, hr, a1⟩ := backbone_c_improper_torsion_records get_atom_type
      improper_torsion0 table st1 out next_residue res h
    refine ⟨pre ++ [r], ?_, ?_, ?_⟩
    · rw [hr, hpre, List.append_assoc]
    · simp only [List.length_append, List.length_singleton]; omega
    · intro x hx
      rcases List.mem_append.mp hx with hx | hx
      · exact Or.inl (hall x hx)
      · rw [List.mem_singleton.mp hx]; exact Or.inr a1

end ImproperChainLemmas

/-! ## Claims on the implicit-solvent attachment -/

/-- C11 (counterexample): in the chain `NH1 - CT1 - C - O - HB1`, all atoms of mass 12 and the
hydrogen reference mass 1, the pairs `(0, 3)` and `(1, 4)` are at distance exactly 3, and
their records returned by `generate_non_bonded_interactions_cached` have
`is_14_interaction = true` and `do_eef1 = true`, with the solvation members read from the
tables. -/
theorem generate_non_bonded_interactions_cached_eef1_on_14_pair :
    example_chain.chain_distance 0 3 = 3 ∧
    (generate_non_bonded_interactions_cached example_sqrt 332 1 example_interaction0
        example_parameter14_0 example_parameter0 example_chain example_non_bonded_parameters
        example_non_bonded_14_parameters [] example_factors example_vdw_radii example_lambda
        example_index_map).1.map
      (fun r => (r.atom1, r.atom2, r.is_14_interaction, r.do_eef1)) =
      [(0, 3, true, true), (0, 4, false, true), (1, 4, true, true)] ∧
    (generate_non_bonded_interactions_cached example_sqrt 332 1 example_interaction0
        example_parameter14_0 example_parameter0 example_chain example_non_bonded_parameters
        example_non_bonded_14_parameters [] example_factors example_vdw_radii example_lambda
        example_index_map).1.map
      (fun r => (r.fac_12, r.fac_21, r.R_vdw_1, r.R_vdw_2, r.lambda1, r.lambda2)) =
      [(12, 21, 3, 4, 5, 6), (11, 11, 3, 3, 5, 5), (21, 12, 4, 3, 6, 5)] := by
  refine ⟨by decide, by decide, by decide⟩

/-- C11 (amended): every record returned by `generate_non_bonded_interactions_cached` is for
a pair at topological distance at least 3, and has `do_eef1 = true` if and only if both atoms
have a mass different from the hydrogen reference mass, 1-4 pairs included; a record with
`do_eef1 = false` carries no solvation factors: its solvation members are those of the
default-constructed record. -/
theorem do_eef1_iff_both_atoms_heavy {A R : Type} [Field R] [DecidableEq R]
    (sqrt : R → R) (FELEC atom_h_weight : R)
    (interaction0 : NonBondedInteraction A R)
    (parameter14_0 : NonBonded14Parameter R) (parameter0 : NonBondedParameter R)
    (chain : ChainFB A R) (nbp : List (NonBondedParameter R))
    (nb14 : List (NonBonded14Parameter R))
    (dGref : List R) (factors : List (List R)) (vdw_radii lambda : List R)
    (index_map : IndexMap) (r : NonBondedInteraction A R)
    (hr : r ∈ (generate_non_bonded_interactions_cached sqrt FELEC atom_h_weight interaction0
        parameter14_0 parameter0 chain nbp nb14 dGref factors vdw_radii lambda index_map).1) :
    3 ≤ chain.chain_distance r.atom1 r.atom2 ∧
    (r.do_eef1 = true ↔
      chain.mass r.atom1 ≠ atom_h_weight ∧ chain.mass r.atom2 ≠ atom_h_weight) ∧
    (r.do_eef1 = false →
      r.fac_12 = interaction0.fac_12 ∧ r.fac_21 = interaction0.fac_21 ∧
      r.R_vdw_1 = interaction0.R_vdw_1 ∧ r.R_vdw_2 = interaction0.R_vdw_2 ∧
      r.lambda1 = interaction0.lambda1 ∧ r.lambda2 = interaction0.lambda2) := by
  revert r
  unfold generate_non_bonded_interactions_cached
  apply foldl_invariant
    (fun st : List (NonBondedInteraction A R) × IndexMap =>
      ∀ r ∈ st.1, 3 ≤ chain.chain_distance r.atom1 r.atom2 ∧
        (r.do_eef1 = true ↔
          chain.mass r.atom1 ≠ atom_h_weight ∧ chain.mass r.atom2 ≠ atom_h_weight) ∧
        (r.do_eef1 = false →
          r.fac_12 = interaction0.fac_12 ∧ r.fac_21 = interaction0.fac_21 ∧
          r.R_vdw_1 = interaction0.R_vdw_1 ∧ r.R_vdw_2 = interaction0.R_vdw_2 ∧
          r.lambda1 = interaction0.lambda1 ∧ r.lambda2 = interaction0.lambda2))
  · intro r hr
    cases hr
  · intro st x _ hst
    apply foldl_invariant
      (fun st : List (NonBondedInteraction A R) × IndexMap =>
        ∀ r ∈ st.1, 3 ≤ chain.chain_distance r.atom1 r.atom2 ∧
          (r.do_eef1 = true ↔
            chain.mass r.atom1 ≠ atom_h_weight ∧ chain.mass r.atom2 ≠ atom_h_weight) ∧
          (r.do_eef1 = false →
            r.fac_12 = interaction0.fac_12 ∧ r.fac_21 = interaction0.fac_21 ∧
            r.R_vdw_1 = interaction0.R_vdw_1 ∧ r.R_vdw_2 = interaction0.R_vdw_2 ∧
            r.lambda1 = interaction0.lambda1 ∧ r.lambda2 = interaction0.lambda2))
    · exact hst
    · intro st y _ hst r hr
      unfold non_bonded_step_cached at hr
      dsimp only at hr
      split_ifs at hr with h1 h2 h3
      · exact hst r hr
      · rw [List.mem_append, List.mem_singleton] at hr
        rcases hr with hr | hr
        · exact hst r hr
        · obtain ⟨f1, f2, _, _, _, _⟩ := attach_eef1_fields atom_h_weight chain factors
            vdw_radii lambda x.2 y.2 (full_pair_interaction sqrt FELEC interaction0 x.2 y.2) st.2
          obtain ⟨g1, g2⟩ := attach_eef1_do_eef1 atom_h_weight chain factors
            vdw_radii lambda x.2 y.2 (full_pair_interaction sqrt FELEC interaction0 x.2 y.2) st.2
          have hnot : ¬ chain.chain_distance x.2.atom y.2.atom < 3 := by omega
          rw [hr, f1, f2]
          refine ⟨?_, ?_, g2⟩
          · show 3 ≤ chain.chain_distance x.2.atom y.2.atom
            omega
          · rw [g1]
            exact ⟨fun h => ⟨h.1, h.2.2⟩, fun h => ⟨h.1, hnot, h.2⟩⟩
      · rw [List.mem_append, List.mem_singleton] at hr
        rcases hr with hr | hr
        · exact hst r hr
        · obtain ⟨f1, f2, _, _, _, _⟩ := attach_eef1_fields atom_h_weight chain factors
            vdw_radii lambda x.2 y.2 (pair14_interaction sqrt FELEC interaction0 parameter14_0
              parameter0 nbp nb14 x.2 y.2) st.2
          obtain ⟨g1, g2⟩ := attach_eef1_do_eef1 atom_h_weight chain factors
            vdw_radii lambda x.2 y.2 (pair14_interaction sqrt FELEC interaction0 parameter14_0
              parameter0 nbp nb14 x.2 y.2) st.2
          have hnot : ¬ chain.chain_distance x.2.atom y.2.atom < 3 := by omega
          rw [hr, f1, f2]
          refine ⟨?_, ?_, g2⟩
          · show 3 ≤ chain.chain_distance x.2.atom y.2.atom
            omega
          · rw [g1]
            exact ⟨fun h => ⟨h.1, h.2.2⟩, fun h => ⟨h.1, hnot, h.2⟩⟩
      · exact hst r hr

/-- Witness of C11 (amended) at the chain `NH1 - CT1 - C - O - HB1`, all atoms of mass 12 and
the hydrogen reference mass 1: the three records of the cached generator. -/
theorem do_eef1_iff_both_atoms_heavy_witness :
    (generate_non_bonded_interactions_cached example_sqrt 332 1 example_interaction0
        example_parameter14_0 example_parameter0 example_chain example_non_bonded_parameters
        example_non_bonded_14_parameters [] example_factors example_vdw_radii example_lambda
        example_index_map).1.length = 3 ∧
    ∀ r ∈ (generate_non_bonded_interactions_cached example_sqrt 332 1 example_interaction0
        example_parameter14_0 example_parameter0 example_chain example_non_bonded_parameters
        example_non_bonded_14_parameters [] example_factors example_vdw_radii example_lambda
        example_index_map).1,
      3 ≤ example_chain.chain_distance r.atom1 r.atom2 ∧
      (r.do_eef1 = true ↔ example_chain.mass r.atom1 ≠ 1 ∧ example_chain.mass r.atom2 ≠ 1) ∧
      (r.do_eef1 = false →
        r.fac_12 = example_interaction0.fac_12 ∧ r.fac_21 = example_interaction0.fac_21 ∧
        r.R_vdw_1 = example_interaction0.R_vdw_1 ∧ r.R_vdw_2 = example_interaction0.R_vdw_2 ∧
        r.lambda1 = example_interaction0.lambda1 ∧ r.lambda2 = example_interaction0.lambda2) :=
  ⟨by decide, fun r hr =>
    do_eef1_iff_both_atoms_heavy example_sqrt 332 1 example_interaction0
      example_parameter14_0 example_parameter0 example_chain example_non_bonded_parameters
      example_non_bonded_14_parameters [] example_factors example_vdw_radii example_lambda
      example_index_map r hr⟩

/-! ## Claims on the torsion generator -/

/-- C13 (counterexample): in the chain `NH1 - CT1 - C - O - HB1` the candidate quadruple
`(0, 1, 2, 3)` has types `(NH1, CT1, C, O)`; with a table of two entries for these types
`generate_torsion_interactions` returns two records for that one quadruple, the second with
the constants of the second entry. -/
theorem generate_torsion_interactions_two_records_for_one_quadruple :
    (0, 1, 2, 3) ∈ torsion_candidates example_chain ∧
    (generate_torsion_interactions example_chain example_torsion_parameters_two_terms).1 =
      [{ atom1 := 0, atom2 := 1, atom3 := 2, atom4 := 3, phi0 := 0, cp := 1, mult := 1 },
       { atom1 := 0, atom2 := 1, atom3 := 2, atom4 := 3, phi0 := 180, cp := 3, mult := 2 }] := by
  refine ⟨by decide, by decide⟩

/-- C13 (amended): for every quadruple and every torsion table, when some entry matches the
quadruple exactly (forward or reverse) the records emitted for the quadruple carry, in table
order, the constants of the exactly matching entries, one record for each of them; when no
entry matches exactly there is at most one record, with the constants of the first entry
that matches as wildcard. -/
theorem torsion_records_follow_matching_entries {A R : Type} (chain : ChainFB A R)
    (table : List (TorsionParameter R)) (atom1 atom2 atom3 atom4 : A) :
    ((∃ p ∈ table,
        torsion_exact_forward p (chain.get_atom_type atom1) (chain.get_atom_type atom2)
            (chain.get_atom_type atom3) (chain.get_atom_type atom4) ∨
          torsion_exact_reverse p (chain.get_atom_type atom1) (chain.get_atom_type atom2)
            (chain.get_atom_type atom3) (chain.get_atom_type atom4)) →
      (torsion_quadruple chain table atom1 atom2 atom3 atom4).1.map
          (fun r => (r.phi0, r.cp, r.mult)) =
        (table.filter fun p => decide
          (torsion_exact_forward p (chain.get_atom_type atom1) (chain.get_atom_type atom2)
              (chain.get_atom_type atom3) (chain.get_atom_type atom4) ∨
            torsion_exact_reverse p (chain.get_atom_type atom1) (chain.get_atom_type atom2)
              (chain.get_atom_type atom3) (chain.get_atom_type atom4))).map
          (fun p => (p.phi0, p.cp, p.mult))) ∧
    ((∀ p ∈ table,
        ¬ (torsion_exact_forward p (chain.get_atom_type atom1) (chain.get_atom_type atom2)
            (chain.get_atom_type atom3) (chain.get_atom_type atom4) ∨
          torsion_exact_reverse p (chain.get_atom_type atom1) (chain.get_atom_type atom2)
            (chain.get_atom_type atom3) (chain.get_atom_type atom4))) →
      (torsion_quadruple chain table atom1 atom2 atom3 atom4).1.length ≤ 1 ∧
      (torsion_quadruple chain table atom1 atom2 atom3 atom4).1.map
          (fun r => (r.phi0, r.cp, r.mult)) =
        ((table.find? fun p => decide
          (torsion_wildcard_forward p (chain.get_atom_type atom2) (chain.get_atom_type atom3) ∨
            torsion_wildcard_reverse p (chain.get_atom_type atom2)
              (chain.get_atom_type atom3))).map
          (fun p => (p.phi0, p.cp, p.mult))).toList) := by
  constructor
  · rintro ⟨p, hp, hm⟩
    have hne : (scan_torsion_exact atom1 atom2 atom3 atom4 (chain.get_atom_type atom1)
        (chain.get_atom_type atom2) (chain.get_atom_type atom3) (chain.get_atom_type atom4)
        table).isEmpty = false := by
      cases hs : scan_torsion_exact atom1 atom2 atom3 atom4 (chain.get_atom_type atom1)
          (chain.get_atom_type atom2) (chain.get_atom_type atom3)
          (chain.get_atom_type atom4) table with
      | nil => exact absurd hm ((scan_torsion_exact_eq_nil _ _ _ _ _ _ _ _ _).mp hs p hp)
      | cons _ _ => rfl
    unfold torsion_quadruple
    simp only [hne]
    exact scan_torsion_exact_constants _ _ _ _ _ _ _ _ _
  · intro hnone
    have hnil := (scan_torsion_exact_eq_nil atom1 atom2 atom3 atom4
      (chain.get_atom_type atom1) (chain.get_atom_type atom2) (chain.get_atom_type atom3)
      (chain.get_atom_type atom4) table).mpr hnone
    unfold torsion_quadruple
    simp only [hnil, scan_torsion_wildcard_eq_find]
    cases table.find? fun p => decide
        (torsion_wildcard_forward p (chain.get_atom_type atom2) (chain.get_atom_type atom3) ∨
          torsion_wildcard_reverse p (chain.get_atom_type atom2)
            (chain.get_atom_type atom3)) with
    | none => simp
    | some p =>
      by_cases hf : torsion_wildcard_forward p (chain.get_atom_type atom2)
          (chain.get_atom_type atom3)
      · simp [hf, torsion_interaction_of]
      · simp [hf, torsion_interaction_of]

/-- Witness of C13 (amended) at the chain `NH1 - CT1 - C - O - HB1`: the quadruple
`(0, 1, 2, 3)` with the two-entry table, and the quadruple `(1, 2, 3, 4)`, which no entry of
that table matches. -/
theorem torsion_records_follow_matching_entries_witness :
    (torsion_quadruple example_chain example_torsion_parameters_two_terms 0 1 2 3).1.map
        (fun r => (r.phi0, r.cp, r.mult)) =
      (example_torsion_parameters_two_terms.filter fun p => decide
        (torsion_exact_forward p (example_chain.get_atom_type 0) (example_chain.get_atom_type 1)
            (example_chain.get_atom_type 2) (example_chain.get_atom_type 3) ∨
          torsion_exact_reverse p (example_chain.get_atom_type 0)
            (example_chain.get_atom_type 1) (example_chain.get_atom_type 2)
            (example_chain.get_atom_type 3))).map
        (fun p => (p.phi0, p.cp, p.mult)) ∧
    (torsion_quadruple example_chain example_torsion_parameters_two_terms 1 2 3 4).1.length
      ≤ 1 :=
  ⟨(torsion_records_follow_matching_entries example_chain
      example_torsion_parameters_two_terms 0 1 2 3).1
      ⟨{ type1 := "NH1", type2 := "CT1", type3 := "C", type4 := "O", phi0 := 0, cp := 1,
         mult := 1 }, by decide, by decide⟩,
    ((torsion_records_follow_matching_entries example_chain
      example_torsion_parameters_two_terms 1 2 3 4).2 (by decide)).1⟩

/-- C14 (counterexample): the quadruple `(0, 1, 2, 3)` of the chain `NH1 - CT1 - C - O - HB1`
has middle types `CT1` and `C`; the table holds the wildcard reverse entry `(X, C, CT1, X)`
before the wildcard forward entry `(X, CT1, C, X)` and no exact entry, and the record emitted
has the reverse entry's constants and the atoms in reverse order. -/
theorem generate_torsion_interactions_reverse_wildcard_first :
    (0, 1, 2, 3) ∈ torsion_candidates example_chain ∧
    (∀ p ∈ example_torsion_parameters_wildcards,
      ¬ (torsion_exact_forward p (example_types 0) (example_types 1) (example_types 2)
          (example_types 3) ∨
        torsion_exact_reverse p (example_types 0) (example_types 1) (example_types 2)
          (example_types 3))) ∧
    (torsion_quadruple example_chain example_torsion_parameters_wildcards 0 1 2 3).1 =
      [{ atom1 := 3, atom2 := 2, atom3 := 1, atom4 := 0, phi0 := 0, cp := 5, mult := 3 }] := by
  refine ⟨by decide, by decide, by decide⟩

/-- C14 (amended): when no entry matches the quadruple exactly and `p` is the first entry of
the table that matches as wildcard, forward `(X, t2, t3, X)` or reverse `(X, t3, t2, X)`,
exactly one record is emitted for the quadruple; it carries the constants of `p`, with the
atoms in forward order when `p` matches forward and in reverse order otherwise.  So the
wildcard forward entry is used, with forward atom order, when it comes before every
wildcard reverse entry of the table. -/
theorem torsion_first_wildcard_entry_wins {A R : Type} (chain : ChainFB A R)
    (table : List (TorsionParameter R)) (atom1 atom2 atom3 atom4 : A)
    (p : TorsionParameter R)
    (hnone : ∀ q ∈ table,
      ¬ (torsion_exact_forward q (chain.get_atom_type atom1) (chain.get_atom_type atom2)
          (chain.get_atom_type atom3) (chain.get_atom_type atom4) ∨
        torsion_exact_reverse q (chain.get_atom_type atom1) (chain.get_atom_type atom2)
          (chain.get_atom_type atom3) (chain.get_atom_type atom4)))
    (hfirst : table.find? (fun q => decide
        (torsion_wildcard_forward q (chain.get_atom_type atom2) (chain.get_atom_type atom3) ∨
          torsion_wildcard_reverse q (chain.get_atom_type atom2)
            (chain.get_atom_type atom3))) = some p) :
    (torsion_wildcard_forward p (chain.get_atom_type atom2) (chain.get_atom_type atom3) →
      (torsion_quadruple chain table atom1 atom2 atom3 atom4).1 =
        [torsion_interaction_of atom1 atom2 atom3 atom4 p]) ∧
    (¬ torsion_wildcard_forward p (chain.get_atom_type atom2) (chain.get_atom_type atom3) →
      (torsion_quadruple chain table atom1 atom2 atom3 atom4).1 =
        [torsion_interaction_of atom4 atom3 atom2 atom1 p]) := by
  have hnil := (scan_torsion_exact_eq_nil atom1 atom2 atom3 atom4
    (chain.get_atom_type atom1) (chain.get_atom_type atom2) (chain.get_atom_type atom3)
    (chain.get_atom_type atom4) table).mpr hnone
  constructor
  · intro hf
    unfold torsion_quadruple
    simp only [hnil, scan_torsion_wildcard_eq_find, hfirst]
    simp [hf]
  · intro hf
    unfold torsion_quadruple
    simp only [hnil, scan_torsion_wildcard_eq_find, hfirst]
    simp [hf]

/-- Witness of C14 (amended) at the chain `NH1 - CT1 - C - O - HB1`, the quadruple
`(0, 1, 2, 3)` and the table that lists the wildcard reverse entry first. -/
theorem torsion_first_wildcard_entry_wins_witness :
    (torsion_quadruple example_chain example_torsion_parameters_wildcards 0 1 2 3).1 =
      [torsion_interaction_of 3 2 1 0
        ({ type1 := "X", type2 := "C", type3 := "CT1", type4 := "X", phi0 := 0, cp := 5,
           mult := 3 } : TorsionParameter ℚ)] :=
  (torsion_first_wildcard_entry_wins example_chain example_torsion_parameters_wildcards
    0 1 2 3
    { type1 := "X", type2 := "C", type3 := "CT1", type4 := "X", phi0 := 0, cp := 5,
      mult := 3 }
    (by decide) (by decide)).2 (by decide)

/-- C15 (counterexample): with the one-entry table `(NH1, CT1, C, O)` the five-atom chain
`NH1 - CT1 - C - O - HB1` has the unmatched candidate quadruple `(1, 2, 3, 4)` and the
four-atom chain `NH1 - CT1 - C - O` has none, yet `generate_torsion_interactions` returns
the same list for both; only the text on `std::cout` differs. -/
theorem generate_torsion_interactions_same_result_with_and_without_gap :
    (generate_torsion_interactions example_chain example_torsion_parameters_single).1 =
      (generate_torsion_interactions (linear_chain 4 example_types)
        example_torsion_parameters_single).1 ∧
    (generate_torsion_interactions example_chain example_torsion_parameters_single).2 =
      [(1, 2, 3, 4)] ∧
    (generate_torsion_interactions (linear_chain 4 example_types)
      example_torsion_parameters_single).2 = [] := by
  refine ⟨by decide, by decide, by decide⟩

/-- C15 (amended): the torsion generator marks a gap on `std::cout` only.  A quadruple is
reported there if and only if it is a candidate quadruple (a central bond `atom2 - atom3`
in canonical order with `atom1` a neighbour of `atom2` other than `atom3` and `atom4` a
neighbour of `atom3` other than `atom2`) that no table entry matches, exactly or as
wildcard, in either direction. -/
theorem torsion_gap_reported_on_cout {A R : Type} [DecidableEq A] (chain : ChainFB A R)
    (table : List (TorsionParameter R)) (atom1 atom2 atom3 atom4 : A) :
    (atom1, atom2, atom3, atom4) ∈ (generate_torsion_interactions chain table).2 ↔
      (atom2 ∈ chain.atoms ∧ atom3 ∈ chain.atoms ∧
        ¬ (chain.residue_index atom2 > chain.residue_index atom3 ∨
          (chain.residue_index atom2 = chain.residue_index atom3 ∧
            chain.index atom2 > chain.index atom3)) ∧
        chain.chain_distance atom2 atom3 = 1 ∧
        atom1 ∈ chain.covalent_bonds atom2 ∧ atom4 ∈ chain.covalent_bonds atom3 ∧
        atom2 ≠ atom4 ∧ atom1 ≠ atom3) ∧
      ∀ p ∈ table,
        ¬ (torsion_exact_forward p (chain.get_atom_type atom1) (chain.get_atom_type atom2)
            (chain.get_atom_type atom3) (chain.get_atom_type atom4) ∨
          torsion_exact_reverse p (chain.get_atom_type atom1) (chain.get_atom_type atom2)
            (chain.get_atom_type atom3) (chain.get_atom_type atom4)) ∧
        ¬ (torsion_wildcard_forward p (chain.get_atom_type atom2)
            (chain.get_atom_type atom3) ∨
          torsion_wildcard_reverse p (chain.get_atom_type atom2)
            (chain.get_atom_type atom3)) := by
  rw [generate_torsion_interactions_eq, ← mem_torsion_candidates]
  simp only [List.mem_flatMap]
  constructor
  · rintro ⟨⟨b1, b2, b3, b4⟩, hq, hmem⟩
    by_cases hun : ∀ p ∈ table,
        ¬ (torsion_exact_forward p (chain.get_atom_type b1) (chain.get_atom_type b2)
            (chain.get_atom_type b3) (chain.get_atom_type b4) ∨
          torsion_exact_reverse p (chain.get_atom_type b1) (chain.get_atom_type b2)
            (chain.get_atom_type b3) (chain.get_atom_type b4)) ∧
        ¬ (torsion_wildcard_forward p (chain.get_atom_type b2) (chain.get_atom_type b3) ∨
          torsion_wildcard_reverse p (chain.get_atom_type b2) (chain.get_atom_type b3))
    · rw [(torsion_quadruple_unmatched_iff chain table b1 b2 b3 b4).1 hun] at hmem
      have := List.mem_singleton.mp hmem
      obtain ⟨rfl, rfl, rfl, rfl⟩ : atom1 = b1 ∧ atom2 = b2 ∧ atom3 = b3 ∧ atom4 = b4 := by
        simpa using this
      exact ⟨hq, hun⟩
    · rw [(torsion_quadruple_unmatched_iff chain table b1 b2 b3 b4).2 hun] at hmem
      cases hmem
  · rintro ⟨hq, hun⟩
    refine ⟨(atom1, atom2, atom3, atom4), hq, ?_⟩
    rw [(torsion_quadruple_unmatched_iff chain table atom1 atom2 atom3 atom4).1 hun]
    exact List.mem_singleton.mpr rfl

/-- C16: when no entry of the torsion table matches a quadruple, exactly or as wildcard, in
either direction, the loop body appends no record for it, and the list returned by
`generate_torsion_interactions` (which always returns) is the concatenation, in loop order,
of the records of the other candidate quadruples, each computed from its own atoms and the
table alone: it is the list obtained with the unmatched quadruple left out. -/
theorem torsion_unmatched_quadruple_skipped {A R : Type} [DecidableEq A] (chain : ChainFB A R)
    (table : List (TorsionParameter R)) (atom1 atom2 atom3 atom4 : A)
    (hun : ∀ p ∈ table,
      ¬ (torsion_exact_forward p (chain.get_atom_type atom1) (chain.get_atom_type atom2)
          (chain.get_atom_type atom3) (chain.get_atom_type atom4) ∨
        torsion_exact_reverse p (chain.get_atom_type atom1) (chain.get_atom_type atom2)
          (chain.get_atom_type atom3) (chain.get_atom_type atom4)) ∧
      ¬ (torsion_wildcard_forward p (chain.get_atom_type atom2) (chain.get_atom_type atom3) ∨
        torsion_wildcard_reverse p (chain.get_atom_type atom2)
          (chain.get_atom_type atom3))) :
    (torsion_quadruple chain table atom1 atom2 atom3 atom4).1 = [] ∧
    (generate_torsion_interactions chain table).1 =
      ((torsion_candidates chain).filter
          fun q => decide (q ≠ (atom1, atom2, atom3, atom4))).flatMap
        fun q => (torsion_quadruple chain table q.1 q.2.1 q.2.2.1 q.2.2.2).1 := by
  have hq := (torsion_quadruple_unmatched_iff chain table atom1 atom2 atom3 atom4).1 hun
  refine ⟨by rw [hq], ?_⟩
  rw [generate_torsion_interactions_eq]
  symm
  apply flatMap_filter_of_nil
  intro q _ hk
  have : q = (atom1, atom2, atom3, atom4) := by simpa using hk
  subst this
  rw [hq]

/-- Witness of C16 at the chain `NH1 - CT1 - C - O - HB1`, the one-entry table
`(NH1, CT1, C, O)` and the unmatched quadruple `(1, 2, 3, 4)`. -/
theorem torsion_unmatched_quadruple_skipped_witness :
    (torsion_quadruple example_chain example_torsion_parameters_single 1 2 3 4).1 = [] ∧
    (generate_torsion_interactions example_chain example_torsion_parameters_single).1 =
      ((torsion_candidates example_chain).filter
          fun q => decide (q ≠ (1, 2, 3, 4))).flatMap
        fun q => (torsion_quadruple example_chain example_torsion_parameters_single
          q.1 q.2.1 q.2.2.1 q.2.2.2).1 :=
  torsion_unmatched_quadruple_skipped example_chain example_torsion_parameters_single
    1 2 3 4 (by decide)

/-! ## Claims on the improper-torsion generator -/

/-- C17 (evaluation at the failing input): for a quadruple of types `(NH1, CT1, C, O)` and a
table whose two entries both match it (the first forward, the second reverse),
`atoms_to_improper_torsion` returns the `phi0` and `cp` of the second entry, not of the
first. -/
theorem atoms_to_improper_torsion_last_match_wins
    (improper_torsion0 : ImproperTorsionInteraction Nat ℚ) :
    (∀ p ∈ example_improper_torsion_parameters_two_exact,
      improper_matches p (example_types 0) (example_types 1) (example_types 2)
        (example_types 3)) ∧
    atoms_to_improper_torsion example_types improper_torsion0 (0, 1, 2, 3)
        example_improper_torsion_parameters_two_exact =
      ({ atom1 := 0, atom2 := 1, atom3 := 2, atom4 := 3, phi0 := 35, cp := 45 }, []) := by
  refine ⟨by decide, rfl⟩

/-- C18 (counterexample): for a quadruple of types `(NH1, CT1, C, O)` and a table that holds
the exact entry `(NH1, CT1, C, O)` of constants `(0, 100)` between two wildcard-outer
entries `(NH1, X, X, O)` of constants `(35, 45)`, so that the first and the last matching
entry are both wildcard-outer entries, `atoms_to_improper_torsion` returns the `phi0` and
`cp` of the wildcard-outer entries; it does so as well for the table that holds the exact
entry followed by one wildcard-outer entry. -/
theorem atoms_to_improper_torsion_wildcard_over_exact :
    example_improper_torsion_parameters_wildcard_exact_wildcard.map
        (fun p => (p.type1, p.type2, p.type3, p.type4, p.phi0, p.cp)) =
      [("NH1", "X", "X", "O", 35, 45), ("NH1", "CT1", "C", "O", 0, 100),
       ("NH1", "X", "X", "O", 35, 45)] ∧
    (example_types 0, example_types 1, example_types 2, example_types 3) =
      ("NH1", "CT1", "C", "O") ∧
    atoms_to_improper_torsion example_types example_improper_torsion0_chain (0, 1, 2, 3)
        example_improper_torsion_parameters_wildcard_exact_wildcard =
      ({ atom1 := 0, atom2 := 1, atom3 := 2, atom4 := 3, phi0 := 35, cp := 45 }, []) ∧
    atoms_to_improper_torsion example_types example_improper_torsion0_chain (0, 1, 2, 3)
        example_improper_torsion_parameters_exact_wildcard =
      ({ atom1 := 0, atom2 := 1, atom3 := 2, atom4 := 3, phi0 := 35, cp := 45 }, []) := by
  refine ⟨rfl, by decide, by decide, by decide⟩

/-- C19: for a residue of type GLY or ALA, whatever atoms it contains, the side-chain part
of `generate_improper_torsion_interactions` appends no record and prints nothing, so the
loop body reduces to its backbone part: it returns when the neighbours it reads exist, and
the records it appends for the residue, at most two, are centred on the `N` or on the `C`
of the residue. -/
theorem gly_ala_no_side_chain_improper_torsions {A R : Type} (get_atom_type : A → String)
    (improper_torsion0 : ImproperTorsionInteraction A R)
    (table : List (ImproperTorsionParameter R))
    (st : List (ImproperTorsionInteraction A R) × List String)
    (previous_residue next_residue : Option (Residue A)) (res : Residue A)
    (hres : res.residue_type = .GLY ∨ res.residue_type = .ALA) :
    side_chain_improper_torsions get_atom_type improper_torsion0 table st res = st ∧
    residue_improper_torsions get_atom_type improper_torsion0 table st
        previous_residue next_residue res =
      backbone_improper_torsions get_atom_type improper_torsion0 table st
        previous_residue next_residue res ∧
    (∀ previous next : Residue A,
      (residue_improper_torsions get_atom_type improper_torsion0 table st
        (some previous) (some next) res).isSome = true) ∧
    (∀ out, residue_improper_torsions get_atom_type improper_torsion0 table st
        previous_residue next_residue res = some out →
      ∃ added : List (ImproperTorsionInteraction A R),
        out.1 = st.1 ++ added ∧ added.length ≤ 2 ∧
        ∀ r ∈ added, r.atom1 = res.atom .N ∨ r.atom1 = res.atom .C) := by
  have hside : side_chain_improper_torsions get_atom_type improper_torsion0 table st res
      = st := by
    unfold side_chain_improper_torsions side_chain_enum_pairs
    rcases hres with h | h <;> simp [h]
  have hbody : ∀ p n : Option (Residue A),
      residue_improper_torsions get_atom_type improper_torsion0 table st p n res =
        backbone_improper_torsions get_atom_type improper_torsion0 table st p n res := by
    intro p n
    unfold residue_improper_torsions
    rw [hside]
  refine ⟨hside, hbody _ _, ?_, ?_⟩
  · intro previous next
    rw [hbody]
    unfold backbone_improper_torsions backbone_n_improper_torsion backbone_c_improper_torsion
    dsimp only
    split_ifs <;> rfl
  · intro out hout
    rw [hbody] at hout
    exact backbone_improper_torsions_records get_atom_type improper_torsion0 table st out
      previous_residue next_residue res hout

/-- Witness of C19 at the C-terminal glycine of the example chain, after the asparagine. -/
theorem gly_ala_no_side_chain_improper_torsions_witness :
    side_chain_improper_torsions example_atom_type example_improper_torsion0
        example_improper_torsion_parameters ([], []) (example_residue 2 .GLY .CTERM)
      = ([], []) ∧
    (Option.map (fun out => out.1.map fun r => (r.atom1, r.atom2, r.atom3, r.atom4))
        (residue_improper_torsions example_atom_type example_improper_torsion0
          example_improper_torsion_parameters ([], [])
          (some (example_residue 1 .ASN .INTERNAL)) none (example_residue 2 .GLY .CTERM))) =
      some [((2, .N), (1, .C), (2, .CA), (2, .H)), ((2, .C), (2, .CA), (2, .OXT), (2, .O))] :=
  ⟨(gly_ala_no_side_chain_improper_torsions example_atom_type example_improper_torsion0
      example_improper_torsion_parameters ([], [])
      (some (example_residue 1 .ASN .INTERNAL)) none (example_residue 2 .GLY .CTERM)
      (Or.inl rfl)).1, rfl⟩

/-- C20 (counterexample): on the chain alanine - asparagine - glycine
`generate_improper_torsion_interactions` returns nine records; four of them are the
side-chain quadruples of the asparagine (residue 1), not three. -/
theorem generate_improper_torsion_interactions_asn_four_side_chain :
    (example_residue 1 .ASN .INTERNAL).residue_type = .ASN ∧
    Option.map (fun out => out.1.map fun r => (r.atom1, r.atom2, r.atom3, r.atom4))
        (generate_improper_torsion_interactions example_atom_type example_improper_torsion0
          example_residues example_improper_torsion_parameters) =
      some [((0, .C), (0, .CA), (1, .N), (0, .O)),
        ((1, .CG), (1, .ND2), (1, .CB), (1, .OD1)),
        ((1, .CG), (1, .CB), (1, .ND2), (1, .OD1)),
        ((1, .ND2), (1, .CG), (1, .HD21), (1, .HD22)),
        ((1, .ND2), (1, .CG), (1, .HD22), (1, .HD21)),
        ((1, .N), (0, .C), (1, .CA), (1, .H)),
        ((1, .C), (1, .CA), (2, .N), (1, .O)),
        ((2, .N), (1, .C), (2, .CA), (2, .H)),
        ((2, .C), (2, .CA), (2, .OXT), (2, .O))] := by
  exact ⟨rfl, rfl⟩

/-- C20 (amended): for every asparagine residue the side-chain part of
`generate_improper_torsion_interactions` appends exactly four records, for the quadruples
`(CG, ND2, CB, OD1)`, `(CG, CB, ND2, OD1)`, `(ND2, CG, HD21, HD22)` and
`(ND2, CG, HD22, HD21)` of the residue, in this order. -/
theorem asn_four_side_chain_improper_torsions {A R : Type} (get_atom_type : A → String)
    (improper_torsion0 : ImproperTorsionInteraction A R)
    (table : List (ImproperTorsionParameter R))
    (st : List (ImproperTorsionInteraction A R) × List String) (res : Residue A)
    (hres : res.residue_type = .ASN) :
    (side_chain_improper_torsions get_atom_type improper_torsion0 table st res).1.length =
      st.1.length + 4 ∧
    (side_chain_improper_torsions get_atom_type improper_torsion0 table st res).1.map
        (fun r => (r.atom1, r.atom2, r.atom3, r.atom4)) =
      st.1.map (fun r => (r.atom1, r.atom2, r.atom3, r.atom4)) ++
        [(res.atom .CG, res.atom .ND2, res.atom .CB, res.atom .OD1),
         (res.atom .CG, res.atom .CB, res.atom .ND2, res.atom .OD1),
         (res.atom .ND2, res.atom .CG, res.atom .HD21, res.atom .HD22),
         (res.atom .ND2, res.atom .CG, res.atom .HD22, res.atom .HD21)] := by
  have hmap : (side_chain_improper_torsions get_atom_type improper_torsion0 table st res).1.map
        (fun r => (r.atom1, r.atom2, r.atom3, r.atom4)) =
      st.1.map (fun r => (r.atom1, r.atom2, r.atom3, r.atom4)) ++
        [(res.atom .CG, res.atom .ND2, res.atom .CB, res.atom .OD1),
         (res.atom .CG, res.atom .CB, res.atom .ND2, res.atom .OD1),
         (res.atom .ND2, res.atom .CG, res.atom .HD21, res.atom .HD22),
         (res.atom .ND2, res.atom .CG, res.atom .HD22, res.atom .HD21)] := by
    unfold side_chain_improper_torsions side_chain_enum_pairs
    simp only [hres, List.foldl_cons, List.foldl_nil, push_improper_torsion, List.map_append,
      List.map_cons, List.map_nil, List.append_assoc, List.singleton_append]
    obtain ⟨a1, a2, a3, a4⟩ := atoms_to_improper_torsion_atoms get_atom_type improper_torsion0
      (res.atom .CG, res.atom .ND2, res.atom .CB, res.atom .OD1) table
    obtain ⟨b1, b2, b3, b4⟩ := atoms_to_improper_torsion_atoms get_atom_type improper_torsion0
      (res.atom .CG, res.atom .CB, res.atom .ND2, res.atom .OD1) table
    obtain ⟨c1, c2, c3, c4⟩ := atoms_to_improper_torsion_atoms get_atom_type improper_torsion0
      (res.atom .ND2, res.atom .CG, res.atom .HD21, res.atom .HD22) table
    obtain ⟨d1, d2, d3, d4⟩ := atoms_to_improper_torsion_atoms get_atom_type improper_torsion0
      (res.atom .ND2, res.atom .CG, res.atom .HD22, res.atom .HD21) table
    rw [a1, a2, a3, a4, b1, b2, b3, b4, c1, c2, c3, c4, d1, d2, d3, d4]
    rfl
  refine ⟨?_, hmap⟩
  have := congrArg List.length hmap
  simpa using this

/-- Witness of C20 (amended) at the asparagine of the example chain. -/
theorem asn_four_side_chain_improper_torsions_witness :
    (side_chain_improper_torsions example_atom_type example_improper_torsion0
      example_improper_torsion_parameters ([], [])
      (example_residue 1 .ASN .INTERNAL)).1.length = 4 :=
  (asn_four_side_chain_improper_torsions example_atom_type example_improper_torsion0
    example_improper_torsion_parameters ([], []) (example_residue 1 .ASN .INTERNAL) rfl).1

/-! ## Lemmas on the backbone improper torsions -/

section ImproperChainReturns
variable {A R : Type}

/-- One resolved quadruple appends exactly one record, with the four atoms of the quadruple,
and some lines on `std::cout`. -/
theorem push_improper_torsion_eq (get_atom_type : A → String)
    (improper_torsion0 : ImproperTorsionInteraction A R)
    (table : List (ImproperTorsionParameter R))
    (st : List (ImproperTorsionInteraction A R) × List String) (atoms : A × A × A × A) :
    ∃ (r : ImproperTorsionInteraction A R) (cout : List String),
      push_improper_torsion get_atom_type improper_torsion0 table st atoms =
        (st.1 ++ [r], st.2 ++ cout) ∧
      (r.atom1, r.atom2, r.atom3, r.atom4) = atoms := by
  obtain ⟨a1, a2, a3, a4⟩ := atoms_to_improper_torsion_atoms get_atom_type improper_torsion0
    atoms table
  refine ⟨_, _, rfl, ?_⟩
  rw [a1, a2, a3, a4]

/-- The improper generator returns on a chain in which every residue that is not N-terminal
has a predecessor and every residue that is not C-terminal has a successor. -/
theorem generate_improper_torsion_interactions_isSome (get_atom_type : A → String)
    (improper_torsion0 : ImproperTorsionInteraction A R) (residues : List (Residue A))
    (table : List (ImproperTorsionParameter R))
    (hwf : ∀ (i : Nat) (res : Residue A), residues[i]? = some res →
      (res.terminal_status ≠ .NTERM → i ≠ 0) ∧
      (res.terminal_status ≠ .CTERM → i + 1 < residues.length)) :
    (generate_improper_torsion_interactions get_atom_type improper_torsion0 residues
      table).isSome = true := by
  unfold generate_improper_torsion_interactions
  refine foldl_invariant
    (fun st : Option (List (ImproperTorsionInteraction A R) × List String) => st.isSome = true)
    _ _ _ rfl ?_
  · intro s x hx hs
    obtain ⟨st, rfl⟩ := Option.isSome_iff_exists.mp hs
    have hx' := List.mem_enum_iff_getElem?.mp hx
    obtain ⟨hn, hc⟩ := hwf x.1 x.2 hx'
    have hlt : x.1 < residues.length := (List.getElem?_eq_some_iff.mp hx').1
    dsimp only
    unfold residue_improper_torsions backbone_improper_torsions
    have h1 : (backbone_n_improper_torsion get_atom_type improper_torsion0 table
        (side_chain_improper_torsions get_atom_type improper_torsion0 table st x.2)
        (if x.1 = 0 then none else residues[x.1 - 1]?) x.2).isSome = true := by
      unfold backbone_n_improper_torsion
      by_cases hN : x.2.terminal_status = .NTERM
      · rw [if_neg (not_not.mpr hN)]; rfl
      · rw [if_pos hN, if_neg (hn hN)]
        have : x.1 - 1 < residues.length := by omega
        rw [List.getElem?_eq_getElem this]
        rfl
    obtain ⟨st1, hst1⟩ := Option.isSome_iff_exists.mp h1
    rw [hst1]
    dsimp only
    unfold backbone_c_improper_torsion
    by_cases hC : x.2.terminal_status = .CTERM
    · rw [if_neg (not_not.mpr hC), if_pos hC]; rfl
    · rw [if_pos hC, List.getElem?_eq_getElem (hc hC)]
      rfl

end ImproperChainReturns

/-! ## Claims on histidine and on the backbone improper torsions -/

/-- C21 (counterexample): on a chain whose middle residue is a histidine with neither `HD1`
nor `HE2`, `generate_improper_torsion_interactions` returns a list: the five backbone
records, none for the side chain of the histidine, and its first line on `std::cout` is the
message on the protonation state. -/
theorem generate_improper_torsion_interactions_returns_on_unprotonated_histidine :
    (example_histidine_without_protons 1 .INTERNAL).residue_type = .HIS ∧
    (example_histidine_without_protons 1 .INTERNAL).has_atom .HD1 = false ∧
    (example_histidine_without_protons 1 .INTERNAL).has_atom .HE2 = false ∧
    Option.map (fun out => (out.1.map fun r => (r.atom1, r.atom2, r.atom3, r.atom4), out.2))
        (generate_improper_torsion_interactions example_atom_type example_improper_torsion0
          example_residues_histidine example_improper_torsion_parameters) =
      some ([((0, .C), (0, .CA), (1, .N), (0, .O)),
          ((1, .N), (0, .C), (1, .CA), (1, .H)),
          ((1, .C), (1, .CA), (2, .N), (1, .O)),
          ((2, .N), (1, .C), (2, .CA), (2, .H)),
          ((2, .C), (2, .CA), (2, .OXT), (2, .O))],
        ["Unknown protonations state on ", "ERROR: DIDN\x27T FIND PARAMETER",
          "ERROR: DIDN\x27T FIND PARAMETER"]) := by
  exact ⟨rfl, rfl, rfl, rfl⟩

/-- C21 (amended): for a histidine residue the `switch` of
`generate_improper_torsion_interactions` selects the side-chain quadruples from the two
protons alone.  With neither `HD1` nor `HE2` it selects none and prints one line, and the
side-chain part leaves the result vector as it was: the call goes on.  With both protons,
with `HE2` only and with `HD1` only it selects one of three sets, and two histidines with the
same two flags get the same selection. -/
theorem histidine_side_chain_selected_by_protons {A R : Type} (get_atom_type : A → String)
    (improper_torsion0 : ImproperTorsionInteraction A R)
    (table : List (ImproperTorsionParameter R))
    (st : List (ImproperTorsionInteraction A R) × List String) (res : Residue A)
    (hres : res.residue_type = .HIS) :
    (res.has_atom .HD1 = false ∧ res.has_atom .HE2 = false →
      side_chain_enum_pairs res = ([], ["Unknown protonations state on "]) ∧
      side_chain_improper_torsions get_atom_type improper_torsion0 table st res =
        (st.1, st.2 ++ ["Unknown protonations state on "])) ∧
    (res.has_atom .HD1 = true ∧ res.has_atom .HE2 = true →
      side_chain_enum_pairs res =
        ([(.ND1, .CG, .CE1, .HD1), (.ND1, .CE1, .CG, .HD1), (.NE2, .CD2, .CE1, .HE2),
          (.NE2, .CE1, .CD2, .HE2)], [])) ∧
    (res.has_atom .HD1 = false ∧ res.has_atom .HE2 = true →
      side_chain_enum_pairs res =
        ([(.NE2, .CD2, .CE1, .HE2), (.CD2, .CG, .NE2, .HD2), (.CE1, .ND1, .NE2, .HE1),
          (.NE2, .CE1, .CD2, .HE2), (.CD2, .NE2, .CG, .HD2), (.CE1, .NE2, .ND1, .HE1)], [])) ∧
    (res.has_atom .HD1 = true ∧ res.has_atom .HE2 = false →
      side_chain_enum_pairs res =
        ([(.ND1, .CG, .CE1, .HD1), (.CD2, .CG, .NE2, .HD2), (.CE1, .ND1, .NE2, .HE1),
          (.ND1, .CE1, .CG, .HD1), (.CD2, .NE2, .CG, .HD2), (.CE1, .NE2, .ND1, .HE1)], [])) ∧
    (∀ other : Residue A, other.residue_type = .HIS →
      other.has_atom .HD1 = res.has_atom .HD1 → other.has_atom .HE2 = res.has_atom .HE2 →
      side_chain_enum_pairs other = side_chain_enum_pairs res) := by
  refine ⟨?_, ?_, ?_, ?_, ?_⟩
  · rintro ⟨h1, h2⟩
    have hp : side_chain_enum_pairs res = ([], ["Unknown protonations state on "]) := by
      unfold side_chain_enum_pairs
      simp [hres, h1, h2]
    refine ⟨hp, ?_⟩
    unfold side_chain_improper_torsions
    rw [hp]
    rfl
  · rintro ⟨h1, h2⟩
    unfold side_chain_enum_pairs
    simp [hres, h1, h2]
  · rintro ⟨h1, h2⟩
    unfold side_chain_enum_pairs
    simp [hres, h1, h2]
  · rintro ⟨h1, h2⟩
    unfold side_chain_enum_pairs
    simp [hres, h1, h2]
  · intro other ho h1 h2
    unfold side_chain_enum_pairs
    simp only [hres, ho, h1, h2]

/-- Witness of C21 (amended) at the histidine without protons of the example chain. -/
theorem histidine_side_chain_selected_by_protons_witness :
    (example_histidine_without_protons 1 .INTERNAL).residue_type = .HIS ∧
    side_chain_improper_torsions example_atom_type example_improper_torsion0
        example_improper_torsion_parameters ([], [])
        (example_histidine_without_protons 1 .INTERNAL) =
      ([], ["Unknown protonations state on "]) :=
  ⟨rfl, ((histidine_side_chain_selected_by_protons example_atom_type
    example_improper_torsion0 example_improper_torsion_parameters ([], [])
    (example_histidine_without_protons 1 .INTERNAL) rfl).1 ⟨rfl, rfl⟩).2⟩

/-! ## Lemmas on the CMAP generator -/

section CmapLemmas

variable {A : Type}

/-- A terminal residue is skipped by the loop body. -/
theorem cmap_step_terminal (get_atom_type : A → String)
    (previous_residue next_residue : Option (Residue A)) (i : Int) (res : Residue A)
    (acc : List (CmapInteraction A))
    (h : res.terminal_status = .NTERM ∨ res.terminal_status = .CTERM) :
    cmap_step get_atom_type previous_residue next_residue i res acc = .returned acc := by
  unfold cmap_step
  rcases h with h | h
  · rw [if_pos h]
  · by_cases h1 : res.terminal_status = .NTERM
    · rw [if_pos h1]
    · rw [if_neg h1, if_pos h]

/-- The loop body on a residue that is not terminal, has both neighbours and whose five types
have the class `k`: one record with this class. -/
theorem cmap_step_internal_some (get_atom_type : A → String) (previous next : Residue A)
    (i : Int) (res : Residue A) (acc : List (CmapInteraction A)) (k : Nat)
    (hn : res.terminal_status ≠ .NTERM) (hc : res.terminal_status ≠ .CTERM)
    (hk : cmap_type_index (get_atom_type (previous.atom .C)) (get_atom_type (res.atom .N))
      (get_atom_type (res.atom .CA)) (get_atom_type (res.atom .C))
      (get_atom_type (next.atom .N)) = some k) :
    cmap_step get_atom_type (some previous) (some next) i res acc =
      .returned (acc ++ [{ residue := res, residue_index := i, cmap_type_index := k }]) := by
  unfold cmap_step
  rw [if_neg hn, if_neg hc]
  dsimp only
  rw [hk]

/-- The loop body on a residue that is not terminal, has both neighbours and whose five types
have no class: the exit. -/
theorem cmap_step_internal_none (get_atom_type : A → String) (previous next : Residue A)
    (i : Int) (res : Residue A) (acc : List (CmapInteraction A))
    (hn : res.terminal_status ≠ .NTERM) (hc : res.terminal_status ≠ .CTERM)
    (hk : cmap_type_index (get_atom_type (previous.atom .C)) (get_atom_type (res.atom .N))
      (get_atom_type (res.atom .CA)) (get_atom_type (res.atom .C))
      (get_atom_type (next.atom .N)) = none) :
    cmap_step get_atom_type (some previous) (some next) i res acc = .exit_failure := by
  unfold cmap_step
  rw [if_neg hn, if_neg hc]
  dsimp only
  rw [hk]

/-- What the loop body returns, when it returns: the vector as it was, or the vector with one
record for the residue, whose class is the class of the five types. -/
theorem cmap_step_returned (get_atom_type : A → String)
    (previous_residue next_residue : Option (Residue A)) (i : Int) (res : Residue A)
    (acc out : List (CmapInteraction A))
    (h : cmap_step get_atom_type previous_residue next_residue i res acc = .returned out) :
    out = acc ∨
      ∃ (previous next : Residue A) (k : Nat), previous_residue = some previous ∧
        next_residue = some next ∧
        cmap_type_index (get_atom_type (previous.atom .C)) (get_atom_type (res.atom .N))
          (get_atom_type (res.atom .CA)) (get_atom_type (res.atom .C))
          (get_atom_type (next.atom .N)) = some k ∧
        out = acc ++ [{ residue := res, residue_index := i, cmap_type_index := k }] := by
  by_cases ht : res.terminal_status = .NTERM ∨ res.terminal_status = .CTERM
  · rw [cmap_step_terminal _ _ _ _ _ _ ht] at h
    left
    exact (Outcome.returned.inj h).symm
  · have hnt : res.terminal_status ≠ .NTERM := fun h => ht (Or.inl h)
    have hct : res.terminal_status ≠ .CTERM := fun h => ht (Or.inr h)
    right
    cases previous_residue with
    | none =>
      unfold cmap_step at h
      rw [if_neg hnt, if_neg hct] at h
      cases h
    | some p =>
      cases next_residue with
      | none =>
        unfold cmap_step at h
        rw [if_neg hnt, if_neg hct] at h
        cases h
      | some n =>
        cases hk : cmap_type_index (get_atom_type (p.atom .C)) (get_atom_type (res.atom .N))
          (get_atom_type (res.atom .CA)) (get_atom_type (res.atom .C))
          (get_atom_type (n.atom .N)) with
        | none =>
          rw [cmap_step_internal_none get_atom_type p n i res acc hnt hct hk] at h
          cases h
        | some k =>
          rw [cmap_step_internal_some get_atom_type p n i res acc k hnt hct hk] at h
          exact ⟨p, n, k, rfl, rfl, hk, (Outcome.returned.inj h).symm⟩

/-- Every record that `generate_cmap_interactions` returns belongs to a residue between two
residues of the chain: it carries the position of the residue and the class of the five
types. -/
theorem generate_cmap_interactions_records (get_atom_type : A → String)
    (residues : List (Residue A)) (out : List (CmapInteraction A))
    (h : generate_cmap_interactions get_atom_type residues = .returned out) :
    ∀ r ∈ out, ∃ (j : Nat) (previous next : Residue A),
      r.residue_index = ((j + 1 : Nat) : Int) ∧ residues[j]? = some previous ∧
      residues[j + 1]? = some r.residue ∧ residues[j + 2]? = some next ∧
      cmap_type_index (get_atom_type (previous.atom .C)) (get_atom_type (r.residue.atom .N))
        (get_atom_type (r.residue.atom .CA)) (get_atom_type (r.residue.atom .C))
        (get_atom_type (next.atom .N)) = some r.cmap_type_index := by
  unfold generate_cmap_interactions at h
  revert out
  refine foldl_invariant
    (fun st : Outcome (List (CmapInteraction A)) => ∀ out, st = .returned out →
      ∀ r ∈ out, ∃ (j : Nat) (previous next : Residue A),
        r.residue_index = ((j + 1 : Nat) : Int) ∧ residues[j]? = some previous ∧
        residues[j + 1]? = some r.residue ∧ residues[j + 2]? = some next ∧
        cmap_type_index (get_atom_type (previous.atom .C))
          (get_atom_type (r.residue.atom .N)) (get_atom_type (r.residue.atom .CA))
          (get_atom_type (r.residue.atom .C)) (get_atom_type (next.atom .N)) =
            some r.cmap_type_index) _ _ _ ?_ ?_
  · intro out h r hr
    cases h
    cases hr
  · intro st x hx hst out hout r hr
    cases st with
    | exit_failure => cases hout
    | undefined => cases hout
    | returned acc =>
      have hout' : cmap_step get_atom_type (if x.1 = 0 then none else residues[x.1 - 1]?)
          residues[x.1 + 1]? (x.1 : Int) x.2 acc = .returned out := hout
      rcases cmap_step_returned _ _ _ _ _ _ _ hout' with rfl | ⟨p, n, k, hp, hn, hk, rfl⟩
      · exact hst _ rfl r hr
      · rcases List.mem_append.mp hr with hr' | hr'
        · exact hst _ rfl r hr'
        · rw [List.mem_singleton] at hr'
          subst hr'
          have hx' := List.mem_enum_iff_getElem?.mp hx
          by_cases h0 : x.1 = 0
          · rw [if_pos h0] at hp
            cases hp
          · rw [if_neg h0] at hp
            obtain ⟨j, hj⟩ : ∃ j, x.1 = j + 1 := ⟨x.1 - 1, by omega⟩
            rw [hj] at hp hn hx'
            refine ⟨j, p, n, ?_, hp, hx', hn, hk⟩
            show (x.1 : Int) = _
            rw [hj]

/-- A loop whose body appends to the result of a call that has not ended returns the
concatenation of what the iterations append. -/
theorem foldl_outcome_returned {α β : Type} (f : Outcome (List β) → α → Outcome (List β))
    (F : α → List β) (l : List α) (acc : List β)
    (hret : ∀ x ∈ l, ∀ acc, f (.returned acc) x = .returned (acc ++ F x)) :
    l.foldl f (.returned acc) = .returned (acc ++ l.flatMap F) := by
  induction l generalizing acc with
  | nil => simp
  | cons x xs ih =>
    simp only [List.foldl_cons, List.flatMap_cons]
    rw [hret x (List.mem_cons_self _ _), ih]
    · rw [List.append_assoc]
    · intro y hy acc
      exact hret y (List.mem_cons_of_mem _ hy) acc

/-- A loop that has left the program stays there. -/
theorem foldl_outcome_exit_failure {α β : Type}
    (f : Outcome (List β) → α → Outcome (List β)) (l : List α)
    (hexit : ∀ x, f .exit_failure x = .exit_failure) :
    l.foldl f .exit_failure = .exit_failure := by
  induction l with
  | nil => rfl
  | cons x xs ih =>
    simp only [List.foldl_cons]
    rw [hexit, ih]

/-- A loop whose iterations return or leave the program leaves the program when one of its
iterations does. -/
theorem foldl_outcome_exits {α β : Type} (f : Outcome (List β) → α → Outcome (List β))
    (l : List α) (acc : List β) (hexit : ∀ x, f .exit_failure x = .exit_failure)
    (hstep : ∀ x ∈ l, ∀ acc, (∃ out, f (.returned acc) x = .returned out) ∨
      f (.returned acc) x = .exit_failure)
    (hbad : ∃ x ∈ l, ∀ acc, f (.returned acc) x = .exit_failure) :
    l.foldl f (.returned acc) = .exit_failure := by
  induction l generalizing acc with
  | nil =>
    obtain ⟨x, hx, _⟩ := hbad
    cases hx
  | cons x xs ih =>
    simp only [List.foldl_cons]
    rcases hstep x (List.mem_cons_self _ _) acc with ⟨out, hout⟩ | hout
    · obtain ⟨b, hb, hbad'⟩ := hbad
      rcases List.mem_cons.mp hb with rfl | hb'
      · rw [hbad' acc] at hout
        cases hout
      · rw [hout]
        exact ih out (fun y hy => hstep y (List.mem_cons_of_mem _ hy)) ⟨b, hb', hbad'⟩
    · rw [hout]
      exact foldl_outcome_exit_failure f xs hexit

/-- The neighbours that the loop of `generate_cmap_interactions` reads for the residue at
position `i + 1`. -/
theorem cmap_neighbours (residues : List (Residue A)) (i : Nat) (previous next : Residue A)
    (hp : residues[i]? = some previous) (hn : residues[i + 2]? = some next) :
    (if i + 1 = 0 then none else residues[i + 1 - 1]?) = some previous ∧
      residues[i + 1 + 1]? = some next := by
  refine ⟨?_, hn⟩
  rw [if_neg (Nat.succ_ne_zero i)]
  exact hp

/-- In a chain where every residue that is not terminal has both neighbours, an element of
the residue loop that is not terminal sits at a position `i + 1` between two residues. -/
theorem cmap_position (residues : List (Residue A))
    (hwf : ∀ (i : Nat) (res : Residue A), residues[i]? = some res →
      res.terminal_status ≠ .NTERM → res.terminal_status ≠ .CTERM →
      0 < i ∧ i + 1 < residues.length)
    (x : Nat × Residue A) (hx : x ∈ residues.enum)
    (hn : x.2.terminal_status ≠ .NTERM) (hc : x.2.terminal_status ≠ .CTERM) :
    ∃ (i : Nat) (previous next : Residue A), x.1 = i + 1 ∧ residues[i]? = some previous ∧
      residues[i + 1]? = some x.2 ∧ residues[i + 2]? = some next := by
  have hx' := List.mem_enum_iff_getElem?.mp hx
  obtain ⟨h0, h1⟩ := hwf x.1 x.2 hx' hn hc
  obtain ⟨i, hi⟩ : ∃ i, x.1 = i + 1 := ⟨x.1 - 1, by omega⟩
  have hlt : i < residues.length := by omega
  have hlt2 : i + 2 < residues.length := by omega
  refine ⟨i, residues[i], residues[i + 2], hi, List.getElem?_eq_getElem hlt, ?_,
    List.getElem?_eq_getElem hlt2⟩
  rw [← hi]
  exact hx'

/-- The `if` chain has no class for the five types exactly when they are none of its six
patterns. -/
theorem cmap_type_index_eq_none_iff (type1 type2 type3 type4 type5 : String) :
    cmap_type_index type1 type2 type3 type4 type5 = none ↔
      (type1, type2, type3, type4, type5) ∉
        [("C", "NH1", "CT1", "C", "NH1"), ("C", "NH1", "CT1", "C", "N"),
         ("C", "N", "CP1", "C", "NH1"), ("C", "N", "CP1", "C", "N"),
         ("C", "NH1", "CT2", "C", "NH1"), ("C", "NH1", "CT2", "C", "N")] := by
  unfold cmap_type_index
  simp only [List.mem_cons, Prod.mk.injEq, List.mem_singleton, List.not_mem_nil, or_false,
    not_or]
  split_ifs with h0 h1 h2 h3 h4 h5
  · simp [h0]
  · simp [h1]
  · simp [h2]
  · simp [h3]
  · simp [h4]
  · simp [h5]
  · simp only [true_iff]
    exact ⟨h0, h1, h2, h3, h4, h5⟩

/-- Closed form of `generate_cmap_interactions` on a chain where every residue that is not
terminal has both neighbours and five types with a class: one record for each of these
residues, in chain order, with the position and the class of the residue. -/
theorem generate_cmap_interactions_returned (get_atom_type : A → String)
    (residues : List (Residue A))
    (hwf : ∀ (i : Nat) (res : Residue A), residues[i]? = some res →
      res.terminal_status ≠ .NTERM → res.terminal_status ≠ .CTERM →
      0 < i ∧ i + 1 < residues.length)
    (hall : ∀ (i : Nat) (previous res next : Residue A), residues[i]? = some previous →
      residues[i + 1]? = some res → residues[i + 2]? = some next →
      res.terminal_status ≠ .NTERM → res.terminal_status ≠ .CTERM →
      cmap_type_index (get_atom_type (previous.atom .C)) (get_atom_type (res.atom .N))
        (get_atom_type (res.atom .CA)) (get_atom_type (res.atom .C))
        (get_atom_type (next.atom .N)) ≠ none) :
    ∃ k : Nat × Residue A → Nat,
      generate_cmap_interactions get_atom_type residues =
        .returned (residues.enum.flatMap fun x =>
          if x.2.terminal_status = .NTERM ∨ x.2.terminal_status = .CTERM then []
          else [{ residue := x.2, residue_index := (x.1 : Int), cmap_type_index := k x }]) ∧
      ∀ (i : Nat) (previous res next : Residue A), residues[i]? = some previous →
        residues[i + 1]? = some res → residues[i + 2]? = some next →
        res.terminal_status ≠ .NTERM → res.terminal_status ≠ .CTERM →
        cmap_type_index (get_atom_type (previous.atom .C)) (get_atom_type (res.atom .N))
          (get_atom_type (res.atom .CA)) (get_atom_type (res.atom .C))
          (get_atom_type (next.atom .N)) = some (k (i + 1, res)) := by
  let k : Nat × Residue A → Nat := fun x =>
    ((residues[x.1 - 1]?).bind fun p => (residues[x.1 + 1]?).bind fun n =>
      cmap_type_index (get_atom_type (p.atom .C)) (get_atom_type (x.2.atom .N))
        (get_atom_type (x.2.atom .CA)) (get_atom_type (x.2.atom .C))
        (get_atom_type (n.atom .N))).getD 0
  have hk : ∀ (i : Nat) (previous res next : Residue A), residues[i]? = some previous →
      residues[i + 1]? = some res → residues[i + 2]? = some next →
      res.terminal_status ≠ .NTERM → res.terminal_status ≠ .CTERM →
      cmap_type_index (get_atom_type (previous.atom .C)) (get_atom_type (res.atom .N))
        (get_atom_type (res.atom .CA)) (get_atom_type (res.atom .C))
        (get_atom_type (next.atom .N)) = some (k (i + 1, res)) := by
    intro i p res n hp hr hn hnt hct
    obtain ⟨k0, hk0⟩ := Option.ne_none_iff_exists'.mp (hall i p res n hp hr hn hnt hct)
    rw [hk0]
    have : k (i + 1, res) = k0 := by
      show ((residues[i + 1 - 1]?).bind fun p => (residues[i + 1 + 1]?).bind fun n =>
        cmap_type_index (get_atom_type (p.atom .C)) (get_atom_type (res.atom .N))
          (get_atom_type (res.atom .CA)) (get_atom_type (res.atom .C))
          (get_atom_type (n.atom .N))).getD 0 = k0
      rw [Nat.add_sub_cancel, hp, hn]
      simp [hk0]
    rw [this]
  refine ⟨k, ?_, hk⟩
  unfold generate_cmap_interactions
  rw [foldl_outcome_returned _ (fun x =>
    if x.2.terminal_status = .NTERM ∨ x.2.terminal_status = .CTERM then []
    else [{ residue := x.2, residue_index := (x.1 : Int), cmap_type_index := k x }])]
  · rw [List.nil_append]
  · intro x hx acc
    show cmap_step get_atom_type (if x.1 = 0 then none else residues[x.1 - 1]?)
      residues[x.1 + 1]? (x.1 : Int) x.2 acc = _
    by_cases ht : x.2.terminal_status = .NTERM ∨ x.2.terminal_status = .CTERM
    · rw [if_pos ht, cmap_step_terminal _ _ _ _ _ _ ht, List.append_nil]
    · rw [if_neg ht]
      have hnt : x.2.terminal_status ≠ .NTERM := fun h => ht (Or.inl h)
      have hct : x.2.terminal_status ≠ .CTERM := fun h => ht (Or.inr h)
      obtain ⟨i, p, n, hi, hp, hr, hn⟩ := cmap_position residues hwf x hx hnt hct
      obtain ⟨j, res⟩ := x
      dsimp only at hi hr hnt hct ⊢
      subst hi
      obtain ⟨e1, e2⟩ := cmap_neighbours residues i p n hp hn
      rw [e1, e2]
      exact cmap_step_internal_some get_atom_type p n _ res acc _ hnt hct
        (hk i p res n hp hr hn hnt hct)

/-- The records of a loop that appends one record for every element outside a class, read
through a projection. -/
theorem map_flatMap_ite_singleton {α β γ : Type} (c : α → Prop) [DecidablePred c]
    (h : α → β) (proj : β → γ) (l : List α) :
    (l.flatMap fun x => if c x then [] else [h x]).map proj =
      (l.filter fun x => decide (¬ c x)).map fun x => proj (h x) := by
  induction l with
  | nil => rfl
  | cons x xs ih =>
    rw [List.flatMap_cons, List.map_append, ih]
    by_cases hc : c x
    · simp [hc]
    · simp [hc]

/-- Every residue of the five-residue example chain that is not terminal has both
neighbours. -/
theorem example_residues_five_neighbours (i : Nat) (res : Residue (Nat × AtomEnum))
    (h : example_residues_five[i]? = some res) (hn : res.terminal_status ≠ .NTERM)
    (hc : res.terminal_status ≠ .CTERM) : 0 < i ∧ i + 1 < example_residues_five.length := by
  have hi : i < 5 := (List.getElem?_eq_some_iff.mp h).1
  interval_cases i
  · simp only [example_residues_five, List.getElem?_cons_zero, Option.some.injEq] at h
    subst h
    exact absurd rfl hn
  · decide
  · decide
  · decide
  · simp only [example_residues_five, List.getElem?_cons_succ, List.getElem?_cons_zero,
      Option.some.injEq] at h
    subst h
    exact absurd rfl hc

/-- With `example_backbone_type` the five types of every residue of the five-residue example
chain have a class. -/
theorem example_residues_five_classes (i : Nat)
    (previous res next : Residue (Nat × AtomEnum))
    (hp : example_residues_five[i]? = some previous)
    (hr : example_residues_five[i + 1]? = some res)
    (hn : example_residues_five[i + 2]? = some next) :
    cmap_type_index (example_backbone_type (previous.atom .C))
      (example_backbone_type (res.atom .N)) (example_backbone_type (res.atom .CA))
      (example_backbone_type (res.atom .C)) (example_backbone_type (next.atom .N)) ≠ none := by
  have hi : i + 2 < 5 := (List.getElem?_eq_some_iff.mp hn).1
  have hi' : i < 3 := by omega
  interval_cases i <;>
  · simp only [example_residues_five, List.getElem?_cons_succ, List.getElem?_cons_zero,
      Option.some.injEq] at hp hr hn
    subst hp hr hn
    decide

end CmapLemmas

/-! ## Claims on the CMAP generator -/

/-- C23: in the loop body of `generate_cmap_interactions`, a residue that is not terminal and
whose five backbone atom types (previous `C`, `N`, `CA`, `C`, next `N`) are
`(C, NH1, CT1, C, NH1)` gets exactly one record, with `cmap_type_index = 0`; and when the
call returns on the whole chain, the record with the position of this residue carries
`cmap_type_index = 0`. -/
theorem cmap_type_index_zero {A : Type} (get_atom_type : A → String)
    (previous res next : Residue A)
    (hn : res.terminal_status ≠ .NTERM) (hc : res.terminal_status ≠ .CTERM)
    (h1 : get_atom_type (previous.atom .C) = "C") (h2 : get_atom_type (res.atom .N) = "NH1")
    (h3 : get_atom_type (res.atom .CA) = "CT1") (h4 : get_atom_type (res.atom .C) = "C")
    (h5 : get_atom_type (next.atom .N) = "NH1") :
    (∀ (i : Int) (cmap_interactions : List (CmapInteraction A)),
      cmap_step get_atom_type (some previous) (some next) i res cmap_interactions =
        .returned (cmap_interactions ++
          [{ residue := res, residue_index := i, cmap_type_index := 0 }])) ∧
    (∀ (residues : List (Residue A)) (j : Nat) (out : List (CmapInteraction A)),
      residues[j]? = some previous → residues[j + 1]? = some res →
      residues[j + 2]? = some next →
      generate_cmap_interactions get_atom_type residues = .returned out →
      ∀ r ∈ out, r.residue_index = ((j + 1 : Nat) : Int) → r.cmap_type_index = 0) := by
  have hk : cmap_type_index (get_atom_type (previous.atom .C)) (get_atom_type (res.atom .N))
      (get_atom_type (res.atom .CA)) (get_atom_type (res.atom .C))
      (get_atom_type (next.atom .N)) = some 0 := by
    rw [h1, h2, h3, h4, h5]
    rfl
  refine ⟨fun i acc => cmap_step_internal_some get_atom_type previous next i res acc 0 hn hc hk,
    ?_⟩
  intro residues j out hp hr hnx hout r hmem hidx
  obtain ⟨j', p', n', hj', hp', hr', hn', hk'⟩ :=
    generate_cmap_interactions_records get_atom_type residues out hout r hmem
  have hjj : j' = j := by
    rw [hidx] at hj'
    have := Int.ofNat.inj hj'
    omega
  subst hjj
  rw [hp] at hp'
  rw [hr] at hr'
  rw [hnx] at hn'
  cases hp'
  cases hn'
  have hres : res = r.residue := Option.some.inj hr'
  rw [← hres, hk] at hk'
  exact (Option.some.inj hk').symm

/-- Witness of C23 at the asparagine of the example chain, between the alanine and the
glycine. -/
theorem cmap_type_index_zero_witness :
    cmap_step example_atom_type (some (example_residue 0 .ALA .NTERM))
        (some (example_residue 2 .GLY .CTERM)) 1 (example_residue 1 .ASN .INTERNAL) [] =
      .returned ([] ++ [CmapInteraction.mk (example_residue 1 .ASN .INTERNAL) 1 0]) :=
  (cmap_type_index_zero example_atom_type (example_residue 0 .ALA .NTERM)
    (example_residue 1 .ASN .INTERNAL) (example_residue 2 .GLY .CTERM) (by decide) (by decide)
    rfl rfl rfl rfl rfl).1 1 []

/-- C24: on a chain where every residue that is not terminal has both neighbours,
`generate_cmap_interactions` leaves the program through `exit (EXIT_FAILURE)`, returning no
vector, if and only if some residue that is not terminal has five backbone atom types that
are none of the six patterns `(C, NH1, CT1, C, NH1)`, `(C, NH1, CT1, C, N)`,
`(C, N, CP1, C, NH1)`, `(C, N, CP1, C, N)`, `(C, NH1, CT2, C, NH1)`, `(C, NH1, CT2, C, N)`;
the patterns are compared with `==` on all five types. -/
theorem generate_cmap_interactions_exit_failure_iff {A : Type} (get_atom_type : A → String)
    (residues : List (Residue A))
    (hwf : ∀ (i : Nat) (res : Residue A), residues[i]? = some res →
      res.terminal_status ≠ .NTERM → res.terminal_status ≠ .CTERM →
      0 < i ∧ i + 1 < residues.length) :
    generate_cmap_interactions get_atom_type residues = .exit_failure ↔
      ∃ (i : Nat) (previous res next : Residue A), residues[i]? = some previous ∧
        residues[i + 1]? = some res ∧ residues[i + 2]? = some next ∧
        res.terminal_status ≠ .NTERM ∧ res.terminal_status ≠ .CTERM ∧
        (get_atom_type (previous.atom .C), get_atom_type (res.atom .N),
          get_atom_type (res.atom .CA), get_atom_type (res.atom .C),
          get_atom_type (next.atom .N)) ∉
          [("C", "NH1", "CT1", "C", "NH1"), ("C", "NH1", "CT1", "C", "N"),
           ("C", "N", "CP1", "C", "NH1"), ("C", "N", "CP1", "C", "N"),
           ("C", "NH1", "CT2", "C", "NH1"), ("C", "NH1", "CT2", "C", "N")] := by
  constructor
  · intro hexit
    by_contra hno
    have hall : ∀ (i : Nat) (previous res next : Residue A), residues[i]? = some previous →
        residues[i + 1]? = some res → residues[i + 2]? = some next →
        res.terminal_status ≠ .NTERM → res.terminal_status ≠ .CTERM →
        cmap_type_index (get_atom_type (previous.atom .C)) (get_atom_type (res.atom .N))
          (get_atom_type (res.atom .CA)) (get_atom_type (res.atom .C))
          (get_atom_type (next.atom .N)) ≠ none := by
      intro i p res n hp hr hn hnt hct hnone
      exact hno ⟨i, p, res, n, hp, hr, hn, hnt, hct,
        (cmap_type_index_eq_none_iff _ _ _ _ _).mp hnone⟩
    obtain ⟨k, hret, _⟩ := generate_cmap_interactions_returned get_atom_type residues hwf hall
    rw [hret] at hexit
    cases hexit
  · rintro ⟨i, p, res, n, hp, hr, hn, hnt, hct, hnotin⟩
    have hnone := (cmap_type_index_eq_none_iff _ _ _ _ _).mpr hnotin
    unfold generate_cmap_interactions
    apply foldl_outcome_exits
    · intro x
      rfl
    · intro x hx acc
      have key : (∃ out, cmap_step get_atom_type
          (if x.1 = 0 then none else residues[x.1 - 1]?) residues[x.1 + 1]? (x.1 : Int) x.2
            acc = .returned out) ∨
          cmap_step get_atom_type (if x.1 = 0 then none else residues[x.1 - 1]?)
            residues[x.1 + 1]? (x.1 : Int) x.2 acc = .exit_failure := by
        by_cases ht : x.2.terminal_status = .NTERM ∨ x.2.terminal_status = .CTERM
        · exact Or.inl ⟨acc, cmap_step_terminal _ _ _ _ _ _ ht⟩
        · have hnt' : x.2.terminal_status ≠ .NTERM := fun h => ht (Or.inl h)
          have hct' : x.2.terminal_status ≠ .CTERM := fun h => ht (Or.inr h)
          obtain ⟨j, p', n', hj, hp', _, hn'⟩ := cmap_position residues hwf x hx hnt' hct'
          obtain ⟨e1, e2⟩ := cmap_neighbours residues j p' n' hp' hn'
          rw [hj, e1, e2]
          cases hk : cmap_type_index (get_atom_type (p'.atom .C))
            (get_atom_type (x.2.atom .N)) (get_atom_type (x.2.atom .CA))
            (get_atom_type (x.2.atom .C)) (get_atom_type (n'.atom .N)) with
          | none => exact Or.inr (cmap_step_internal_none _ _ _ _ _ _ hnt' hct' hk)
          | some k => exact Or.inl ⟨_, cmap_step_internal_some _ _ _ _ _ _ k hnt' hct' hk⟩
      exact key
    · refine ⟨(i + 1, res), List.mem_enum_iff_getElem?.mpr hr, ?_⟩
      intro acc
      obtain ⟨e1, e2⟩ := cmap_neighbours residues i p n hp hn
      show cmap_step get_atom_type (if i + 1 = 0 then none else residues[i + 1 - 1]?)
        residues[i + 1 + 1]? ((i + 1 : Nat) : Int) res acc = .exit_failure
      rw [e1, e2]
      exact cmap_step_internal_none _ _ _ _ _ _ hnt hct hnone

/-- Witness of C24 on the five-residue example chain with an alpha carbon of type `CT3` in
residue 2: the call leaves the program. -/
theorem generate_cmap_interactions_exit_failure_iff_witness :
    generate_cmap_interactions example_backbone_type_unknown example_residues_five =
      .exit_failure :=
  (generate_cmap_interactions_exit_failure_iff example_backbone_type_unknown
    example_residues_five example_residues_five_neighbours).mpr
    ⟨1, example_residue 1 .ASN .INTERNAL, example_residue 2 .GLY .INTERNAL,
      example_residue 3 .PRO .INTERNAL, rfl, rfl, rfl, by decide, by decide, by decide⟩

/-- C25: on a chain where every residue that is not terminal has both neighbours and five
backbone atom types that the `if` chain accepts, `generate_cmap_interactions` returns, and
its vector has exactly one record for every residue whose terminal status is neither `NTERM`
nor `CTERM`, in chain order, and none for a terminal residue; the `residue_index` of a
record is the zero-based position of its residue among all residues of the chain. -/
theorem generate_cmap_interactions_one_record_per_inner_residue {A : Type}
    (get_atom_type : A → String) (residues : List (Residue A))
    (hwf : ∀ (i : Nat) (res : Residue A), residues[i]? = some res →
      res.terminal_status ≠ .NTERM → res.terminal_status ≠ .CTERM →
      0 < i ∧ i + 1 < residues.length)
    (hall : ∀ (i : Nat) (previous res next : Residue A), residues[i]? = some previous →
      residues[i + 1]? = some res → residues[i + 2]? = some next →
      res.terminal_status ≠ .NTERM → res.terminal_status ≠ .CTERM →
      cmap_type_index (get_atom_type (previous.atom .C)) (get_atom_type (res.atom .N))
        (get_atom_type (res.atom .CA)) (get_atom_type (res.atom .C))
        (get_atom_type (next.atom .N)) ≠ none) :
    ∃ out : List (CmapInteraction A),
      generate_cmap_interactions get_atom_type residues = .returned out ∧
      out.map (fun r => (r.residue_index, r.residue)) =
        (residues.enum.filter fun x =>
          decide (¬ (x.2.terminal_status = .NTERM ∨ x.2.terminal_status = .CTERM))).map
          fun x => ((x.1 : Int), x.2) := by
  obtain ⟨k, hret, _⟩ := generate_cmap_interactions_returned get_atom_type residues hwf hall
  refine ⟨_, hret, ?_⟩
  exact map_flatMap_ite_singleton
    (fun x : Nat × Residue A => x.2.terminal_status = .NTERM ∨ x.2.terminal_status = .CTERM)
    (fun x => ({ residue := x.2, residue_index := (x.1 : Int), cmap_type_index := k x } :
      CmapInteraction A))
    (fun r => (r.residue_index, r.residue)) residues.enum

/-- Witness of C25 on the five-residue example chain, whose three inner residues have the
positions 1, 2 and 3. -/
theorem generate_cmap_interactions_one_record_per_inner_residue_witness :
    ∃ out : List (CmapInteraction (Nat × AtomEnum)),
      generate_cmap_interactions example_backbone_type example_residues_five =
        .returned out ∧
      out.map (fun r => (r.residue_index, r.residue)) =
        [(1, example_residue 1 .ASN .INTERNAL), (2, example_residue 2 .GLY .INTERNAL),
         (3, example_residue 3 .PRO .INTERNAL)] :=
  generate_cmap_interactions_one_record_per_inner_residue example_backbone_type
    example_residues_five example_residues_five_neighbours
    (fun i previous res next hp hr hn _ _ =>
      example_residues_five_classes i previous res next hp hr hn)

/-! ## Lemmas on counting records -/

section Counting

/-- In a loop over a list without duplicates whose iteration `x` appends only records tagged
`x`, the records tagged `a` are those of the iteration `a`. -/
theorem filter_flatMap_tag {α β : Type} [DecidableEq α] (F : α → List β) (tag : β → α)
    (htag : ∀ x, ∀ y ∈ F x, tag y = x) (l : List α) (hl : l.Nodup) (a : α) (ha : a ∈ l) :
    (l.flatMap F).filter (fun y => decide (tag y = a)) = F a := by
  have hnone : ∀ l' : List α, a ∉ l' →
      (l'.flatMap F).filter (fun y => decide (tag y = a)) = [] := by
    intro l' hl'
    rw [List.filter_eq_nil_iff]
    intro y hy
    obtain ⟨x, hx, hyx⟩ := List.mem_flatMap.mp hy
    rw [decide_eq_true_eq, htag x y hyx]
    rintro rfl
    exact hl' hx
  induction l with
  | nil => cases ha
  | cons x xs ih =>
    rw [List.flatMap_cons, List.filter_append]
    obtain ⟨hx, hxs⟩ := List.nodup_cons.mp hl
    rcases List.mem_cons.mp ha with rfl | ha'
    · rw [hnone xs hx, List.append_nil, List.filter_eq_self]
      intro y hy
      rw [decide_eq_true_eq]
      exact htag a y hy
    · rw [ih hxs ha']
      have : (F x).filter (fun y => decide (tag y = a)) = [] := by
        rw [List.filter_eq_nil_iff]
        intro y hy
        rw [decide_eq_true_eq, htag x y hy]
        rintro rfl
        exact hx ha'
      rw [this, List.nil_append]

/-- In a list without duplicates that contains `a`, all elements but one differ from `a`. -/
theorem length_filter_ne {α : Type} [DecidableEq α] (l : List α) (hl : l.Nodup) (a : α)
    (ha : a ∈ l) : (l.filter fun x => decide (x ≠ a)).length = l.length - 1 := by
  have hfun : (fun x => decide (x ≠ a)) = fun x => x != a := by
    funext x
    by_cases h : x = a <;> simp [h]
  rw [hfun, ← hl.erase_eq_filter a, List.length_erase_of_mem ha]

end Counting

section BondedLemmas

variable {A R : Type}

/-- The table scan of `generate_bonded_pair_interactions` yields the record of the first
matching entry, and nothing without a matching entry. -/
theorem scan_bonded_pair_eq_find (atom1 atom2 : A) (type1 type2 : String)
    (table : List (BondedPairParameter R)) :
    scan_bonded_pair atom1 atom2 type1 type2 table =
      ((table.find? fun p => decide (bonded_pair_matches p type1 type2)).map fun p =>
        ({ atom1 := atom1, atom2 := atom2, kb := p.kb, r0 := p.r0 } :
          BondedPairInteraction A R)).toList := by
  induction table with
  | nil => rfl
  | cons p rest ih =>
    unfold scan_bonded_pair
    by_cases hp : bonded_pair_matches p type1 type2
    · rw [if_pos hp, List.find?_cons_of_pos _ (by simpa using hp)]
      rfl
    · rw [if_neg hp, List.find?_cons_of_neg _ (by simpa using hp), ih]

/-- The test of the table scan does not depend on the order of the two types. -/
theorem bonded_pair_matches_comm (p : BondedPairParameter R) (type1 type2 : String) :
    bonded_pair_matches p type1 type2 ↔ bonded_pair_matches p type2 type1 := by
  unfold bonded_pair_matches
  exact Or.comm

/-- Every record of the table scan joins the two atoms of the scan. -/
theorem scan_bonded_pair_atoms (atom1 atom2 : A) (type1 type2 : String)
    (table : List (BondedPairParameter R)) :
    ∀ r ∈ scan_bonded_pair atom1 atom2 type1 type2 table,
      r.atom1 = atom1 ∧ r.atom2 = atom2 := by
  intro r hr
  rw [scan_bonded_pair_eq_find] at hr
  cases hf : table.find? fun p => decide (bonded_pair_matches p type1 type2) with
  | none =>
    rw [hf] at hr
    cases hr
  | some p =>
    rw [hf] at hr
    simp only [Option.map_some', Option.toList_some, List.mem_singleton] at hr
    subst hr
    exact ⟨rfl, rfl⟩

/-- With a matching entry in the table the scan yields exactly one record. -/
theorem scan_bonded_pair_length (atom1 atom2 : A) (type1 type2 : String)
    (table : List (BondedPairParameter R))
    (h : ∃ p ∈ table, bonded_pair_matches p type1 type2) :
    (scan_bonded_pair atom1 atom2 type1 type2 table).length = 1 := by
  rw [scan_bonded_pair_eq_find]
  cases hf : table.find? fun p => decide (bonded_pair_matches p type1 type2) with
  | none =>
    obtain ⟨p, hp, hm⟩ := h
    have := List.find?_eq_none.mp hf p hp
    simp only [decide_eq_true_eq] at this
    exact absurd hm this
  | some p => rfl

/-- Where the records of `generate_bonded_pair_interactions` come from. -/
theorem mem_generate_bonded_pair_interactions (chain : ChainFB A R)
    (table : List (BondedPairParameter R)) (r : BondedPairInteraction A R)
    (hr : r ∈ generate_bonded_pair_interactions chain table) :
    r.atom1 ∈ chain.atoms ∧ r.atom2 ∈ chain.covalent_bonds r.atom1 ∧
    (chain.residue_index r.atom1 < chain.residue_index r.atom2 ∨
      (chain.residue_index r.atom1 = chain.residue_index r.atom2 ∧
        chain.index r.atom1 < chain.index r.atom2)) ∧
    r ∈ scan_bonded_pair r.atom1 r.atom2 (chain.get_atom_type r.atom1)
      (chain.get_atom_type r.atom2) table := by
  unfold generate_bonded_pair_interactions at hr
  obtain ⟨a1, ha1, hr⟩ := List.mem_flatMap.mp hr
  obtain ⟨a2, ha2, hr⟩ := List.mem_flatMap.mp hr
  split_ifs at hr with hlt
  · obtain ⟨e1, e2⟩ := scan_bonded_pair_atoms _ _ _ _ _ r hr
    rw [e1, e2]
    exact ⟨ha1, ha2, hlt, hr⟩
  · cases hr

end BondedLemmas

/-! ## Claims on the bonded-pair generator -/

/-- C26: every record of `generate_bonded_pair_interactions` has `atom1` before `atom2` in
(residue index, then atom index) order, so that no two records join the same two atoms in
opposite orders.  On a chain whose atoms have pairwise distinct (residue index, atom index)
keys and whose bond lists are symmetric, list atoms of the chain and name no atom twice, a
bond between two different atoms whose types match some table entry gets exactly one
record. -/
theorem bonded_pair_one_record_per_bond {A R : Type} [DecidableEq A] (chain : ChainFB A R)
    (table : List (BondedPairParameter R))
    (hkeys : (chain.atoms.map fun a => (chain.residue_index a, chain.index a)).Nodup)
    (hbonds : ∀ a ∈ chain.atoms, (chain.covalent_bonds a).Nodup ∧
      ∀ b ∈ chain.covalent_bonds a, b ∈ chain.atoms ∧ a ∈ chain.covalent_bonds b) :
    (∀ r ∈ generate_bonded_pair_interactions chain table,
      chain.residue_index r.atom1 < chain.residue_index r.atom2 ∨
        (chain.residue_index r.atom1 = chain.residue_index r.atom2 ∧
          chain.index r.atom1 < chain.index r.atom2)) ∧
    (∀ r ∈ generate_bonded_pair_interactions chain table,
      ∀ r' ∈ generate_bonded_pair_interactions chain table,
        ¬ (r'.atom1 = r.atom2 ∧ r'.atom2 = r.atom1)) ∧
    (∀ a b : A, a ∈ chain.atoms → b ∈ chain.covalent_bonds a → a ≠ b →
      (∃ p ∈ table, bonded_pair_matches p (chain.get_atom_type a) (chain.get_atom_type b)) →
      (generate_bonded_pair_interactions chain table).countP
        (fun r => decide ((r.atom1 = a ∧ r.atom2 = b) ∨ (r.atom1 = b ∧ r.atom2 = a))) = 1) := by
  have hord : ∀ r ∈ generate_bonded_pair_interactions chain table,
      chain.residue_index r.atom1 < chain.residue_index r.atom2 ∨
        (chain.residue_index r.atom1 = chain.residue_index r.atom2 ∧
          chain.index r.atom1 < chain.index r.atom2) :=
    fun r hr => (mem_generate_bonded_pair_interactions chain table r hr).2.2.1
  have hanti : ∀ x y : A,
      (chain.residue_index x < chain.residue_index y ∨
        (chain.residue_index x = chain.residue_index y ∧ chain.index x < chain.index y)) →
      (chain.residue_index y < chain.residue_index x ∨
        (chain.residue_index y = chain.residue_index x ∧ chain.index y < chain.index x)) →
      False := by
    intro x y h1 h2
    omega
  -- the records that join `x` to `y` in this order are those of the iteration `(x, y)`
  have hcount : ∀ x y : A, x ∈ chain.atoms → y ∈ chain.covalent_bonds x →
      (chain.residue_index x < chain.residue_index y ∨
        (chain.residue_index x = chain.residue_index y ∧ chain.index x < chain.index y)) →
      (∃ p ∈ table, bonded_pair_matches p (chain.get_atom_type x) (chain.get_atom_type y)) →
      (generate_bonded_pair_interactions chain table).countP
        (fun r => decide ((r.atom1 = x ∧ r.atom2 = y) ∨ (r.atom1 = y ∧ r.atom2 = x))) = 1 := by
    intro x y hx hy hlt hm
    have hcongr : (generate_bonded_pair_interactions chain table).countP
        (fun r => decide ((r.atom1 = x ∧ r.atom2 = y) ∨ (r.atom1 = y ∧ r.atom2 = x))) =
        (generate_bonded_pair_interactions chain table).countP
          (fun r => decide (r.atom2 = y) && decide (r.atom1 = x)) := by
      apply List.countP_congr
      intro r hr
      simp only [decide_eq_true_eq, Bool.and_eq_true]
      constructor
      · rintro (⟨h1, h2⟩ | ⟨h1, h2⟩)
        · exact ⟨h2, h1⟩
        · exfalso
          have := hord r hr
          rw [h1, h2] at this
          exact hanti x y hlt this
      · rintro ⟨h2, h1⟩
        exact Or.inl ⟨h1, h2⟩
    rw [hcongr, List.countP_eq_length_filter, ← List.filter_filter]
    unfold generate_bonded_pair_interactions
    rw [filter_flatMap_tag _ (fun r : BondedPairInteraction A R => r.atom1) _ chain.atoms
      (List.Nodup.of_map _ hkeys) x hx]
    · rw [filter_flatMap_tag _ (fun r : BondedPairInteraction A R => r.atom2) _
        (chain.covalent_bonds x) (hbonds x hx).1 y hy]
      · rw [if_pos hlt]
        exact scan_bonded_pair_length _ _ _ _ _ hm
      · intro b r hr
        split_ifs at hr
        · exact (scan_bonded_pair_atoms _ _ _ _ _ r hr).2
        · cases hr
    · intro a r hr
      obtain ⟨b, _, hr⟩ := List.mem_flatMap.mp hr
      split_ifs at hr
      · exact (scan_bonded_pair_atoms _ _ _ _ _ r hr).1
      · cases hr
  refine ⟨hord, ?_, ?_⟩
  · rintro r hr r' hr' ⟨h1, h2⟩
    have h := hord r' hr'
    rw [h1, h2] at h
    exact hanti _ _ (hord r hr) h
  · intro a b ha hb hne hm
    obtain ⟨hbmem, hab⟩ := (hbonds a ha).2 b hb
    have hkne : (chain.residue_index a, chain.index a) ≠
        (chain.residue_index b, chain.index b) := fun h =>
      hne (List.inj_on_of_nodup_map hkeys ha hbmem h)
    have hcases : (chain.residue_index a < chain.residue_index b ∨
        (chain.residue_index a = chain.residue_index b ∧ chain.index a < chain.index b)) ∨
        (chain.residue_index b < chain.residue_index a ∨
        (chain.residue_index b = chain.residue_index a ∧ chain.index b < chain.index a)) := by
      by_contra hcon
      apply hkne
      have h1 : chain.residue_index a = chain.residue_index b := by omega
      have h2 : chain.index a = chain.index b := by omega
      rw [h1, h2]
    rcases hcases with hlt | hlt
    · exact hcount a b ha hb hlt hm
    · have hm' : ∃ p ∈ table,
          bonded_pair_matches p (chain.get_atom_type b) (chain.get_atom_type a) := by
        obtain ⟨p, hp, hpm⟩ := hm
        exact ⟨p, hp, (bonded_pair_matches_comm p _ _).mp hpm⟩
      have := hcount b a hbmem hab hlt hm'
      rw [← this]
      apply List.countP_congr
      intro r _
      simp only [decide_eq_true_eq]
      exact Or.comm

/-- Witness of C26 on the five-atom example molecule: the bond between atom 1 (`CT1`) and
atom 0 (`NH1`) gets exactly one record. -/
theorem bonded_pair_one_record_per_bond_witness :
    (generate_bonded_pair_interactions example_chain example_bonded_pair_parameters).countP
      (fun r => decide ((r.atom1 = 1 ∧ r.atom2 = 0) ∨ (r.atom1 = 0 ∧ r.atom2 = 1))) = 1 :=
  (bonded_pair_one_record_per_bond example_chain example_bonded_pair_parameters
    (by decide) (by decide)).2.2 1 0 (by decide) (by decide) (by decide)
    ⟨_, List.mem_cons_self _ _, by decide⟩

/-! ## Lemmas on the candidate triples of the angle generator -/

section AngleLemmas

variable {A R : Type}

/-- A list of `n` neighbours has `n (n - 1) / 2` neighbour pairs. -/
theorem two_mul_length_neighbour_pairs (l : List A) :
    2 * (neighbour_pairs l).length = l.length * (l.length - 1) := by
  induction l with
  | nil => rfl
  | cons x rest ih =>
    unfold neighbour_pairs
    rw [List.length_append, List.length_map, Nat.mul_add, ih, List.length_cons,
      Nat.add_sub_cancel]
    cases rest.length with
    | zero => rfl
    | succ k =>
      rw [Nat.add_sub_cancel]
      ring

/-- The number of neighbour pairs, with the division carried out. -/
theorem length_neighbour_pairs (l : List A) :
    (neighbour_pairs l).length = l.length * (l.length - 1) / 2 := by
  rw [← two_mul_length_neighbour_pairs l]
  omega

/-- Both atoms of a neighbour pair are neighbours. -/
theorem mem_of_mem_neighbour_pairs (l : List A) (a b : A) (h : (a, b) ∈ neighbour_pairs l) :
    a ∈ l ∧ b ∈ l := by
  have hs := ((mem_neighbour_pairs l a b).mp h).subset
  exact ⟨hs (List.mem_cons_self _ _), hs (List.mem_cons_of_mem _ (List.mem_cons_self _ _))⟩

/-- The two atoms of a neighbour pair of a list without duplicates differ. -/
theorem ne_of_mem_neighbour_pairs (l : List A) (hl : l.Nodup) (a b : A)
    (h : (a, b) ∈ neighbour_pairs l) : a ≠ b := by
  have hs := hl.sublist ((mem_neighbour_pairs l a b).mp h)
  intro hab
  rw [hab] at hs
  simp at hs

/-- A list without duplicates has no neighbour pair in both orders. -/
theorem neighbour_pairs_asymm (l : List A) (hl : l.Nodup) (a b : A)
    (h : (a, b) ∈ neighbour_pairs l) : (b, a) ∉ neighbour_pairs l := by
  induction l with
  | nil => cases h
  | cons x rest ih =>
    obtain ⟨hx, hrest⟩ := List.nodup_cons.mp hl
    unfold neighbour_pairs at h ⊢
    rw [List.mem_append, List.mem_map] at h ⊢
    rintro (⟨c, hc, hcx⟩ | h')
    · obtain ⟨rfl, rfl⟩ := Prod.mk.inj hcx
      rcases h with ⟨d, hd, hdx⟩ | h
      · obtain ⟨rfl, rfl⟩ := Prod.mk.inj hdx
        exact hx hd
      · exact hx (mem_of_mem_neighbour_pairs rest _ _ h).2
    · rcases h with ⟨d, hd, hdx⟩ | h
      · obtain ⟨rfl, rfl⟩ := Prod.mk.inj hdx
        exact hx (mem_of_mem_neighbour_pairs rest _ _ h').2
      · exact ih hrest h h'

/-- Two different neighbours form a neighbour pair in one of the two orders. -/
theorem neighbour_pairs_total (l : List A) (a b : A) (ha : a ∈ l) (hb : b ∈ l) (hab : a ≠ b) :
    (a, b) ∈ neighbour_pairs l ∨ (b, a) ∈ neighbour_pairs l := by
  induction l with
  | nil => cases ha
  | cons x rest ih =>
    unfold neighbour_pairs
    simp only [List.mem_append, List.mem_map]
    rcases List.mem_cons.mp ha with rfl | ha'
    · rcases List.mem_cons.mp hb with rfl | hb'
      · exact absurd rfl hab
      · exact Or.inl (Or.inl ⟨b, hb', rfl⟩)
    · rcases List.mem_cons.mp hb with rfl | hb'
      · exact Or.inr (Or.inl ⟨a, ha', rfl⟩)
      · rcases ih ha' hb' with h | h
        · exact Or.inl (Or.inr h)
        · exact Or.inr (Or.inr h)

/-- The neighbour pairs of a list without duplicates are pairwise different. -/
theorem nodup_neighbour_pairs (l : List A) (hl : l.Nodup) : (neighbour_pairs l).Nodup := by
  induction l with
  | nil => exact List.nodup_nil
  | cons x rest ih =>
    obtain ⟨hx, hrest⟩ := List.nodup_cons.mp hl
    unfold neighbour_pairs
    rw [List.nodup_append]
    refine ⟨?_, ih hrest, ?_⟩
    · exact hrest.map (fun a b hab => (Prod.mk.inj hab).2)
    · intro p hp hp'
      obtain ⟨c, _, rfl⟩ := List.mem_map.mp hp
      exact hx (mem_of_mem_neighbour_pairs rest _ _ hp').1

/-- The table scan of `generate_angle_bend_interactions` yields the record of the first
matching entry. -/
theorem scan_angle_bend_eq_find (atom1 atom2 atom3 : A) (type1 type2 type3 : String)
    (table : List (AngleBendParameter R)) :
    scan_angle_bend atom1 atom2 atom3 type1 type2 type3 table =
      (table.find? fun p => decide (angle_bend_matches p type1 type2 type3)).map fun p =>
        ({ atom1 := atom1, atom2 := atom2, atom3 := atom3, theta0 := p.theta0, k0 := p.k0,
           r13 := p.r13, kub := p.kub } : AngleBendInteraction A R) := by
  induction table with
  | nil => rfl
  | cons p rest ih =>
    unfold scan_angle_bend
    by_cases hp : angle_bend_matches p type1 type2 type3
    · rw [if_pos hp, List.find?_cons_of_pos _ (by simpa using hp)]
      rfl
    · rw [if_neg hp, List.find?_cons_of_neg _ (by simpa using hp), ih]

/-- Where the records of `generate_angle_bend_interactions` come from. -/
theorem mem_generate_angle_bend_interactions (chain : ChainFB A R)
    (table : List (AngleBendParameter R)) (r : AngleBendInteraction A R)
    (hr : r ∈ (generate_angle_bend_interactions chain table).1) :
    r.atom2 ∈ chain.atoms ∧ (r.atom1, r.atom3) ∈ neighbour_pairs (chain.covalent_bonds r.atom2) ∧
    scan_angle_bend r.atom1 r.atom2 r.atom3 (chain.get_atom_type r.atom1)
      (chain.get_atom_type r.atom2) (chain.get_atom_type r.atom3) table = some r := by
  rw [generate_angle_bend_interactions_eq] at hr
  obtain ⟨a2, ha2, hr⟩ := List.mem_flatMap.mp hr
  obtain ⟨pair, hpair, hr⟩ := List.mem_flatMap.mp hr
  rw [Option.mem_toList, Option.mem_def] at hr
  obtain ⟨e1, e2, e3, _⟩ := scan_angle_bend_some _ _ _ _ _ _ _ _ hr
  rw [e1, e2, e3]
  exact ⟨ha2, hpair, hr⟩

/-- Two append-only loops over the same list of which every iteration feeds exactly one
produce as many elements as the list has. -/
theorem length_flatMap_add_length_flatMap {α β γ : Type} (f : α → List β) (g : α → List γ)
    (l : List α) (h : ∀ x ∈ l, (f x).length + (g x).length = 1) :
    (l.flatMap f).length + (l.flatMap g).length = l.length := by
  induction l with
  | nil => rfl
  | cons x xs ih =>
    rw [List.flatMap_cons, List.flatMap_cons, List.length_append, List.length_append,
      List.length_cons]
    have h1 := h x (List.mem_cons_self _ _)
    have h2 := ih fun y hy => h y (List.mem_cons_of_mem _ hy)
    omega

end AngleLemmas

/-! ## Claims on the angle generator -/

/-- C28: for an atom `atom2` that the atom iterator yields once and whose `n` neighbours are
pairwise different, `generate_angle_bend_interactions` considers exactly `n (n - 1) / 2`
triples with vertex `atom2`, one for each unordered pair of different neighbours, each of
them ending in a record or in a report on `std::cout`; with a table that matches every one
of these triples it returns exactly `n (n - 1) / 2` records with this `atom2`; and it never
returns both `(atom1, atom2, atom3)` and `(atom3, atom2, atom1)`. -/
theorem angle_bend_candidates_per_vertex {A R : Type} [DecidableEq A] (chain : ChainFB A R)
    (table : List (AngleBendParameter R)) (atom2 : A) (h2 : atom2 ∈ chain.atoms)
    (hatoms : chain.atoms.Nodup) (hcov : (chain.covalent_bonds atom2).Nodup) :
    (neighbour_pairs (chain.covalent_bonds atom2)).length =
      (chain.covalent_bonds atom2).length * ((chain.covalent_bonds atom2).length - 1) / 2 ∧
    (neighbour_pairs (chain.covalent_bonds atom2)).Nodup ∧
    (∀ atom1 atom3 : A, (atom1, atom3) ∈ neighbour_pairs (chain.covalent_bonds atom2) →
      atom1 ∈ chain.covalent_bonds atom2 ∧ atom3 ∈ chain.covalent_bonds atom2 ∧
      atom1 ≠ atom3 ∧ (atom3, atom1) ∉ neighbour_pairs (chain.covalent_bonds atom2)) ∧
    (∀ atom1 atom3 : A, atom1 ∈ chain.covalent_bonds atom2 →
      atom3 ∈ chain.covalent_bonds atom2 → atom1 ≠ atom3 →
      (atom1, atom3) ∈ neighbour_pairs (chain.covalent_bonds atom2) ∨
        (atom3, atom1) ∈ neighbour_pairs (chain.covalent_bonds atom2)) ∧
    (((generate_angle_bend_interactions chain table).1.filter
        fun r => decide (r.atom2 = atom2)).length +
      ((generate_angle_bend_interactions chain table).2.filter
        fun t => decide (t.2.1 = atom2)).length =
      (chain.covalent_bonds atom2).length * ((chain.covalent_bonds atom2).length - 1) / 2) ∧
    ((∀ pair ∈ neighbour_pairs (chain.covalent_bonds atom2),
        ∃ p ∈ table, angle_bend_matches p (chain.get_atom_type pair.1)
          (chain.get_atom_type atom2) (chain.get_atom_type pair.2)) →
      ((generate_angle_bend_interactions chain table).1.filter
        fun r => decide (r.atom2 = atom2)).length =
      (chain.covalent_bonds atom2).length * ((chain.covalent_bonds atom2).length - 1) / 2) ∧
    (∀ r ∈ (generate_angle_bend_interactions chain table).1,
      ∀ r' ∈ (generate_angle_bend_interactions chain table).1,
        r.atom2 = atom2 → r'.atom2 = atom2 →
        ¬ (r'.atom1 = r.atom3 ∧ r'.atom3 = r.atom1)) := by
  have hlen := length_neighbour_pairs (chain.covalent_bonds atom2)
  have hrec : (generate_angle_bend_interactions chain table).1.filter
      (fun r => decide (r.atom2 = atom2)) =
      (neighbour_pairs (chain.covalent_bonds atom2)).flatMap fun pair =>
        (scan_angle_bend pair.1 atom2 pair.2 (chain.get_atom_type pair.1)
          (chain.get_atom_type atom2) (chain.get_atom_type pair.2) table).toList := by
    rw [generate_angle_bend_interactions_eq]
    refine filter_flatMap_tag _ (fun r : AngleBendInteraction A R => r.atom2) ?_ chain.atoms
      hatoms atom2 h2
    intro a r hr
    obtain ⟨pair, _, hr⟩ := List.mem_flatMap.mp hr
    rw [Option.mem_toList, Option.mem_def] at hr
    exact (scan_angle_bend_some _ _ _ _ _ _ _ _ hr).2.1
  have hout : (generate_angle_bend_interactions chain table).2.filter
      (fun t => decide (t.2.1 = atom2)) =
      (neighbour_pairs (chain.covalent_bonds atom2)).flatMap fun pair =>
        if (scan_angle_bend (R := R) pair.1 atom2 pair.2 (chain.get_atom_type pair.1)
          (chain.get_atom_type atom2) (chain.get_atom_type pair.2) table).isNone
        then [(pair.1, atom2, pair.2)] else [] := by
    rw [generate_angle_bend_interactions_eq]
    refine filter_flatMap_tag _ (fun t : A × A × A => t.2.1) ?_ chain.atoms hatoms atom2 h2
    intro a t ht
    obtain ⟨pair, _, ht⟩ := List.mem_flatMap.mp ht
    split_ifs at ht
    · rw [List.mem_singleton] at ht
      rw [ht]
    · cases ht
  have hsum : ((generate_angle_bend_interactions chain table).1.filter
        fun r => decide (r.atom2 = atom2)).length +
      ((generate_angle_bend_interactions chain table).2.filter
        fun t => decide (t.2.1 = atom2)).length =
      (neighbour_pairs (chain.covalent_bonds atom2)).length := by
    rw [hrec, hout]
    apply length_flatMap_add_length_flatMap
    intro pair _
    cases scan_angle_bend (R := R) pair.1 atom2 pair.2 (chain.get_atom_type pair.1)
      (chain.get_atom_type atom2) (chain.get_atom_type pair.2) table <;> rfl
  refine ⟨hlen, nodup_neighbour_pairs _ hcov, ?_, ?_, ?_, ?_, ?_⟩
  · intro atom1 atom3 h
    obtain ⟨m1, m3⟩ := mem_of_mem_neighbour_pairs _ _ _ h
    exact ⟨m1, m3, ne_of_mem_neighbour_pairs _ hcov _ _ h, neighbour_pairs_asymm _ hcov _ _ h⟩
  · intro atom1 atom3 m1 m3 hne
    exact neighbour_pairs_total _ _ _ m1 m3 hne
  · rw [hsum, hlen]
  · intro hall
    have hnil : (generate_angle_bend_interactions chain table).2.filter
        (fun t => decide (t.2.1 = atom2)) = [] := by
      rw [hout, List.flatMap_eq_nil_iff]
      intro pair hpair
      have hne : scan_angle_bend (R := R) pair.1 atom2 pair.2 (chain.get_atom_type pair.1)
          (chain.get_atom_type atom2) (chain.get_atom_type pair.2) table ≠ none := by
        intro hnone
        obtain ⟨p, hp, hm⟩ := hall pair hpair
        exact (scan_angle_bend_none _ _ _ _ _ _ _).mp hnone p hp hm
      obtain ⟨r, hr⟩ := Option.ne_none_iff_exists'.mp hne
      rw [hr]
      rfl
    rw [hnil, List.length_nil, Nat.add_zero] at hsum
    rw [hsum, hlen]
  · rintro r hr r' hr' e e' ⟨h1, h3⟩
    obtain ⟨_, hp, _⟩ := mem_generate_angle_bend_interactions chain table r hr
    obtain ⟨_, hp', _⟩ := mem_generate_angle_bend_interactions chain table r' hr'
    rw [e] at hp
    rw [e', h1, h3] at hp'
    exact neighbour_pairs_asymm _ hcov _ _ hp hp'

/-- Witness of C28 at atom 1 of the five-atom example molecule, which has the two
neighbours 0 and 2: one candidate triple, and one record with the example table. -/
theorem angle_bend_candidates_per_vertex_witness :
    (neighbour_pairs (example_chain.covalent_bonds 1)).length = 2 * (2 - 1) / 2 ∧
    ((generate_angle_bend_interactions example_chain example_angle_bend_parameters).1.filter
      fun r => decide (r.atom2 = 1)).length = 2 * (2 - 1) / 2 :=
  ⟨(angle_bend_candidates_per_vertex example_chain example_angle_bend_parameters 1
      (by decide) (by decide) (by decide)).1,
    (angle_bend_candidates_per_vertex example_chain example_angle_bend_parameters 1
      (by decide) (by decide) (by decide)).2.2.2.2.2.1 (by decide)⟩

/-! ## Lemmas on the candidate quadruples of the torsion generator -/

section TorsionCandidateLemmas

variable {A R : Type}

/-- The length of an append-only loop whose iterations inside a class append `m` elements
each and whose other iterations append nothing. -/
theorem length_flatMap_ite {α β : Type} (c : α → Prop) [DecidablePred c] (F : α → List β)
    (m : Nat) (l : List α) (h : ∀ x ∈ l, c x → (F x).length = m) :
    (l.flatMap fun x => if c x then F x else []).length =
      (l.filter fun x => decide (c x)).length * m := by
  induction l with
  | nil => simp
  | cons x xs ih =>
    rw [List.flatMap_cons, List.length_append, ih fun y hy => h y (List.mem_cons_of_mem _ hy)]
    by_cases hc : c x
    · rw [if_pos hc, h x (List.mem_cons_self _ _) hc, List.filter_cons_of_pos (by simpa using hc),
        List.length_cons, Nat.succ_mul, Nat.add_comm]
    · rw [if_neg hc, List.filter_cons_of_neg (by simpa using hc), List.length_nil,
        Nat.zero_add]

/-- The quadruples that the two inner loops of `generate_torsion_interactions` reach around
the central bond `(atom2, atom3)`. -/
theorem length_torsion_quadruples [DecidableEq A] (l2 l3 : List A) (atom2 atom3 : A)
    (h2 : l2.Nodup) (h3 : l3.Nodup) (m3 : atom3 ∈ l2) (m2 : atom2 ∈ l3) :
    (l2.flatMap fun atom1 => l3.flatMap fun atom4 =>
      if atom2 ≠ atom4 ∧ atom1 ≠ atom3 then [(atom1, atom2, atom3, atom4)] else []).length =
      (l2.length - 1) * (l3.length - 1) := by
  have hfun : (fun atom1 => l3.flatMap fun atom4 =>
      if atom2 ≠ atom4 ∧ atom1 ≠ atom3 then [(atom1, atom2, atom3, atom4)] else []) =
      fun atom1 => if atom1 ≠ atom3 then
        (l3.flatMap fun atom4 =>
          if atom4 ≠ atom2 then [(atom1, atom2, atom3, atom4)] else [])
        else [] := by
    funext atom1
    by_cases h1 : atom1 = atom3
    · simp [h1]
    · rw [if_pos h1]
      congr 1
      funext atom4
      by_cases h4 : atom4 = atom2
      · simp [h4]
      · have h4' : atom2 ≠ atom4 := fun h => h4 h.symm
        rw [if_pos h4, if_pos ⟨h4', h1⟩]
  rw [hfun, length_flatMap_ite (fun atom1 => atom1 ≠ atom3) _ (l3.length - 1),
    length_filter_ne l2 h2 atom3 m3]
  intro atom1 _ _
  rw [length_flatMap_ite (fun atom4 => atom4 ≠ atom2) _ 1, length_filter_ne l3 h3 atom2 m2,
    Nat.mul_one]
  intro atom4 _ _
  rfl

/-- The candidate quadruples of `generate_torsion_interactions` with a given central pair, in
a chain whose atom iterator yields every atom once: those of the iteration of the two outer
loops at this pair. -/
theorem filter_torsion_candidates [DecidableEq A] (chain : ChainFB A R)
    (hatoms : chain.atoms.Nodup) (atom2 atom3 : A) (h2 : atom2 ∈ chain.atoms)
    (h3 : atom3 ∈ chain.atoms) :
    (torsion_candidates chain).filter (fun q => decide (q.2.1 = atom2 ∧ q.2.2.1 = atom3)) =
      if chain.residue_index atom2 > chain.residue_index atom3 ∨
         (chain.residue_index atom2 = chain.residue_index atom3 ∧
          chain.index atom2 > chain.index atom3) then []
      else if chain.chain_distance atom2 atom3 ≠ 1 then []
      else
        (chain.covalent_bonds atom2).flatMap fun atom1 =>
          (chain.covalent_bonds atom3).flatMap fun atom4 =>
            if atom2 ≠ atom4 ∧ atom1 ≠ atom3 then [(atom1, atom2, atom3, atom4)] else [] := by
  have hfun : (fun q : A × A × A × A => decide (q.2.1 = atom2 ∧ q.2.2.1 = atom3)) =
      fun q => decide (q.2.2.1 = atom3) && decide (q.2.1 = atom2) := by
    funext q
    by_cases e1 : q.2.1 = atom2 <;> by_cases e2 : q.2.2.1 = atom3 <;> simp [e1, e2]
  have hinner : ∀ (a2 a3 : A) (q : A × A × A × A),
      q ∈ (if chain.residue_index a2 > chain.residue_index a3 ∨
         (chain.residue_index a2 = chain.residue_index a3 ∧
          chain.index a2 > chain.index a3) then []
        else if chain.chain_distance a2 a3 ≠ 1 then []
        else
          (chain.covalent_bonds a2).flatMap fun atom1 =>
            (chain.covalent_bonds a3).flatMap fun atom4 =>
              if a2 ≠ atom4 ∧ atom1 ≠ a3 then [(atom1, a2, a3, atom4)] else []) →
      q.2.1 = a2 ∧ q.2.2.1 = a3 := by
    intro a2 a3 q hq
    split_ifs at hq with g1 g2
    · cases hq
    · cases hq
    · obtain ⟨a1, _, hq⟩ := List.mem_flatMap.mp hq
      obtain ⟨a4, _, hq⟩ := List.mem_flatMap.mp hq
      split_ifs at hq
      · rw [List.mem_singleton] at hq
        rw [hq]
        exact ⟨rfl, rfl⟩
      · cases hq
  rw [hfun, ← List.filter_filter]
  unfold torsion_candidates
  rw [filter_flatMap_tag _ (fun q : A × A × A × A => q.2.1) _ chain.atoms hatoms atom2 h2]
  · rw [filter_flatMap_tag _ (fun q : A × A × A × A => q.2.2.1) _ chain.atoms hatoms atom3 h3]
    intro a3 q hq
    exact (hinner atom2 a3 q hq).2
  · intro a2 q hq
    obtain ⟨a3, _, hq⟩ := List.mem_flatMap.mp hq
    exact (hinner a2 a3 q hq).1

end TorsionCandidateLemmas

/-! ## Claims on the candidate quadruples of the torsion generator -/

/-- C30: take a chain whose atoms have pairwise distinct (residue index, atom index) keys,
whose bond lists are symmetric, list atoms of the chain, name no atom twice and never the
atom itself, and in which `chain_distance` is 1 exactly for bonded atoms.  Then the result of
`generate_torsion_interactions` is built from the candidate quadruples
`(atom1, atom2, atom3, atom4)`, all of which have `atom3` bonded to `atom2`, `atom2` before
`atom3` in (residue index, then atom index) order, `atom1` a neighbour of `atom2` other than
`atom3` and `atom4` a neighbour of `atom3` other than `atom2`.  Every bond is ordered one way
or the other; the candidates with the bond in this order as central bond are exactly these
quadruples, each once, `(deg atom2 - 1) * (deg atom3 - 1)` in number, and there is none with
the central bond in the other order. -/
theorem torsion_candidates_per_central_bond {A R : Type} [DecidableEq A]
    (chain : ChainFB A R) (table : List (TorsionParameter R))
    (hkeys : (chain.atoms.map fun a => (chain.residue_index a, chain.index a)).Nodup)
    (hdist : ∀ a ∈ chain.atoms, ∀ b ∈ chain.atoms,
      chain.chain_distance a b = 1 ↔ b ∈ chain.covalent_bonds a)
    (hbonds : ∀ a ∈ chain.atoms, (chain.covalent_bonds a).Nodup ∧
      a ∉ chain.covalent_bonds a ∧
      ∀ b ∈ chain.covalent_bonds a, b ∈ chain.atoms ∧ a ∈ chain.covalent_bonds b) :
    generate_torsion_interactions chain table =
      ((torsion_candidates chain).flatMap fun q =>
          (torsion_quadruple chain table q.1 q.2.1 q.2.2.1 q.2.2.2).1,
       (torsion_candidates chain).flatMap fun q =>
          (torsion_quadruple chain table q.1 q.2.1 q.2.2.1 q.2.2.2).2) ∧
    (∀ atom1 atom2 atom3 atom4 : A,
      (atom1, atom2, atom3, atom4) ∈ torsion_candidates chain →
      atom2 ∈ chain.atoms ∧ atom3 ∈ chain.covalent_bonds atom2 ∧
      (chain.residue_index atom2 < chain.residue_index atom3 ∨
        (chain.residue_index atom2 = chain.residue_index atom3 ∧
          chain.index atom2 < chain.index atom3)) ∧
      atom1 ∈ chain.covalent_bonds atom2 ∧ atom1 ≠ atom3 ∧
      atom4 ∈ chain.covalent_bonds atom3 ∧ atom4 ≠ atom2) ∧
    (∀ atom2 atom3 : A, atom2 ∈ chain.atoms → atom3 ∈ chain.covalent_bonds atom2 →
      (chain.residue_index atom2 < chain.residue_index atom3 ∨
        (chain.residue_index atom2 = chain.residue_index atom3 ∧
          chain.index atom2 < chain.index atom3)) ∨
      (chain.residue_index atom3 < chain.residue_index atom2 ∨
        (chain.residue_index atom3 = chain.residue_index atom2 ∧
          chain.index atom3 < chain.index atom2))) ∧
    (∀ atom2 atom3 : A, atom2 ∈ chain.atoms → atom3 ∈ chain.covalent_bonds atom2 →
      (chain.residue_index atom2 < chain.residue_index atom3 ∨
        (chain.residue_index atom2 = chain.residue_index atom3 ∧
          chain.index atom2 < chain.index atom3)) →
      (torsion_candidates chain).filter
          (fun q => decide (q.2.1 = atom2 ∧ q.2.2.1 = atom3)) =
        ((chain.covalent_bonds atom2).flatMap fun atom1 =>
          (chain.covalent_bonds atom3).flatMap fun atom4 =>
            if atom2 ≠ atom4 ∧ atom1 ≠ atom3 then [(atom1, atom2, atom3, atom4)] else []) ∧
      ((torsion_candidates chain).filter
          (fun q => decide (q.2.1 = atom2 ∧ q.2.2.1 = atom3))).length =
        ((chain.covalent_bonds atom2).length - 1) *
          ((chain.covalent_bonds atom3).length - 1) ∧
      (torsion_candidates chain).filter
          (fun q => decide (q.2.1 = atom3 ∧ q.2.2.1 = atom2)) = []) := by
  have hatoms : chain.atoms.Nodup := List.Nodup.of_map _ hkeys
  have hcases : ∀ atom2 atom3 : A, atom2 ∈ chain.atoms → atom3 ∈ chain.covalent_bonds atom2 →
      (chain.residue_index atom2 < chain.residue_index atom3 ∨
        (chain.residue_index atom2 = chain.residue_index atom3 ∧
          chain.index atom2 < chain.index atom3)) ∨
      (chain.residue_index atom3 < chain.residue_index atom2 ∨
        (chain.residue_index atom3 = chain.residue_index atom2 ∧
          chain.index atom3 < chain.index atom2)) := by
    intro atom2 atom3 h2 h3
    obtain ⟨_, hirr, hsym⟩ := hbonds atom2 h2
    have hne : atom2 ≠ atom3 := by
      rintro rfl
      exact hirr h3
    have hkne : (chain.residue_index atom2, chain.index atom2) ≠
        (chain.residue_index atom3, chain.index atom3) := fun h =>
      hne (List.inj_on_of_nodup_map hkeys h2 (hsym atom3 h3).1 h)
    by_contra hcon
    apply hkne
    have e1 : chain.residue_index atom2 = chain.residue_index atom3 := by omega
    have e2 : chain.index atom2 = chain.index atom3 := by omega
    rw [e1, e2]
  refine ⟨generate_torsion_interactions_eq chain table, ?_, hcases, ?_⟩
  · intro atom1 atom2 atom3 atom4 hq
    obtain ⟨h2, h3, hord, hd, h1, h4, hne4, hne1⟩ :=
      (mem_torsion_candidates chain atom1 atom2 atom3 atom4).mp hq
    have hb : atom3 ∈ chain.covalent_bonds atom2 := (hdist atom2 h2 atom3 h3).mp hd
    refine ⟨h2, hb, ?_, h1, hne1, h4, fun h => hne4 h.symm⟩
    rcases hcases atom2 atom3 h2 hb with h | h
    · exact h
    · exact absurd (by omega) hord
  · intro atom2 atom3 h2 hb hlt
    obtain ⟨hnd2, _, hsym⟩ := hbonds atom2 h2
    obtain ⟨h3, hb'⟩ := hsym atom3 hb
    have hfwd : (torsion_candidates chain).filter
          (fun q => decide (q.2.1 = atom2 ∧ q.2.2.1 = atom3)) =
        ((chain.covalent_bonds atom2).flatMap fun atom1 =>
          (chain.covalent_bonds atom3).flatMap fun atom4 =>
            if atom2 ≠ atom4 ∧ atom1 ≠ atom3 then [(atom1, atom2, atom3, atom4)] else []) := by
      rw [filter_torsion_candidates chain hatoms atom2 atom3 h2 h3, if_neg (by omega),
        if_neg (not_not.mpr ((hdist atom2 h2 atom3 h3).mpr hb))]
    refine ⟨hfwd, ?_, ?_⟩
    · rw [hfwd]
      exact length_torsion_quadruples _ _ atom2 atom3 hnd2 (hbonds atom3 h3).1 hb hb'
    · rw [filter_torsion_candidates chain hatoms atom3 atom2 h3 h2, if_pos (by omega)]

/-- Witness of C30 on the five-atom example molecule: the bond between the atoms 1 and 2,
which have two neighbours each, is the central bond of one candidate quadruple. -/
theorem torsion_candidates_per_central_bond_witness :
    (torsion_candidates example_chain).filter (fun q => decide (q.2.1 = 1 ∧ q.2.2.1 = 2)) =
      [(0, 1, 2, 3)] ∧
    ((torsion_candidates example_chain).filter
        (fun q => decide (q.2.1 = 1 ∧ q.2.2.1 = 2))).length =
      ((example_chain.covalent_bonds 1).length - 1) *
        ((example_chain.covalent_bonds 2).length - 1) ∧
    (torsion_candidates example_chain).filter (fun q => decide (q.2.1 = 2 ∧ q.2.2.1 = 1)) =
      [] :=
  (torsion_candidates_per_central_bond example_chain example_torsion_parameters
    (by decide) (by decide) (by decide)).2.2.2 1 2 (by decide) (by decide) (by decide)

/-! ## Lemmas on the index map -/

section IndexMapLemmas

/-- The index that `operator[]` returns: the stored one, or `0` for a missing key. -/
theorem map_subscript_fst (m : IndexMap) (key : String) :
    (map_subscript m key).1 = (m.lookup key).getD 0 := by
  unfold map_subscript
  cases m.lookup key <;> rfl

/-- An access with a key of the map leaves the map as it is. -/
theorem map_subscript_of_lookup (m : IndexMap) (key : String) (v : Nat)
    (h : m.lookup key = some v) : map_subscript m key = (v, m) := by
  unfold map_subscript
  rw [h]

/-- An access with a missing key appends the key with the index `0`. -/
theorem map_subscript_of_lookup_none (m : IndexMap) (key : String)
    (h : m.lookup key = none) : map_subscript m key = (0, m ++ [(key, 0)]) := by
  unfold map_subscript
  rw [h]

/-- A key of the map keeps its index when an entry is appended. -/
theorem lookup_append_of_some (m m2 : IndexMap) (k : String) (w : Nat)
    (h : m.lookup k = some w) : (m ++ m2).lookup k = some w := by
  induction m with
  | nil => cases h
  | cons e rest ih =>
    obtain ⟨a, b⟩ := e
    by_cases hk : k = a
    · subst hk
      simp only [List.lookup, beq_self_eq_true] at h
      simp only [List.cons_append, List.lookup, beq_self_eq_true]
      exact h
    · have h' : (k == a) = false := by simpa using hk
      simp only [List.lookup, h'] at h
      simp only [List.cons_append, List.lookup, h']
      exact ih h

/-- A missing key is looked up in the appended entries. -/
theorem lookup_append_of_none (m m2 : IndexMap) (k : String)
    (h : m.lookup k = none) : (m ++ m2).lookup k = m2.lookup k := by
  induction m with
  | nil => rfl
  | cons e rest ih =>
    obtain ⟨a, b⟩ := e
    by_cases hk : k = a
    · subst hk
      simp only [List.lookup, beq_self_eq_true] at h
      cases h
    · have h' : (k == a) = false := by simpa using hk
      simp only [List.lookup, h'] at h
      simp only [List.cons_append, List.lookup, h']
      exact ih h

/-- An access does not change the index that any later access returns. -/
theorem map_subscript_lookup (m : IndexMap) (key k : String) :
    ((map_subscript m key).2.lookup k).getD 0 = (m.lookup k).getD 0 := by
  cases h : m.lookup key with
  | some v => rw [map_subscript_of_lookup m key v h]
  | none =>
    rw [map_subscript_of_lookup_none m key h]
    show ((m ++ [(key, 0)]).lookup k).getD 0 = _
    cases hk : m.lookup k with
    | some w => rw [lookup_append_of_some m _ k w hk]
    | none =>
      rw [lookup_append_of_none m _ k hk]
      by_cases e : k = key
      · subst e
        simp [List.lookup]
      · have e' : (k == key) = false := by simpa using e
        simp [List.lookup, e']

end IndexMapLemmas

/-! ## Lemmas on the cached non-bonded generator -/

section AtomTypeInfoLemmas

variable {A R : Type}

/-- Every element of the enumerated `atom_type_infos` belongs to an atom of the chain and
carries the type of its atom. -/
theorem atom_type_infos_enum_mem (parameter0 : NonBondedParameter R) (chain : ChainFB A R)
    (nbp : List (NonBondedParameter R)) (x : Nat × AtomTypeInfo A R)
    (hx : x ∈ (atom_type_infos parameter0 chain nbp).enum) :
    x.2.atom ∈ chain.atoms ∧ x.2.atom_type = chain.get_atom_type x.2.atom := by
  have hx' := List.mem_enum_iff_getElem?.mp hx
  have hmem : x.2 ∈ atom_type_infos parameter0 chain nbp :=
    List.mem_iff_getElem?.mpr ⟨x.1, hx'⟩
  unfold atom_type_infos at hmem
  obtain ⟨a, ha, hax⟩ := List.mem_map.mp hmem
  rw [← hax]
  exact ⟨ha, rfl⟩

/-- A loop on the state (result vector, further state) whose iterations append records: the
records of the result, read through a projection, are the concatenation of what the
iterations append, read through it. -/
theorem foldl_fst_map {σ τ α β : Type} (f : List σ × τ → α → List σ × τ) (proj : σ → β)
    (g : α → List β) (l : List α)
    (h : ∀ st, ∀ x ∈ l, (f st x).1.map proj = st.1.map proj ++ g x) (st : List σ × τ) :
    (l.foldl f st).1.map proj = st.1.map proj ++ l.flatMap g := by
  induction l generalizing st with
  | nil => simp
  | cons x xs ih =>
    rw [List.foldl_cons, ih (fun st y hy => h st y (List.mem_cons_of_mem _ hy)),
      h st x (List.mem_cons_self _ _), List.flatMap_cons, List.append_assoc]

end AtomTypeInfoLemmas

section CachedStepLemmas

variable {A R : Type} [Field R] [DecidableEq R]

/-- The solvation block reads both indices from the map as it was before the block, does
not change the index of any key, and leaves the map as it was when both types are keys. -/
theorem attach_eef1_indices (atom_h_weight : R) (chain : ChainFB A R)
    (factors : List (List R)) (vdw_radii lambda : List R) (info1 info2 : AtomTypeInfo A R)
    (interaction : NonBondedInteraction A R) (m : IndexMap) :
    ((attach_eef1 atom_h_weight chain factors vdw_radii lambda info1 info2 interaction
        m).1.do_eef1 = true →
      (fun r : NonBondedInteraction A R =>
          (r.fac_12, r.fac_21, r.R_vdw_1, r.R_vdw_2, r.lambda1, r.lambda2))
        (attach_eef1 atom_h_weight chain factors vdw_radii lambda info1 info2 interaction
          m).1 =
        ((factors.getD ((m.lookup info1.atom_type).getD 0) []).getD
            ((m.lookup info2.atom_type).getD 0) 0,
          (factors.getD ((m.lookup info2.atom_type).getD 0) []).getD
            ((m.lookup info1.atom_type).getD 0) 0,
          vdw_radii.getD ((m.lookup info1.atom_type).getD 0) 0,
          vdw_radii.getD ((m.lookup info2.atom_type).getD 0) 0,
          lambda.getD ((m.lookup info1.atom_type).getD 0) 0,
          lambda.getD ((m.lookup info2.atom_type).getD 0) 0)) ∧
    (∀ k : String,
      ((attach_eef1 atom_h_weight chain factors vdw_radii lambda info1 info2 interaction
          m).2.lookup k).getD 0 = (m.lookup k).getD 0) ∧
    ((m.lookup info1.atom_type).isSome = true → (m.lookup info2.atom_type).isSome = true →
      (attach_eef1 atom_h_weight chain factors vdw_radii lambda info1 info2 interaction
          m).2 = m) := by
  have h1 := map_subscript_fst m info1.atom_type
  have h2 : (map_subscript (map_subscript m info1.atom_type).2 info2.atom_type).1 =
      (m.lookup info2.atom_type).getD 0 := by
    rw [map_subscript_fst, map_subscript_lookup]
  unfold attach_eef1
  by_cases h : ¬ (chain.mass info1.atom = atom_h_weight) ∧
      ¬ (chain.chain_distance info1.atom info2.atom < 3) ∧
      ¬ (chain.mass info2.atom = atom_h_weight)
  · rw [if_pos h]
    dsimp only
    rw [h1, h2]
    refine ⟨fun _ => rfl, ?_, ?_⟩
    · intro k
      rw [map_subscript_lookup, map_subscript_lookup]
    · intro k1 k2
      obtain ⟨v1, hv1⟩ := Option.isSome_iff_exists.mp k1
      obtain ⟨v2, hv2⟩ := Option.isSome_iff_exists.mp k2
      rw [map_subscript_of_lookup m _ v1 hv1, map_subscript_of_lookup m _ v2 hv2]
  · rw [if_neg h]
    exact ⟨fun hf => (by cases hf), fun _ => rfl, fun _ _ => rfl⟩

/-- One pass of the inner loop body of `generate_non_bonded_interactions_cached`: it appends
the records that the body of `generate_non_bonded_interactions` appends, up to the solvation
members; a record with `do_eef1` carries the table values at the indices of the two types;
no key changes its index, and the map stays as it was when both types are keys. -/
theorem non_bonded_step_cached_spec (sqrt : R → R) (FELEC atom_h_weight : R)
    (interaction0 : NonBondedInteraction A R) (parameter14_0 : NonBonded14Parameter R)
    (parameter0 : NonBondedParameter R) (chain : ChainFB A R)
    (nbp : List (NonBondedParameter R)) (nb14 : List (NonBonded14Parameter R))
    (factors : List (List R)) (vdw_radii lambda : List R)
    (st : List (NonBondedInteraction A R) × IndexMap)
    (i : Nat) (info1 : AtomTypeInfo A R) (j : Nat) (info2 : AtomTypeInfo A R) :
    ∃ added : List (NonBondedInteraction A R),
      (non_bonded_step_cached sqrt FELEC atom_h_weight interaction0 parameter14_0 parameter0
        chain nbp nb14 factors vdw_radii lambda st i info1 j info2).1 = st.1 ++ added ∧
      added.map (fun r => (r.atom1, r.atom2, r.qq, r.c6, r.c12, r.is_14_interaction)) =
        (non_bonded_step sqrt FELEC interaction0 parameter14_0 parameter0 chain nbp nb14
          i info1 j info2).map
          (fun r => (r.atom1, r.atom2, r.qq, r.c6, r.c12, r.is_14_interaction)) ∧
      (∀ k : String,
        ((non_bonded_step_cached sqrt FELEC atom_h_weight interaction0 parameter14_0
          parameter0 chain nbp nb14 factors vdw_radii lambda st i info1 j
          info2).2.lookup k).getD 0 = (st.2.lookup k).getD 0) ∧
      ((st.2.lookup info1.atom_type).isSome = true →
        (st.2.lookup info2.atom_type).isSome = true →
        (non_bonded_step_cached sqrt FELEC atom_h_weight interaction0 parameter14_0
          parameter0 chain nbp nb14 factors vdw_radii lambda st i info1 j info2).2 = st.2) ∧
      ∀ r ∈ added, r.atom1 = info1.atom ∧ r.atom2 = info2.atom ∧
        (r.do_eef1 = true →
          (r.fac_12, r.fac_21, r.R_vdw_1, r.R_vdw_2, r.lambda1, r.lambda2) =
            ((factors.getD ((st.2.lookup info1.atom_type).getD 0) []).getD
                ((st.2.lookup info2.atom_type).getD 0) 0,
              (factors.getD ((st.2.lookup info2.atom_type).getD 0) []).getD
                ((st.2.lookup info1.atom_type).getD 0) 0,
              vdw_radii.getD ((st.2.lookup info1.atom_type).getD 0) 0,
              vdw_radii.getD ((st.2.lookup info2.atom_type).getD 0) 0,
              lambda.getD ((st.2.lookup info1.atom_type).getD 0) 0,
              lambda.getD ((st.2.lookup info2.atom_type).getD 0) 0)) := by
  have key : ∀ interaction : NonBondedInteraction A R,
      interaction.atom1 = info1.atom → interaction.atom2 = info2.atom →
      ∃ added : List (NonBondedInteraction A R),
        (st.1 ++ [(attach_eef1 atom_h_weight chain factors vdw_radii lambda info1 info2
          interaction st.2).1]) = st.1 ++ added ∧
        added.map (fun r => (r.atom1, r.atom2, r.qq, r.c6, r.c12, r.is_14_interaction)) =
          [interaction].map
            (fun r => (r.atom1, r.atom2, r.qq, r.c6, r.c12, r.is_14_interaction)) ∧
        (∀ k : String,
          ((attach_eef1 atom_h_weight chain factors vdw_radii lambda info1 info2
            interaction st.2).2.lookup k).getD 0 = (st.2.lookup k).getD 0) ∧
        ((st.2.lookup info1.atom_type).isSome = true →
          (st.2.lookup info2.atom_type).isSome = true →
          (attach_eef1 atom_h_weight chain factors vdw_radii lambda info1 info2
            interaction st.2).2 = st.2) ∧
        ∀ r ∈ added, r.atom1 = info1.atom ∧ r.atom2 = info2.atom ∧
          (r.do_eef1 = true →
            (r.fac_12, r.fac_21, r.R_vdw_1, r.R_vdw_2, r.lambda1, r.lambda2) =
              ((factors.getD ((st.2.lookup info1.atom_type).getD 0) []).getD
                  ((st.2.lookup info2.atom_type).getD 0) 0,
                (factors.getD ((st.2.lookup info2.atom_type).getD 0) []).getD
                  ((st.2.lookup info1.atom_type).getD 0) 0,
                vdw_radii.getD ((st.2.lookup info1.atom_type).getD 0) 0,
                vdw_radii.getD ((st.2.lookup info2.atom_type).getD 0) 0,
                lambda.getD ((st.2.lookup info1.atom_type).getD 0) 0,
                lambda.getD ((st.2.lookup info2.atom_type).getD 0) 0)) := by
    intro interaction e1 e2
    obtain ⟨f1, f2, f3, f4, f5, f6⟩ := attach_eef1_fields atom_h_weight chain factors
      vdw_radii lambda info1 info2 interaction st.2
    obtain ⟨g1, g2, g3⟩ := attach_eef1_indices atom_h_weight chain factors
      vdw_radii lambda info1 info2 interaction st.2
    refine ⟨_, rfl, ?_, g2, g3, ?_⟩
    · simp only [List.map_cons, List.map_nil, f1, f2, f3, f4, f5, f6]
    · intro r hr
      rw [List.mem_singleton] at hr
      subst hr
      exact ⟨f1.trans e1, f2.trans e2, g1⟩
  unfold non_bonded_step_cached non_bonded_step
  by_cases hij : i > j
  · rw [if_pos hij, if_pos hij]
    exact ⟨[], (List.append_nil _).symm, rfl, fun _ => rfl, fun _ _ => rfl,
      fun r hr => (by cases hr)⟩
  · rw [if_neg hij, if_neg hij]
    dsimp only
    by_cases h3 : chain.chain_distance info1.atom info2.atom > 3
    · rw [if_pos h3, if_pos h3]
      exact key _ rfl rfl
    · rw [if_neg h3, if_neg h3]
      by_cases h4 : chain.chain_distance info1.atom info2.atom = 3
      · rw [if_pos h4, if_pos h4]
        exact key _ rfl rfl
      · rw [if_neg h4, if_neg h4]
        exact ⟨[], (List.append_nil _).symm, rfl, fun _ => rfl, fun _ _ => rfl,
          fun r hr => (by cases hr)⟩

end CachedStepLemmas

/-! ## Claims on the cached non-bonded generator -/

/-- C31: every record of `generate_non_bonded_interactions_cached` with `do_eef1 = true`
carries the solvation values at the indices `i1` and `i2` that the index map, as it was
passed to the call, gives for the types of `atom1` and `atom2` (the index `0` for a type
that is no key of the map): `fac_12 = factors[i1][i2]`, `fac_21 = factors[i2][i1]`,
`R_vdw_1 = vdw_radii[i1]`, `R_vdw_2 = vdw_radii[i2]`, `lambda1 = lambda[i1]`,
`lambda2 = lambda[i2]`.  The two factors are two reads of the table. -/
theorem eef1_members_from_index_map {A R : Type} [Field R] [DecidableEq R]
    (sqrt : R → R) (FELEC atom_h_weight : R)
    (interaction0 : NonBondedInteraction A R)
    (parameter14_0 : NonBonded14Parameter R) (parameter0 : NonBondedParameter R)
    (chain : ChainFB A R) (nbp : List (NonBondedParameter R))
    (nb14 : List (NonBonded14Parameter R))
    (dGref : List R) (factors : List (List R)) (vdw_radii lambda : List R)
    (index_map : IndexMap) (r : NonBondedInteraction A R)
    (hr : r ∈ (generate_non_bonded_interactions_cached sqrt FELEC atom_h_weight interaction0
        parameter14_0 parameter0 chain nbp nb14 dGref factors vdw_radii lambda index_map).1)
    (hdo : r.do_eef1 = true) :
    r.fac_12 =
      (factors.getD ((index_map.lookup (chain.get_atom_type r.atom1)).getD 0) []).getD
        ((index_map.lookup (chain.get_atom_type r.atom2)).getD 0) 0 ∧
    r.fac_21 =
      (factors.getD ((index_map.lookup (chain.get_atom_type r.atom2)).getD 0) []).getD
        ((index_map.lookup (chain.get_atom_type r.atom1)).getD 0) 0 ∧
    r.R_vdw_1 = vdw_radii.getD ((index_map.lookup (chain.get_atom_type r.atom1)).getD 0) 0 ∧
    r.R_vdw_2 = vdw_radii.getD ((index_map.lookup (chain.get_atom_type r.atom2)).getD 0) 0 ∧
    r.lambda1 = lambda.getD ((index_map.lookup (chain.get_atom_type r.atom1)).getD 0) 0 ∧
    r.lambda2 = lambda.getD ((index_map.lookup (chain.get_atom_type r.atom2)).getD 0) 0 := by
  have hinv : (∀ k : String,
        ((generate_non_bonded_interactions_cached sqrt FELEC atom_h_weight interaction0
          parameter14_0 parameter0 chain nbp nb14 dGref factors vdw_radii lambda
          index_map).2.lookup k).getD 0 = (index_map.lookup k).getD 0) ∧
      ∀ r ∈ (generate_non_bonded_interactions_cached sqrt FELEC atom_h_weight interaction0
          parameter14_0 parameter0 chain nbp nb14 dGref factors vdw_radii lambda
          index_map).1,
        r.do_eef1 = true →
        (r.fac_12, r.fac_21, r.R_vdw_1, r.R_vdw_2, r.lambda1, r.lambda2) =
          ((factors.getD ((index_map.lookup (chain.get_atom_type r.atom1)).getD 0) []).getD
              ((index_map.lookup (chain.get_atom_type r.atom2)).getD 0) 0,
            (factors.getD ((index_map.lookup (chain.get_atom_type r.atom2)).getD 0) []).getD
              ((index_map.lookup (chain.get_atom_type r.atom1)).getD 0) 0,
            vdw_radii.getD ((index_map.lookup (chain.get_atom_type r.atom1)).getD 0) 0,
            vdw_radii.getD ((index_map.lookup (chain.get_atom_type r.atom2)).getD 0) 0,
            lambda.getD ((index_map.lookup (chain.get_atom_type r.atom1)).getD 0) 0,
            lambda.getD ((index_map.lookup (chain.get_atom_type r.atom2)).getD 0) 0) := by
    unfold generate_non_bonded_interactions_cached
    refine foldl_invariant
      (fun st : List (NonBondedInteraction A R) × IndexMap =>
        (∀ k : String, (st.2.lookup k).getD 0 = (index_map.lookup k).getD 0) ∧
        ∀ r ∈ st.1, r.do_eef1 = true →
          (r.fac_12, r.fac_21, r.R_vdw_1, r.R_vdw_2, r.lambda1, r.lambda2) =
            ((factors.getD ((index_map.lookup (chain.get_atom_type r.atom1)).getD 0)
                []).getD ((index_map.lookup (chain.get_atom_type r.atom2)).getD 0) 0,
              (factors.getD ((index_map.lookup (chain.get_atom_type r.atom2)).getD 0)
                []).getD ((index_map.lookup (chain.get_atom_type r.atom1)).getD 0) 0,
              vdw_radii.getD ((index_map.lookup (chain.get_atom_type r.atom1)).getD 0) 0,
              vdw_radii.getD ((index_map.lookup (chain.get_atom_type r.atom2)).getD 0) 0,
              lambda.getD ((index_map.lookup (chain.get_atom_type r.atom1)).getD 0) 0,
              lambda.getD ((index_map.lookup (chain.get_atom_type r.atom2)).getD 0) 0))
      _ _ _ ⟨fun _ => rfl, fun r hr => (by cases hr)⟩ ?_
    intro st x hx hst
    refine foldl_invariant
      (fun st : List (NonBondedInteraction A R) × IndexMap =>
        (∀ k : String, (st.2.lookup k).getD 0 = (index_map.lookup k).getD 0) ∧
        ∀ r ∈ st.1, r.do_eef1 = true →
          (r.fac_12, r.fac_21, r.R_vdw_1, r.R_vdw_2, r.lambda1, r.lambda2) =
            ((factors.getD ((index_map.lookup (chain.get_atom_type r.atom1)).getD 0)
                []).getD ((index_map.lookup (chain.get_atom_type r.atom2)).getD 0) 0,
              (factors.getD ((index_map.lookup (chain.get_atom_type r.atom2)).getD 0)
                []).getD ((index_map.lookup (chain.get_atom_type r.atom1)).getD 0) 0,
              vdw_radii.getD ((index_map.lookup (chain.get_atom_type r.atom1)).getD 0) 0,
              vdw_radii.getD ((index_map.lookup (chain.get_atom_type r.atom2)).getD 0) 0,
              lambda.getD ((index_map.lookup (chain.get_atom_type r.atom1)).getD 0) 0,
              lambda.getD ((index_map.lookup (chain.get_atom_type r.atom2)).getD 0) 0))
      _ _ _ hst ?_
    intro st y hy hst
    obtain ⟨hmap, hrec⟩ := hst
    obtain ⟨added, hadd, _, hlook, _, hnew⟩ := non_bonded_step_cached_spec sqrt FELEC
      atom_h_weight interaction0 parameter14_0 parameter0 chain nbp nb14 factors vdw_radii
      lambda st x.1 x.2 y.1 y.2
    obtain ⟨_, tx⟩ := atom_type_infos_enum_mem parameter0 chain nbp x hx
    obtain ⟨_, ty⟩ := atom_type_infos_enum_mem parameter0 chain nbp y hy
    refine ⟨fun k => (hlook k).trans (hmap k), ?_⟩
    intro r hr hdo
    rw [hadd] at hr
    rcases List.mem_append.mp hr with hr | hr
    · exact hrec r hr hdo
    · obtain ⟨e1, e2, hf⟩ := hnew r hr
      rw [hf hdo, e1, e2, ← tx, ← ty, hmap, hmap]
  have h := hinv.2 r hr hdo
  simp only [Prod.mk.injEq] at h
  exact h

/-- Witness of C31 on the chain `NH1 - CT1 - C - O - HB1`: the record of the atoms 0 (`NH1`,
index 0) and 3 (`O`, index 1) has `fac_12 = factors[0][1] = 12` and
`fac_21 = factors[1][0] = 21`, which differ. -/
theorem eef1_members_from_index_map_witness :
    (generate_non_bonded_interactions_cached example_sqrt 332 1 example_interaction0
        example_parameter14_0 example_parameter0 example_chain example_non_bonded_parameters
        example_non_bonded_14_parameters [] example_factors example_vdw_radii example_lambda
        example_index_map).1.map (fun r => (r.atom1, r.atom2, r.fac_12, r.fac_21)) =
      [(0, 3, 12, 21), (0, 4, 11, 11), (1, 4, 21, 12)] ∧
    ∀ r ∈ (generate_non_bonded_interactions_cached example_sqrt 332 1 example_interaction0
        example_parameter14_0 example_parameter0 example_chain example_non_bonded_parameters
        example_non_bonded_14_parameters [] example_factors example_vdw_radii example_lambda
        example_index_map).1, r.do_eef1 = true →
      r.fac_12 =
        (example_factors.getD
          ((example_index_map.lookup (example_chain.get_atom_type r.atom1)).getD 0) []).getD
          ((example_index_map.lookup (example_chain.get_atom_type r.atom2)).getD 0) 0 :=
  ⟨by decide, fun r hr hdo =>
    (eef1_members_from_index_map example_sqrt 332 1 example_interaction0
      example_parameter14_0 example_parameter0 example_chain example_non_bonded_parameters
      example_non_bonded_14_parameters [] example_factors example_vdw_radii example_lambda
      example_index_map r hr hdo).1⟩

/-- C32: `generate_non_bonded_interactions_cached` leaves the index map as it was when the
type of every atom of the chain is a key of the map.  It does not for every input: on the
chain `NH1 - CT1 - C - O - HB1` with a map that knows `NH1` only, the three accesses with the
types `O`, `HB1` and `CT1` of heavy atoms insert these keys with the index `0`, and the
records of these atoms read the tables at index `0`. -/
theorem generate_non_bonded_interactions_cached_inserts_missing_types {A R : Type}
    [Field R] [DecidableEq R] (sqrt : R → R) (FELEC atom_h_weight : R)
    (interaction0 : NonBondedInteraction A R)
    (parameter14_0 : NonBonded14Parameter R) (parameter0 : NonBondedParameter R)
    (chain : ChainFB A R) (nbp : List (NonBondedParameter R))
    (nb14 : List (NonBonded14Parameter R))
    (dGref : List R) (factors : List (List R)) (vdw_radii lambda : List R)
    (index_map : IndexMap) :
    ((∀ a ∈ chain.atoms, (index_map.lookup (chain.get_atom_type a)).isSome = true) →
      (generate_non_bonded_interactions_cached sqrt FELEC atom_h_weight interaction0
        parameter14_0 parameter0 chain nbp nb14 dGref factors vdw_radii lambda
        index_map).2 = index_map) ∧
    (generate_non_bonded_interactions_cached example_sqrt 332 1 example_interaction0
        example_parameter14_0 example_parameter0 example_chain example_non_bonded_parameters
        example_non_bonded_14_parameters [] example_factors example_vdw_radii example_lambda
        example_index_map_partial).2 =
      [("NH1", 1), ("O", 0), ("HB1", 0), ("CT1", 0)] ∧
    (generate_non_bonded_interactions_cached example_sqrt 332 1 example_interaction0
        example_parameter14_0 example_parameter0 example_chain example_non_bonded_parameters
        example_non_bonded_14_parameters [] example_factors example_vdw_radii example_lambda
        example_index_map_partial).1.map
      (fun r => (r.atom1, r.atom2, r.do_eef1, r.R_vdw_1, r.R_vdw_2)) =
      [(0, 3, true, 4, 3), (0, 4, true, 4, 3), (1, 4, true, 3, 3)] := by
  refine ⟨?_, by decide, by decide⟩
  intro hkeys
  unfold generate_non_bonded_interactions_cached
  refine foldl_invariant
    (fun st : List (NonBondedInteraction A R) × IndexMap => st.2 = index_map) _ _ _ rfl ?_
  intro st x hx hst
  refine foldl_invariant
    (fun st : List (NonBondedInteraction A R) × IndexMap => st.2 = index_map) _ _ _ hst ?_
  intro st y hy hst
  obtain ⟨_, _, _, _, hsame, _⟩ := non_bonded_step_cached_spec sqrt FELEC
    atom_h_weight interaction0 parameter14_0 parameter0 chain nbp nb14 factors vdw_radii
    lambda st x.1 x.2 y.1 y.2
  obtain ⟨ax, tx⟩ := atom_type_infos_enum_mem parameter0 chain nbp x hx
  obtain ⟨ay, ty⟩ := atom_type_infos_enum_mem parameter0 chain nbp y hy
  show (non_bonded_step_cached sqrt FELEC atom_h_weight interaction0 parameter14_0
    parameter0 chain nbp nb14 factors vdw_radii lambda st x.1 x.2 y.1 y.2).2 = index_map
  rw [hsame, hst]
  · rw [hst, tx]
    exact hkeys _ ax
  · rw [hst, ty]
    exact hkeys _ ay

/-- C33: for every chain and every pair of parameter tables,
`generate_non_bonded_interactions_cached` and `generate_non_bonded_interactions` return
vectors of the same length whose records agree, position by position, on `atom1`, `atom2`,
`qq`, `c6`, `c12` and `is_14_interaction`; and two calls of the cached generator that differ
in the solvation inputs only agree on these members. -/
theorem cached_records_agree_with_plain {A R : Type} [Field R] [DecidableEq R]
    (sqrt : R → R) (FELEC atom_h_weight : R)
    (interaction0 : NonBondedInteraction A R)
    (parameter14_0 : NonBonded14Parameter R) (parameter0 : NonBondedParameter R)
    (chain : ChainFB A R) (nbp : List (NonBondedParameter R))
    (nb14 : List (NonBonded14Parameter R))
    (dGref : List R) (factors : List (List R)) (vdw_radii lambda : List R)
    (index_map : IndexMap) :
    (generate_non_bonded_interactions_cached sqrt FELEC atom_h_weight interaction0
        parameter14_0 parameter0 chain nbp nb14 dGref factors vdw_radii lambda
        index_map).1.map
        (fun r => (r.atom1, r.atom2, r.qq, r.c6, r.c12, r.is_14_interaction)) =
      (generate_non_bonded_interactions sqrt FELEC interaction0 parameter14_0 parameter0
        chain nbp nb14).map
        (fun r => (r.atom1, r.atom2, r.qq, r.c6, r.c12, r.is_14_interaction)) ∧
    (generate_non_bonded_interactions_cached sqrt FELEC atom_h_weight interaction0
        parameter14_0 parameter0 chain nbp nb14 dGref factors vdw_radii lambda
        index_map).1.length =
      (generate_non_bonded_interactions sqrt FELEC interaction0 parameter14_0 parameter0
        chain nbp nb14).length ∧
    (∀ (i : Nat) (r r' : NonBondedInteraction A R),
      (generate_non_bonded_interactions_cached sqrt FELEC atom_h_weight interaction0
        parameter14_0 parameter0 chain nbp nb14 dGref factors vdw_radii lambda
        index_map).1[i]? = some r →
      (generate_non_bonded_interactions sqrt FELEC interaction0 parameter14_0 parameter0
        chain nbp nb14)[i]? = some r' →
      r.atom1 = r'.atom1 ∧ r.atom2 = r'.atom2 ∧ r.qq = r'.qq ∧ r.c6 = r'.c6 ∧
        r.c12 = r'.c12 ∧ r.is_14_interaction = r'.is_14_interaction) ∧
    (∀ (dGref' : List R) (factors' : List (List R)) (vdw_radii' lambda' : List R)
      (index_map' : IndexMap),
      (generate_non_bonded_interactions_cached sqrt FELEC atom_h_weight interaction0
        parameter14_0 parameter0 chain nbp nb14 dGref' factors' vdw_radii' lambda'
        index_map').1.map
        (fun r => (r.atom1, r.atom2, r.qq, r.c6, r.c12, r.is_14_interaction)) =
      (generate_non_bonded_interactions_cached sqrt FELEC atom_h_weight interaction0
        parameter14_0 parameter0 chain nbp nb14 dGref factors vdw_radii lambda
        index_map).1.map
        (fun r => (r.atom1, r.atom2, r.qq, r.c6, r.c12, r.is_14_interaction))) := by
  have hmap : ∀ (dGref : List R) (factors : List (List R)) (vdw_radii lambda : List R)
      (index_map : IndexMap),
      (generate_non_bonded_interactions_cached sqrt FELEC atom_h_weight interaction0
        parameter14_0 parameter0 chain nbp nb14 dGref factors vdw_radii lambda
        index_map).1.map
        (fun r => (r.atom1, r.atom2, r.qq, r.c6, r.c12, r.is_14_interaction)) =
      (generate_non_bonded_interactions sqrt FELEC interaction0 parameter14_0 parameter0
        chain nbp nb14).map
        (fun r => (r.atom1, r.atom2, r.qq, r.c6, r.c12, r.is_14_interaction)) := by
    intro dGref factors vdw_radii lambda index_map
    unfold generate_non_bonded_interactions_cached generate_non_bonded_interactions
    dsimp only
    rw [foldl_fst_map _ _ (fun x =>
      (atom_type_infos parameter0 chain nbp).enum.flatMap fun y =>
        (non_bonded_step sqrt FELEC interaction0 parameter14_0 parameter0 chain nbp nb14
          x.1 x.2 y.1 y.2).map
          (fun r => (r.atom1, r.atom2, r.qq, r.c6, r.c12, r.is_14_interaction)))]
    · rw [List.map_nil, List.nil_append, List.map_flatMap]
      congr 1
      funext x
      rw [List.map_flatMap]
    · intro st x _
      apply foldl_fst_map
      intro st y _
      obtain ⟨added, hadd, hcore, _⟩ := non_bonded_step_cached_spec sqrt FELEC
        atom_h_weight interaction0 parameter14_0 parameter0 chain nbp nb14 factors vdw_radii
        lambda st x.1 x.2 y.1 y.2
      rw [hadd, List.map_append, hcore]
  have h0 := hmap dGref factors vdw_radii lambda index_map
  refine ⟨h0, ?_, ?_, ?_⟩
  · have := congrArg List.length h0
    rwa [List.length_map, List.length_map] at this
  · intro i r r' hr hr'
    have hi := congrArg (fun l => l[i]?) h0
    simp only [List.getElem?_map, hr, hr', Option.map_some', Option.some.injEq,
      Prod.mk.injEq] at hi
    exact hi
  · intro dGref' factors' vdw_radii' lambda' index_map'
    rw [hmap dGref' factors' vdw_radii' lambda' index_map', h0]

/-! ## Lemmas on the alignment of torsion records -/

section TorsionAlignLemmas

variable {A R : Type}

/-- The record of the wildcard scan: the record of an entry that matches as wildcard, with
the atoms in the given order on a forward match and reversed on a reverse match. -/
theorem scan_torsion_wildcard_some (atom1 atom2 atom3 atom4 : A) (type2 type3 : String)
    (table : List (TorsionParameter R)) (r : TorsionInteraction A R)
    (h : scan_torsion_wildcard atom1 atom2 atom3 atom4 type2 type3 table = some r) :
    ∃ p ∈ table,
      (torsion_wildcard_forward p type2 type3 ∧
        r = torsion_interaction_of atom1 atom2 atom3 atom4 p) ∨
      (torsion_wildcard_reverse p type2 type3 ∧
        r = torsion_interaction_of atom4 atom3 atom2 atom1 p) := by
  induction table with
  | nil => cases h
  | cons p rest ih =>
    unfold scan_torsion_wildcard at h
    by_cases hf : torsion_wildcard_forward p type2 type3
    · rw [if_pos hf] at h
      exact ⟨p, List.mem_cons_self _ _, Or.inl ⟨hf, (Option.some.inj h).symm⟩⟩
    · rw [if_neg hf] at h
      by_cases hr : torsion_wildcard_reverse p type2 type3
      · rw [if_pos hr] at h
        exact ⟨p, List.mem_cons_self _ _, Or.inr ⟨hr, (Option.some.inj h).symm⟩⟩
      · rw [if_neg hr] at h
        obtain ⟨q, hq, hm⟩ := ih h
        exact ⟨q, List.mem_cons_of_mem _ hq, hm⟩

/-- Every record that the loop body appends for a quadruple is the record of a table entry
that matches the quadruple, exactly or as wildcard: with the atoms in loop order on a forward
match and in reverse order on a reverse match. -/
theorem mem_torsion_quadruple (chain : ChainFB A R) (table : List (TorsionParameter R))
    (atom1 atom2 atom3 atom4 : A) (r : TorsionInteraction A R)
    (hr : r ∈ (torsion_quadruple chain table atom1 atom2 atom3 atom4).1) :
    ∃ p ∈ table,
      (r = torsion_interaction_of atom1 atom2 atom3 atom4 p ∧
        (torsion_exact_forward p (chain.get_atom_type atom1) (chain.get_atom_type atom2)
            (chain.get_atom_type atom3) (chain.get_atom_type atom4) ∨
          torsion_wildcard_forward p (chain.get_atom_type atom2)
            (chain.get_atom_type atom3))) ∨
      (r = torsion_interaction_of atom4 atom3 atom2 atom1 p ∧
        (torsion_exact_reverse p (chain.get_atom_type atom1) (chain.get_atom_type atom2)
            (chain.get_atom_type atom3) (chain.get_atom_type atom4) ∨
          torsion_wildcard_reverse p (chain.get_atom_type atom2)
            (chain.get_atom_type atom3))) := by
  unfold torsion_quadruple at hr
  dsimp only at hr
  split_ifs at hr with hempty
  · cases hw : scan_torsion_wildcard atom1 atom2 atom3 atom4 (chain.get_atom_type atom2)
      (chain.get_atom_type atom3) table with
    | none =>
      rw [hw] at hr
      cases hr
    | some w =>
      rw [hw] at hr
      rw [List.mem_singleton] at hr
      subst hr
      obtain ⟨p, hp, hm⟩ := scan_torsion_wildcard_some _ _ _ _ _ _ _ _ hw
      rcases hm with ⟨hf, e⟩ | ⟨hv, e⟩
      · exact ⟨p, hp, Or.inl ⟨e, Or.inr hf⟩⟩
      · exact ⟨p, hp, Or.inr ⟨e, Or.inr hv⟩⟩
  · obtain ⟨p, hp, hm⟩ := (mem_scan_torsion_exact _ _ _ _ _ _ _ _ _ _).mp hr
    rcases hm with ⟨hf, e⟩ | ⟨_, hv, e⟩
    · exact ⟨p, hp, Or.inl ⟨e, Or.inl hf⟩⟩
    · exact ⟨p, hp, Or.inr ⟨e, Or.inl hv⟩⟩

end TorsionAlignLemmas

/-! ## Claims on the alignment of torsion records -/

/-- C34: every record of `generate_torsion_interactions` is the record of a table entry and
of a candidate quadruple: it carries the constants of the entry, and its atoms are those of
the quadruple, in loop order on a forward match and in reverse order on a reverse match.  On
an exact match the types of `(atom1, atom2, atom3, atom4)` of the record are the
`(type1, type2, type3, type4)` of the entry; on a wildcard match the entry is `X` at both
ends and the types of `atom2` and `atom3` of the record are its `type2` and `type3`.  In
every case `atom2` and `atom3` of the record are the two atoms of the central pair, at
`chain_distance` 1, and `atom1`, `atom4` are neighbours of `atom2`, `atom3`. -/
theorem torsion_record_aligned_with_entry {A R : Type} [DecidableEq A] (chain : ChainFB A R)
    (table : List (TorsionParameter R)) (r : TorsionInteraction A R)
    (hr : r ∈ (generate_torsion_interactions chain table).1) :
    ∃ p ∈ table, ∃ q ∈ torsion_candidates chain,
      r.phi0 = p.phi0 ∧ r.cp = p.cp ∧ r.mult = p.mult ∧
      (((r.atom1, r.atom2, r.atom3, r.atom4) = q ∧
          (torsion_exact_forward p (chain.get_atom_type q.1) (chain.get_atom_type q.2.1)
              (chain.get_atom_type q.2.2.1) (chain.get_atom_type q.2.2.2) ∨
            torsion_wildcard_forward p (chain.get_atom_type q.2.1)
              (chain.get_atom_type q.2.2.1))) ∨
        ((r.atom4, r.atom3, r.atom2, r.atom1) = q ∧
          (torsion_exact_reverse p (chain.get_atom_type q.1) (chain.get_atom_type q.2.1)
              (chain.get_atom_type q.2.2.1) (chain.get_atom_type q.2.2.2) ∨
            torsion_wildcard_reverse p (chain.get_atom_type q.2.1)
              (chain.get_atom_type q.2.2.1)))) ∧
      ((p.type1 = chain.get_atom_type r.atom1 ∧ p.type2 = chain.get_atom_type r.atom2 ∧
          p.type3 = chain.get_atom_type r.atom3 ∧ p.type4 = chain.get_atom_type r.atom4) ∨
        (p.type1 = "X" ∧ p.type2 = chain.get_atom_type r.atom2 ∧
          p.type3 = chain.get_atom_type r.atom3 ∧ p.type4 = "X")) ∧
      (chain.chain_distance r.atom2 r.atom3 = 1 ∨ chain.chain_distance r.atom3 r.atom2 = 1) ∧
      r.atom1 ∈ chain.covalent_bonds r.atom2 ∧ r.atom4 ∈ chain.covalent_bonds r.atom3 := by
  rw [generate_torsion_interactions_eq] at hr
  obtain ⟨q, hq, hr⟩ := List.mem_flatMap.mp hr
  obtain ⟨a1, a2, a3, a4⟩ := q
  obtain ⟨_, _, _, hd, h1, h4, _, _⟩ := (mem_torsion_candidates chain a1 a2 a3 a4).mp hq
  obtain ⟨p, hp, hm⟩ := mem_torsion_quadruple chain table a1 a2 a3 a4 r hr
  refine ⟨p, hp, (a1, a2, a3, a4), hq, ?_⟩
  rcases hm with ⟨e, hmatch⟩ | ⟨e, hmatch⟩
  · subst e
    refine ⟨rfl, rfl, rfl, Or.inl ⟨rfl, hmatch⟩, ?_, Or.inl hd, h1, h4⟩
    rcases hmatch with h | h
    · exact Or.inl h
    · exact Or.inr h
  · subst e
    refine ⟨rfl, rfl, rfl, Or.inr ⟨rfl, hmatch⟩, ?_, Or.inr hd, h4, h1⟩
    rcases hmatch with ⟨t1, t2, t3, t4⟩ | ⟨t1, t2, t3, t4⟩
    · exact Or.inl ⟨t1, t2, t3, t4⟩
    · exact Or.inr ⟨t1, t2, t3, t4⟩

/-- Witness of C34 on the five-atom example molecule with two wildcard entries: the one
record, for the candidate `(0, 1, 2, 3)`, comes from the reverse match of the entry
`(X, C, CT1, X)` and stores the atoms as `(3, 2, 1, 0)`. -/
theorem torsion_record_aligned_with_entry_witness :
    (generate_torsion_interactions example_chain example_torsion_parameters_wildcards).1.map
      (fun r => (r.atom1, r.atom2, r.atom3, r.atom4)) = [(3, 2, 1, 0)] ∧
    ∀ r ∈ (generate_torsion_interactions example_chain
        example_torsion_parameters_wildcards).1,
      ∃ p ∈ example_torsion_parameters_wildcards, ∃ q ∈ torsion_candidates example_chain,
        r.phi0 = p.phi0 ∧ r.cp = p.cp ∧ r.mult = p.mult ∧
        (((r.atom1, r.atom2, r.atom3, r.atom4) = q ∧
            (torsion_exact_forward p (example_chain.get_atom_type q.1)
                (example_chain.get_atom_type q.2.1) (example_chain.get_atom_type q.2.2.1)
                (example_chain.get_atom_type q.2.2.2) ∨
              torsion_wildcard_forward p (example_chain.get_atom_type q.2.1)
                (example_chain.get_atom_type q.2.2.1))) ∨
          ((r.atom4, r.atom3, r.atom2, r.atom1) = q ∧
            (torsion_exact_reverse p (example_chain.get_atom_type q.1)
                (example_chain.get_atom_type q.2.1) (example_chain.get_atom_type q.2.2.1)
                (example_chain.get_atom_type q.2.2.2) ∨
              torsion_wildcard_reverse p (example_chain.get_atom_type q.2.1)
                (example_chain.get_atom_type q.2.2.1)))) ∧
        ((p.type1 = example_chain.get_atom_type r.atom1 ∧
            p.type2 = example_chain.get_atom_type r.atom2 ∧
            p.type3 = example_chain.get_atom_type r.atom3 ∧
            p.type4 = example_chain.get_atom_type r.atom4) ∨
          (p.type1 = "X" ∧ p.type2 = example_chain.get_atom_type r.atom2 ∧
            p.type3 = example_chain.get_atom_type r.atom3 ∧ p.type4 = "X")) ∧
        (example_chain.chain_distance r.atom2 r.atom3 = 1 ∨
          example_chain.chain_distance r.atom3 r.atom2 = 1) ∧
        r.atom1 ∈ example_chain.covalent_bonds r.atom2 ∧
        r.atom4 ∈ example_chain.covalent_bonds r.atom3 :=
  ⟨by decide, fun r hr =>
    torsion_record_aligned_with_entry example_chain example_torsion_parameters_wildcards r hr⟩

/-! ## Lemmas on the CMAP patterns -/

section CmapPatternLemmas

/-- The `if` chain assigns the class `k` exactly to the pattern that the table lists with
`k`. -/
theorem cmap_type_index_eq_some_iff (type1 type2 type3 type4 type5 : String) (k : Nat) :
    cmap_type_index type1 type2 type3 type4 type5 = some k ↔
      ((type1, type2, type3, type4, type5), k) ∈ cmap_pattern_table := by
  unfold cmap_type_index cmap_pattern_table
  simp only [List.mem_cons, Prod.mk.injEq, List.mem_singleton, List.not_mem_nil, or_false]
  split_ifs with h0 h1 h2 h3 h4 h5
  · obtain ⟨rfl, rfl, rfl, rfl, rfl⟩ := h0
    simp [eq_comm]
  · obtain ⟨rfl, rfl, rfl, rfl, rfl⟩ := h1
    simp [eq_comm]
  · obtain ⟨rfl, rfl, rfl, rfl, rfl⟩ := h2
    simp [eq_comm]
  · obtain ⟨rfl, rfl, rfl, rfl, rfl⟩ := h3
    simp [eq_comm]
  · obtain ⟨rfl, rfl, rfl, rfl, rfl⟩ := h4
    simp [eq_comm]
  · obtain ⟨rfl, rfl, rfl, rfl, rfl⟩ := h5
    simp [eq_comm]
  · simp only [false_iff, not_or]
    exact ⟨fun h => h0 h.1, fun h => h1 h.1, fun h => h2 h.1, fun h => h3 h.1,
      fun h => h4 h.1, fun h => h5 h.1⟩

/-- In a table with pairwise different keys, the first entry with a given key is the only
one. -/
theorem find?_eq_some_of_mem {κ ν : Type} [DecidableEq κ] (l : List (κ × ν))
    (hl : (l.map Prod.fst).Nodup) (t : κ) (v : ν) (h : (t, v) ∈ l) :
    l.find? (fun e => decide (e.1 = t)) = some (t, v) := by
  induction l with
  | nil => cases h
  | cons e rest ih =>
    rw [List.map_cons, List.nodup_cons] at hl
    rcases List.mem_cons.mp h with rfl | h'
    · rw [List.find?_cons_of_pos _ (by simp)]
    · have hne : e.1 ≠ t := by
        intro he
        apply hl.1
        rw [he]
        exact List.mem_map.mpr ⟨(t, v), h', rfl⟩
      rw [List.find?_cons_of_neg _ (by simpa using hne)]
      exact ih hl.2 h'

end CmapPatternLemmas

/-! ## Claims on the CMAP patterns -/

/-- C35: the class that `generate_cmap_interactions` assigns is `cmap_type_index` of the five
types alone.  It is `k` exactly for the pattern that the table of the six patterns lists with
`k`: `(C, NH1, CT1, C, NH1)` with 0, `(C, NH1, CT1, C, N)` with 1, `(C, N, CP1, C, NH1)`
with 2, `(C, N, CP1, C, N)` with 3, `(C, NH1, CT2, C, NH1)` with 4 and
`(C, NH1, CT2, C, N)` with 5.  The six patterns are pairwise different, so testing them in
any other order gives the same class; a tuple is accepted exactly when it is one of the six;
every class, and every `cmap_type_index` of a returned record, is at most 5. -/
theorem cmap_type_index_by_pattern_table (type1 type2 type3 type4 type5 : String) :
    cmap_pattern_table =
      [(("C", "NH1", "CT1", "C", "NH1"), 0), (("C", "NH1", "CT1", "C", "N"), 1),
       (("C", "N", "CP1", "C", "NH1"), 2), (("C", "N", "CP1", "C", "N"), 3),
       (("C", "NH1", "CT2", "C", "NH1"), 4), (("C", "NH1", "CT2", "C", "N"), 5)] ∧
    (∀ k : Nat, cmap_type_index type1 type2 type3 type4 type5 = some k ↔
      ((type1, type2, type3, type4, type5), k) ∈ cmap_pattern_table) ∧
    (cmap_pattern_table.map Prod.fst).Nodup ∧
    (∀ l : List ((String × String × String × String × String) × Nat),
      l.Perm cmap_pattern_table →
      (l.find? fun e => decide (e.1 = (type1, type2, type3, type4, type5))).map Prod.snd =
        cmap_type_index type1 type2 type3 type4 type5) ∧
    ((cmap_type_index type1 type2 type3 type4 type5).isSome = true ↔
      (type1, type2, type3, type4, type5) ∈ cmap_pattern_table.map Prod.fst) ∧
    (∀ k : Nat, cmap_type_index type1 type2 type3 type4 type5 = some k → k ≤ 5) ∧
    (∀ (A : Type) (get_atom_type : A → String) (residues : List (Residue A))
      (out : List (CmapInteraction A)),
      generate_cmap_interactions get_atom_type residues = .returned out →
      ∀ r ∈ out, r.cmap_type_index ≤ 5) := by
  have hle : ∀ (t1 t2 t3 t4 t5 : String) (k : Nat),
      cmap_type_index t1 t2 t3 t4 t5 = some k → k ≤ 5 := by
    intro t1 t2 t3 t4 t5 k hk
    unfold cmap_type_index at hk
    split_ifs at hk <;> (cases hk; decide)
  have hnodup : (cmap_pattern_table.map Prod.fst).Nodup := by decide
  refine ⟨rfl, cmap_type_index_eq_some_iff type1 type2 type3 type4 type5, hnodup, ?_, ?_,
    hle type1 type2 type3 type4 type5, ?_⟩
  · intro l hl
    have hlnodup : (l.map Prod.fst).Nodup := (hl.map Prod.fst).nodup_iff.mpr hnodup
    cases hk : cmap_type_index type1 type2 type3 type4 type5 with
    | some k =>
      have hmem : ((type1, type2, type3, type4, type5), k) ∈ l :=
        hl.mem_iff.mpr ((cmap_type_index_eq_some_iff _ _ _ _ _ k).mp hk)
      rw [find?_eq_some_of_mem l hlnodup _ k hmem]
      rfl
    | none =>
      have hnone : (l.find? fun e => decide (e.1 = (type1, type2, type3, type4, type5))) =
          none := by
        rw [List.find?_eq_none]
        intro e he hkey
        rw [decide_eq_true_eq] at hkey
        have hmem : ((type1, type2, type3, type4, type5), e.2) ∈ cmap_pattern_table := by
          rw [← hkey]
          exact hl.mem_iff.mp he
        rw [(cmap_type_index_eq_some_iff _ _ _ _ _ e.2).mpr hmem] at hk
        cases hk
      rw [hnone]
      rfl
  · constructor
    · intro h
      obtain ⟨k, hk⟩ := Option.isSome_iff_exists.mp h
      exact List.mem_map.mpr ⟨_, (cmap_type_index_eq_some_iff _ _ _ _ _ k).mp hk, rfl⟩
    · intro h
      obtain ⟨e, he, hkey⟩ := List.mem_map.mp h
      have hmem : ((type1, type2, type3, type4, type5), e.2) ∈ cmap_pattern_table := by
        rw [← hkey]
        exact he
      rw [(cmap_type_index_eq_some_iff _ _ _ _ _ e.2).mpr hmem]
      rfl
  · intro A get_atom_type residues out hout r hr
    obtain ⟨_, previous, next, _, _, _, _, hk⟩ :=
      generate_cmap_interactions_records get_atom_type residues out hout r hr
    exact hle _ _ _ _ _ _ hk

/-! ## Claims on the priority of specific torsion entries -/

/-- C12 (counterexample): in the chain `NH1 - CT1 - C - O - HB1` the candidate quadruple
`(0, 1, 2, 3)` has the types `(NH1, CT1, C, O)`; with a table that holds the specific entry
`(NH1, CT1, C, O)` of constants `(0, 1, 1)`, the wildcard entry `(X, CT1, C, X)` and a second
specific entry of constants `(90, 7, 3)`, `generate_torsion_interactions` returns two records
for the quadruple, and the second does not carry the constants `(0, 1, 1)` of the first
specific entry. -/
theorem generate_torsion_interactions_record_of_second_specific_entry :
    (0, 1, 2, 3) ∈ torsion_candidates example_chain ∧
    example_torsion_parameters_two_specific.map
        (fun p => (p.type1, p.type2, p.type3, p.type4, p.phi0, p.cp, p.mult)) =
      [("NH1", "CT1", "C", "O", 0, 1, 1), ("X", "CT1", "C", "X", 180, 2, 2),
       ("NH1", "CT1", "C", "O", 90, 7, 3)] ∧
    (generate_torsion_interactions example_chain example_torsion_parameters_two_specific).1 =
      [{ atom1 := 0, atom2 := 1, atom3 := 2, atom4 := 3, phi0 := 0, cp := 1, mult := 1 },
       { atom1 := 0, atom2 := 1, atom3 := 2, atom4 := 3, phi0 := 90, cp := 7, mult := 3 }] := by
  refine ⟨by decide, rfl, by decide⟩

/-- C12 (amended): when the torsion table holds an entry `e` with the types
`(t1, t2, t3, t4)` of a quadruple and a wildcard entry `w = (X, t2, t3, X)`, in any table
order, the records emitted for the quadruple are one record for every entry that matches the
quadruple exactly (forward or reverse), in table order, each with the `phi0`, `cp` and `mult`
of its entry; the record of `e` is among them, and it is the only record when `e` is the only
exactly matching entry.  The type `t1` not being the label `X`, the records are the same as
with `w` taken out of the table: none comes from `w`.  For a candidate quadruple these
records are records of `generate_torsion_interactions`. -/
theorem torsion_exact_entry_has_priority {A R : Type} [DecidableEq A] [DecidableEq R]
    (chain : ChainFB A R) (table : List (TorsionParameter R)) (atom1 atom2 atom3 atom4 : A)
    (e w : TorsionParameter R) (he : e ∈ table) (_hw : w ∈ table)
    (hspec : torsion_exact_forward e (chain.get_atom_type atom1) (chain.get_atom_type atom2)
      (chain.get_atom_type atom3) (chain.get_atom_type atom4))
    (hwild : torsion_wildcard_forward w (chain.get_atom_type atom2)
      (chain.get_atom_type atom3)) :
    torsion_interaction_of atom1 atom2 atom3 atom4 e ∈
      (torsion_quadruple chain table atom1 atom2 atom3 atom4).1 ∧
    (torsion_quadruple chain table atom1 atom2 atom3 atom4).1.map
        (fun r => (r.phi0, r.cp, r.mult)) =
      (table.filter fun p => decide
        (torsion_exact_forward p (chain.get_atom_type atom1) (chain.get_atom_type atom2)
            (chain.get_atom_type atom3) (chain.get_atom_type atom4) ∨
          torsion_exact_reverse p (chain.get_atom_type atom1) (chain.get_atom_type atom2)
            (chain.get_atom_type atom3) (chain.get_atom_type atom4))).map
        (fun p => (p.phi0, p.cp, p.mult)) ∧
    (∀ r ∈ (torsion_quadruple chain table atom1 atom2 atom3 atom4).1,
      ∃ p ∈ table,
        (torsion_exact_forward p (chain.get_atom_type atom1) (chain.get_atom_type atom2)
            (chain.get_atom_type atom3) (chain.get_atom_type atom4) ∨
          torsion_exact_reverse p (chain.get_atom_type atom1) (chain.get_atom_type atom2)
            (chain.get_atom_type atom3) (chain.get_atom_type atom4)) ∧
        r.phi0 = p.phi0 ∧ r.cp = p.cp ∧ r.mult = p.mult) ∧
    ((table.filter fun p => decide
        (torsion_exact_forward p (chain.get_atom_type atom1) (chain.get_atom_type atom2)
            (chain.get_atom_type atom3) (chain.get_atom_type atom4) ∨
          torsion_exact_reverse p (chain.get_atom_type atom1) (chain.get_atom_type atom2)
            (chain.get_atom_type atom3) (chain.get_atom_type atom4))) = [e] →
      (torsion_quadruple chain table atom1 atom2 atom3 atom4).1 =
        [torsion_interaction_of atom1 atom2 atom3 atom4 e]) ∧
    (chain.get_atom_type atom1 ≠ "X" →
      (torsion_quadruple chain table atom1 atom2 atom3 atom4).1 =
        (torsion_quadruple chain (table.filter fun p => decide (p ≠ w))
          atom1 atom2 atom3 atom4).1) ∧
    ((atom1, atom2, atom3, atom4) ∈ torsion_candidates chain →
      ∀ r ∈ (torsion_quadruple chain table atom1 atom2 atom3 atom4).1,
        r ∈ (generate_torsion_interactions chain table).1) := by
  have hmem : torsion_interaction_of atom1 atom2 atom3 atom4 e ∈
      scan_torsion_exact atom1 atom2 atom3 atom4 (chain.get_atom_type atom1)
        (chain.get_atom_type atom2) (chain.get_atom_type atom3) (chain.get_atom_type atom4)
        table :=
    (mem_scan_torsion_exact _ _ _ _ _ _ _ _ _ _).mpr ⟨e, he, Or.inl ⟨hspec, rfl⟩⟩
  have hne : (scan_torsion_exact atom1 atom2 atom3 atom4 (chain.get_atom_type atom1)
        (chain.get_atom_type atom2) (chain.get_atom_type atom3) (chain.get_atom_type atom4)
        table).isEmpty = false := by
    cases hs : scan_torsion_exact atom1 atom2 atom3 atom4 (chain.get_atom_type atom1)
        (chain.get_atom_type atom2) (chain.get_atom_type atom3) (chain.get_atom_type atom4)
        table with
    | nil => rw [hs] at hmem; cases hmem
    | cons _ _ => rfl
  have hrecs : (torsion_quadruple chain table atom1 atom2 atom3 atom4).1 =
      scan_torsion_exact atom1 atom2 atom3 atom4 (chain.get_atom_type atom1)
        (chain.get_atom_type atom2) (chain.get_atom_type atom3) (chain.get_atom_type atom4)
        table := by
    unfold torsion_quadruple
    simp only [hne]
    rfl
  have hall : ∀ r ∈ (torsion_quadruple chain table atom1 atom2 atom3 atom4).1,
      ∃ p ∈ table,
        (torsion_exact_forward p (chain.get_atom_type atom1) (chain.get_atom_type atom2)
            (chain.get_atom_type atom3) (chain.get_atom_type atom4) ∨
          torsion_exact_reverse p (chain.get_atom_type atom1) (chain.get_atom_type atom2)
            (chain.get_atom_type atom3) (chain.get_atom_type atom4)) ∧
        r.phi0 = p.phi0 ∧ r.cp = p.cp ∧ r.mult = p.mult := by
    intro r hr
    rw [hrecs, mem_scan_torsion_exact] at hr
    obtain ⟨p, hp, h | h⟩ := hr
    · obtain ⟨hf, rfl⟩ := h
      exact ⟨p, hp, Or.inl hf, rfl, rfl, rfl⟩
    · obtain ⟨_, hb, rfl⟩ := h
      exact ⟨p, hp, Or.inr hb, rfl, rfl, rfl⟩
  refine ⟨by rw [hrecs]; exact hmem, ?_, hall, ?_, ?_, ?_⟩
  · rw [hrecs]
    exact scan_torsion_exact_constants _ _ _ _ _ _ _ _ _
  · intro honly
    rw [hrecs, ← scan_torsion_exact_filter atom1 atom2 atom3 atom4 _ _ _ _ table
      (fun p => decide
        (torsion_exact_forward p (chain.get_atom_type atom1) (chain.get_atom_type atom2)
            (chain.get_atom_type atom3) (chain.get_atom_type atom4) ∨
          torsion_exact_reverse p (chain.get_atom_type atom1) (chain.get_atom_type atom2)
            (chain.get_atom_type atom3) (chain.get_atom_type atom4)))
      (fun p _ hm => decide_eq_true hm), honly]
    unfold scan_torsion_exact
    rw [if_pos hspec]
    rfl
  · intro hX
    have hwf : ¬ (torsion_exact_forward w (chain.get_atom_type atom1)
          (chain.get_atom_type atom2) (chain.get_atom_type atom3)
          (chain.get_atom_type atom4) ∨
        torsion_exact_reverse w (chain.get_atom_type atom1) (chain.get_atom_type atom2)
          (chain.get_atom_type atom3) (chain.get_atom_type atom4)) := by
      rintro (h | h)
      · exact hX (h.1.symm.trans hwild.1)
      · exact hX (h.2.2.2.symm.trans hwild.2.2.2)
    have hfilter := scan_torsion_exact_filter atom1 atom2 atom3 atom4
      (chain.get_atom_type atom1) (chain.get_atom_type atom2) (chain.get_atom_type atom3)
      (chain.get_atom_type atom4) table (fun p => decide (p ≠ w))
      (fun p _ hm => by
        have : p ≠ w := fun h => hwf (h ▸ hm)
        simpa using this)
    rw [hrecs]
    unfold torsion_quadruple
    simp only [hfilter, hne]
    rfl
  · intro hq r hr
    rw [generate_torsion_interactions_eq]
    exact List.mem_flatMap.mpr ⟨(atom1, atom2, atom3, atom4), hq, hr⟩

/-- Witness of C12 (amended) at the chain `NH1 - CT1 - C - O - HB1`, the quadruple
`(0, 1, 2, 3)` and the table with two specific entries around the wildcard entry: two
records, with the constants `(0, 1, 1)` and `(90, 7, 3)` of the specific entries, both
returned by `generate_torsion_interactions`. -/
theorem torsion_exact_entry_has_priority_witness :
    (torsion_quadruple example_chain example_torsion_parameters_two_specific 0 1 2 3).1.map
        (fun r => (r.phi0, r.cp, r.mult)) = [(0, 1, 1), (90, 7, 3)] ∧
    ∀ r ∈ (torsion_quadruple example_chain example_torsion_parameters_two_specific
        0 1 2 3).1,
      r ∈ (generate_torsion_interactions example_chain
        example_torsion_parameters_two_specific).1 := by
  have h := torsion_exact_entry_has_priority example_chain
    example_torsion_parameters_two_specific 0 1 2 3
    { type1 := "NH1", type2 := "CT1", type3 := "C", type4 := "O", phi0 := 0, cp := 1,
      mult := 1 }
    { type1 := "X", type2 := "CT1", type3 := "C", type4 := "X", phi0 := 180, cp := 2,
      mult := 2 }
    (by decide) (by decide) (by decide) (by decide)
  exact ⟨h.2.1, h.2.2.2.2.2 (by decide)⟩

/-! ## Lemmas on the position of the entry used by the improper scan -/

section ImproperPositionLemmas

variable {A R : Type}

/-- The scans of `atoms_to_improper_torsion` over two tables whose entries pass the test at
the same positions, from any two states: either both take their final `phi0` and `cp` from
the entries at one common position, where the test is passed, and set the flag, or no entry
of either table passes the test and both states are unchanged. -/
theorem improper_scan_same_position (type1 type2 type3 type4 : String)
    (type1' type2' type3' type4' : String)
    (table table' : List (ImproperTorsionParameter R))
    (hpos : List.Forall₂ (fun p p' => improper_matches p type1 type2 type3 type4 ↔
      improper_matches p' type1' type2' type3' type4') table table')
    (st st' : Bool × ImproperTorsionInteraction A R) :
    (∃ (i : Nat) (p p' : ImproperTorsionParameter R),
        table[i]? = some p ∧ table'[i]? = some p' ∧
        improper_matches p type1 type2 type3 type4 ∧
        improper_matches p' type1' type2' type3' type4' ∧
        (table.foldl (fun (st : Bool × ImproperTorsionInteraction A R) p =>
          if improper_matches p type1 type2 type3 type4 then
            (true, { st.2 with phi0 := p.phi0, cp := p.cp })
          else st) st).2.phi0 = p.phi0 ∧
        (table.foldl (fun (st : Bool × ImproperTorsionInteraction A R) p =>
          if improper_matches p type1 type2 type3 type4 then
            (true, { st.2 with phi0 := p.phi0, cp := p.cp })
          else st) st).2.cp = p.cp ∧
        (table'.foldl (fun (st : Bool × ImproperTorsionInteraction A R) p =>
          if improper_matches p type1' type2' type3' type4' then
            (true, { st.2 with phi0 := p.phi0, cp := p.cp })
          else st) st').2.phi0 = p'.phi0 ∧
        (table'.foldl (fun (st : Bool × ImproperTorsionInteraction A R) p =>
          if improper_matches p type1' type2' type3' type4' then
            (true, { st.2 with phi0 := p.phi0, cp := p.cp })
          else st) st').2.cp = p'.cp) ∨
      ((∀ p ∈ table, ¬ improper_matches p type1 type2 type3 type4) ∧
        table.foldl (fun (st : Bool × ImproperTorsionInteraction A R) p =>
          if improper_matches p type1 type2 type3 type4 then
            (true, { st.2 with phi0 := p.phi0, cp := p.cp })
          else st) st = st ∧
        table'.foldl (fun (st : Bool × ImproperTorsionInteraction A R) p =>
          if improper_matches p type1' type2' type3' type4' then
            (true, { st.2 with phi0 := p.phi0, cp := p.cp })
          else st) st' = st') := by
  induction hpos generalizing st st' with
  | nil => exact Or.inr ⟨fun p hp => (by cases hp), rfl, rfl⟩
  | @cons q q' rest rest' hq _ ih =>
    simp only [List.foldl_cons]
    rcases ih (if improper_matches q type1 type2 type3 type4 then
        (true, { st.2 with phi0 := q.phi0, cp := q.cp }) else st)
      (if improper_matches q' type1' type2' type3' type4' then
        (true, { st'.2 with phi0 := q'.phi0, cp := q'.cp }) else st') with
      ⟨i, p, p', hi, hi', hm, hm', e1, e2, e3, e4⟩ | ⟨hnone, hs, hs'⟩
    · exact Or.inl ⟨i + 1, p, p', by rw [List.getElem?_cons_succ]; exact hi,
        by rw [List.getElem?_cons_succ]; exact hi', hm, hm', e1, e2, e3, e4⟩
    · rw [hs, hs']
      by_cases hqm : improper_matches q type1 type2 type3 type4
      · have hqm' := hq.mp hqm
        rw [if_pos hqm, if_pos hqm']
        exact Or.inl ⟨0, q, q', List.getElem?_cons_zero, List.getElem?_cons_zero, hqm, hqm',
          rfl, rfl, rfl, rfl⟩
      · have hqm' : ¬ improper_matches q' type1' type2' type3' type4' :=
          fun h => hqm (hq.mpr h)
        rw [if_neg hqm, if_neg hqm']
        refine Or.inr ⟨?_, rfl, rfl⟩
        intro p hp
        rcases List.mem_cons.mp hp with rfl | hp'
        · exact hqm
        · exact hnone p hp'

end ImproperPositionLemmas

/-! ## Claims on the order of the improper scan -/

/-- C18 (amended): for every quadruple and every improper table with at least one entry that
matches it (exact or wildcard-outer, forward or reverse), `atoms_to_improper_torsion`
returns the `phi0` and `cp` of one of the matching entries and prints nothing.  The four
kinds of match are one test, and which matching entry is used depends on the positions of
the matching entries alone, not on the kind of match: for any other table and quadruple
whose entries pass the test at the same positions, both calls take their constants from the
entries at one common position.  The constants of an exact entry `e` are returned when every
matching entry of the table carries them. -/
theorem atoms_to_improper_torsion_uses_matching_entry {A R : Type}
    (get_atom_type : A → String) (improper_torsion0 : ImproperTorsionInteraction A R)
    (atoms : A × A × A × A) (table : List (ImproperTorsionParameter R))
    (e : ImproperTorsionParameter R) (he : e ∈ table)
    (hmatch : improper_matches e (get_atom_type atoms.1) (get_atom_type atoms.2.1)
      (get_atom_type atoms.2.2.1) (get_atom_type atoms.2.2.2)) :
    (∃ (i : Nat) (p : ImproperTorsionParameter R), table[i]? = some p ∧
      improper_matches p (get_atom_type atoms.1) (get_atom_type atoms.2.1)
        (get_atom_type atoms.2.2.1) (get_atom_type atoms.2.2.2) ∧
      (atoms_to_improper_torsion get_atom_type improper_torsion0 atoms table).1.phi0
        = p.phi0 ∧
      (atoms_to_improper_torsion get_atom_type improper_torsion0 atoms table).1.cp = p.cp) ∧
    (atoms_to_improper_torsion get_atom_type improper_torsion0 atoms table).2 = [] ∧
    (∀ (get_atom_type' : A → String) (improper_torsion0' : ImproperTorsionInteraction A R)
      (atoms' : A × A × A × A) (table' : List (ImproperTorsionParameter R)),
      List.Forall₂
        (fun p p' =>
          improper_matches p (get_atom_type atoms.1) (get_atom_type atoms.2.1)
            (get_atom_type atoms.2.2.1) (get_atom_type atoms.2.2.2) ↔
          improper_matches p' (get_atom_type' atoms'.1) (get_atom_type' atoms'.2.1)
            (get_atom_type' atoms'.2.2.1) (get_atom_type' atoms'.2.2.2))
        table table' →
      ∃ (i : Nat) (p p' : ImproperTorsionParameter R),
        table[i]? = some p ∧ table'[i]? = some p' ∧
        improper_matches p (get_atom_type atoms.1) (get_atom_type atoms.2.1)
          (get_atom_type atoms.2.2.1) (get_atom_type atoms.2.2.2) ∧
        improper_matches p' (get_atom_type' atoms'.1) (get_atom_type' atoms'.2.1)
          (get_atom_type' atoms'.2.2.1) (get_atom_type' atoms'.2.2.2) ∧
        (atoms_to_improper_torsion get_atom_type improper_torsion0 atoms table).1.phi0
          = p.phi0 ∧
        (atoms_to_improper_torsion get_atom_type improper_torsion0 atoms table).1.cp
          = p.cp ∧
        (atoms_to_improper_torsion get_atom_type' improper_torsion0' atoms' table').1.phi0
          = p'.phi0 ∧
        (atoms_to_improper_torsion get_atom_type' improper_torsion0' atoms' table').1.cp
          = p'.cp) ∧
    ((∀ p ∈ table,
        improper_matches p (get_atom_type atoms.1) (get_atom_type atoms.2.1)
          (get_atom_type atoms.2.2.1) (get_atom_type atoms.2.2.2) →
        p.phi0 = e.phi0 ∧ p.cp = e.cp) →
      (atoms_to_improper_torsion get_atom_type improper_torsion0 atoms table).1.phi0
        = e.phi0 ∧
      (atoms_to_improper_torsion get_atom_type improper_torsion0 atoms table).1.cp = e.cp) := by
  have hpos : ∀ (get_atom_type' : A → String)
      (improper_torsion0' : ImproperTorsionInteraction A R)
      (atoms' : A × A × A × A) (table' : List (ImproperTorsionParameter R)),
      List.Forall₂
        (fun p p' =>
          improper_matches p (get_atom_type atoms.1) (get_atom_type atoms.2.1)
            (get_atom_type atoms.2.2.1) (get_atom_type atoms.2.2.2) ↔
          improper_matches p' (get_atom_type' atoms'.1) (get_atom_type' atoms'.2.1)
            (get_atom_type' atoms'.2.2.1) (get_atom_type' atoms'.2.2.2))
        table table' →
      ∃ (i : Nat) (p p' : ImproperTorsionParameter R),
        table[i]? = some p ∧ table'[i]? = some p' ∧
        improper_matches p (get_atom_type atoms.1) (get_atom_type atoms.2.1)
          (get_atom_type atoms.2.2.1) (get_atom_type atoms.2.2.2) ∧
        improper_matches p' (get_atom_type' atoms'.1) (get_atom_type' atoms'.2.1)
          (get_atom_type' atoms'.2.2.1) (get_atom_type' atoms'.2.2.2) ∧
        (atoms_to_improper_torsion get_atom_type improper_torsion0 atoms table).1.phi0
          = p.phi0 ∧
        (atoms_to_improper_torsion get_atom_type improper_torsion0 atoms table).1.cp
          = p.cp ∧
        (atoms_to_improper_torsion get_atom_type' improper_torsion0' atoms' table').1.phi0
          = p'.phi0 ∧
        (atoms_to_improper_torsion get_atom_type' improper_torsion0' atoms' table').1.cp
          = p'.cp := by
    intro get_atom_type' improper_torsion0' atoms' table' hsame
    rcases improper_scan_same_position (A := A) _ _ _ _ _ _ _ _ table table' hsame
      (false, { improper_torsion0 with
        atom1 := atoms.1, atom2 := atoms.2.1, atom3 := atoms.2.2.1, atom4 := atoms.2.2.2 })
      (false, { improper_torsion0' with
        atom1 := atoms'.1, atom2 := atoms'.2.1, atom3 := atoms'.2.2.1,
        atom4 := atoms'.2.2.2 }) with h | ⟨hnone, _, _⟩
    · exact h
    · exact absurd hmatch (hnone e he)
  have hrefl : List.Forall₂
      (fun p p' : ImproperTorsionParameter R =>
        improper_matches p (get_atom_type atoms.1) (get_atom_type atoms.2.1)
          (get_atom_type atoms.2.2.1) (get_atom_type atoms.2.2.2) ↔
        improper_matches p' (get_atom_type atoms.1) (get_atom_type atoms.2.1)
          (get_atom_type atoms.2.2.1) (get_atom_type atoms.2.2.2))
      table table :=
    List.forall₂_same.mpr fun _ _ => Iff.rfl
  have hex : ∃ (i : Nat) (p : ImproperTorsionParameter R), table[i]? = some p ∧
      improper_matches p (get_atom_type atoms.1) (get_atom_type atoms.2.1)
        (get_atom_type atoms.2.2.1) (get_atom_type atoms.2.2.2) ∧
      (atoms_to_improper_torsion get_atom_type improper_torsion0 atoms table).1.phi0
        = p.phi0 ∧
      (atoms_to_improper_torsion get_atom_type improper_torsion0 atoms table).1.cp
        = p.cp := by
    obtain ⟨i, p, _, hi, _, hm, _, e1, e2, _, _⟩ :=
      hpos get_atom_type improper_torsion0 atoms table hrefl
    exact ⟨i, p, hi, hm, e1, e2⟩
  refine ⟨hex, ?_, hpos, ?_⟩
  · obtain ⟨h, _⟩ := improper_scan_cases (A := A) (get_atom_type atoms.1)
      (get_atom_type atoms.2.1) (get_atom_type atoms.2.2.1) (get_atom_type atoms.2.2.2) table
      (false, { improper_torsion0 with
        atom1 := atoms.1, atom2 := atoms.2.1, atom3 := atoms.2.2.1, atom4 := atoms.2.2.2 })
    rcases h with ⟨p, hp, hm, e1, e2, e3⟩ | ⟨hnone, _⟩
    · unfold atoms_to_improper_torsion
      simp only [e3]
      rfl
    · exact absurd hmatch (hnone e he)
  · intro hsame
    obtain ⟨i, q, hi, hqm, f1, f2⟩ := hex
    have hq : q ∈ table := List.mem_iff_getElem?.mpr ⟨i, hi⟩
    obtain ⟨g1, g2⟩ := hsame q hq hqm
    exact ⟨f1.trans g1, f2.trans g2⟩

/-- Witness of C18 (amended) at the quadruple of types `(NH1, CT1, C, O)` and the two tables
that hold the exact entry and the wildcard-outer entry in the two orders: both calls take
their constants from the entry at the same position, which is the wildcard-outer entry
`(35, 45)` in one table and the exact entry `(0, 100)` in the other. -/
theorem atoms_to_improper_torsion_uses_matching_entry_witness :
    ((atoms_to_improper_torsion example_types example_improper_torsion0_chain (0, 1, 2, 3)
        example_improper_torsion_parameters_exact_wildcard).1.phi0,
      (atoms_to_improper_torsion example_types example_improper_torsion0_chain (0, 1, 2, 3)
        example_improper_torsion_parameters_exact_wildcard).1.cp) = (35, 45) ∧
    ((atoms_to_improper_torsion example_types example_improper_torsion0_chain (0, 1, 2, 3)
        example_improper_torsion_parameters_wildcard_exact).1.phi0,
      (atoms_to_improper_torsion example_types example_improper_torsion0_chain (0, 1, 2, 3)
        example_improper_torsion_parameters_wildcard_exact).1.cp) = (0, 100) ∧
    ∃ (i : Nat) (p p' : ImproperTorsionParameter ℚ),
      example_improper_torsion_parameters_exact_wildcard[i]? = some p ∧
      example_improper_torsion_parameters_wildcard_exact[i]? = some p' ∧
      improper_matches p (example_types 0) (example_types 1) (example_types 2)
        (example_types 3) ∧
      improper_matches p' (example_types 0) (example_types 1) (example_types 2)
        (example_types 3) ∧
      (atoms_to_improper_torsion example_types example_improper_torsion0_chain (0, 1, 2, 3)
        example_improper_torsion_parameters_exact_wildcard).1.phi0 = p.phi0 ∧
      (atoms_to_improper_torsion example_types example_improper_torsion0_chain (0, 1, 2, 3)
        example_improper_torsion_parameters_exact_wildcard).1.cp = p.cp ∧
      (atoms_to_improper_torsion example_types example_improper_torsion0_chain (0, 1, 2, 3)
        example_improper_torsion_parameters_wildcard_exact).1.phi0 = p'.phi0 ∧
      (atoms_to_improper_torsion example_types example_improper_torsion0_chain (0, 1, 2, 3)
        example_improper_torsion_parameters_wildcard_exact).1.cp = p'.cp :=
  ⟨by decide, by decide,
    (atoms_to_improper_torsion_uses_matching_entry example_types
      example_improper_torsion0_chain (0, 1, 2, 3)
      example_improper_torsion_parameters_exact_wildcard
      { type1 := "NH1", type2 := "CT1", type3 := "C", type4 := "O", phi0 := 0, cp := 100 }
      (by decide) (by decide)).2.2.1 example_types example_improper_torsion0_chain
      (0, 1, 2, 3) example_improper_torsion_parameters_wildcard_exact
      (List.Forall₂.cons (by decide) (List.Forall₂.cons (by decide) List.Forall₂.nil))⟩

/-! ## Lemmas on the records of the improper generator -/

section ImproperGeneratorLemmas

variable {A R : Type}

/-- A loop that resolves and appends one quadruple per element appends one record per
element, with the atoms of its quadruple. -/
theorem foldl_push_improper_torsion {α : Type} (get_atom_type : A → String)
    (improper_torsion0 : ImproperTorsionInteraction A R)
    (table : List (ImproperTorsionParameter R)) (f : α → A × A × A × A) (l : List α)
    (st : List (ImproperTorsionInteraction A R) × List String) :
    (l.foldl (fun st q => push_improper_torsion get_atom_type improper_torsion0 table st
        (f q)) st).1.map (fun r => (r.atom1, r.atom2, r.atom3, r.atom4)) =
      st.1.map (fun r => (r.atom1, r.atom2, r.atom3, r.atom4)) ++ l.map f := by
  induction l generalizing st with
  | nil => simp
  | cons q rest ih =>
    rw [List.foldl_cons, ih]
    obtain ⟨r, cout, hr, ha⟩ := push_improper_torsion_eq get_atom_type improper_torsion0
      table st (f q)
    rw [hr]
    simp only [List.map_append, List.map_cons, List.map_nil, List.append_assoc,
      List.singleton_append, ha]

/-- The side-chain part of the loop body appends one record for every quadruple of the
`switch`, in order. -/
theorem side_chain_improper_torsions_atoms (get_atom_type : A → String)
    (improper_torsion0 : ImproperTorsionInteraction A R)
    (table : List (ImproperTorsionParameter R))
    (st : List (ImproperTorsionInteraction A R) × List String) (res : Residue A) :
    (side_chain_improper_torsions get_atom_type improper_torsion0 table st res).1.map
        (fun r => (r.atom1, r.atom2, r.atom3, r.atom4)) =
      st.1.map (fun r => (r.atom1, r.atom2, r.atom3, r.atom4)) ++
        (side_chain_enum_pairs res).1.map
          (fun q => (res.atom q.1, res.atom q.2.1, res.atom q.2.2.1, res.atom q.2.2.2)) := by
  unfold side_chain_improper_torsions
  exact foldl_push_improper_torsion get_atom_type improper_torsion0 table
    (fun q : AtomEnum × AtomEnum × AtomEnum × AtomEnum =>
      (res.atom q.1, res.atom q.2.1, res.atom q.2.2.1, res.atom q.2.2.2))
    (side_chain_enum_pairs res).1 (st.1, st.2 ++ (side_chain_enum_pairs res).2)

/-- The loop body of `generate_improper_torsion_interactions` for a residue that has the
neighbours its terminal status requires: it returns, and it appends the side-chain records,
then the `N` record unless the residue is N-terminal, then one `C` record. -/
theorem residue_improper_torsions_atoms (get_atom_type : A → String)
    (improper_torsion0 : ImproperTorsionInteraction A R)
    (table : List (ImproperTorsionParameter R))
    (st : List (ImproperTorsionInteraction A R) × List String)
    (previous_residue next_residue : Option (Residue A)) (res : Residue A)
    (hp : res.terminal_status ≠ .NTERM → previous_residue.isSome = true)
    (hn : res.terminal_status ≠ .CTERM → next_residue.isSome = true) :
    ∃ out : List (ImproperTorsionInteraction A R) × List String,
      residue_improper_torsions get_atom_type improper_torsion0 table st previous_residue
        next_residue res = some out ∧
      out.1.map (fun r => (r.atom1, r.atom2, r.atom3, r.atom4)) =
        st.1.map (fun r => (r.atom1, r.atom2, r.atom3, r.atom4)) ++
          ((side_chain_enum_pairs res).1.map
              (fun q => (res.atom q.1, res.atom q.2.1, res.atom q.2.2.1, res.atom q.2.2.2)) ++
            (if res.terminal_status = .NTERM then []
              else previous_residue.toList.map fun previous =>
                (res.atom .N, previous.atom .C, res.atom .CA,
                  res.atom (if res.residue_type = .PRO then .CD else .H))) ++
            (if res.terminal_status = .CTERM then
                [(res.atom .C, res.atom .CA, res.atom .OXT, res.atom .O)]
              else next_residue.toList.map fun next =>
                (res.atom .C, res.atom .CA, next.atom .N, res.atom .O))) := by
  have hside := side_chain_improper_torsions_atoms get_atom_type improper_torsion0 table st res
  unfold residue_improper_torsions backbone_improper_torsions
  -- the `N` block
  have hN : ∃ st1 : List (ImproperTorsionInteraction A R) × List String,
      backbone_n_improper_torsion get_atom_type improper_torsion0 table
        (side_chain_improper_torsions get_atom_type improper_torsion0 table st res)
        previous_residue res = some st1 ∧
      st1.1.map (fun r => (r.atom1, r.atom2, r.atom3, r.atom4)) =
        (side_chain_improper_torsions get_atom_type improper_torsion0 table st res).1.map
            (fun r => (r.atom1, r.atom2, r.atom3, r.atom4)) ++
          (if res.terminal_status = .NTERM then []
            else previous_residue.toList.map fun previous =>
              (res.atom .N, previous.atom .C, res.atom .CA,
                res.atom (if res.residue_type = .PRO then .CD else .H))) := by
    unfold backbone_n_improper_torsion
    by_cases h : res.terminal_status = .NTERM
    · rw [if_neg (not_not.mpr h), if_pos h]
      exact ⟨_, rfl, (List.append_nil _).symm⟩
    · rw [if_pos h, if_neg h]
      obtain ⟨p, hp'⟩ := Option.isSome_iff_exists.mp (hp h)
      subst hp'
      obtain ⟨r, cout, hr, ha⟩ := push_improper_torsion_eq get_atom_type improper_torsion0
        table (side_chain_improper_torsions get_atom_type improper_torsion0 table st res)
        (res.atom .N, p.atom .C, res.atom .CA,
          res.atom (if res.residue_type = .PRO then .CD else .H))
      refine ⟨_, rfl, ?_⟩
      dsimp only
      rw [hr]
      simp only [List.map_append, List.map_cons, List.map_nil, Option.toList_some, ha]
  obtain ⟨st1, h1, a1⟩ := hN
  rw [h1]
  dsimp only
  unfold backbone_c_improper_torsion
  by_cases h : res.terminal_status = .CTERM
  · rw [if_neg (not_not.mpr h), if_pos h, if_pos h]
    obtain ⟨r, cout, hr, ha⟩ := push_improper_torsion_eq get_atom_type improper_torsion0
      table st1 (res.atom .C, res.atom .CA, res.atom .OXT, res.atom .O)
    refine ⟨_, rfl, ?_⟩
    rw [hr]
    simp only [List.map_append, List.map_cons, List.map_nil, ha, a1, hside,
      List.append_assoc]
  · rw [if_pos h, if_neg h]
    obtain ⟨n, hn'⟩ := Option.isSome_iff_exists.mp (hn h)
    subst hn'
    obtain ⟨r, cout, hr, ha⟩ := push_improper_torsion_eq get_atom_type improper_torsion0
      table st1 (res.atom .C, res.atom .CA, n.atom .N, res.atom .O)
    refine ⟨_, rfl, ?_⟩
    dsimp only
    rw [hr]
    simp only [List.map_append, List.map_cons, List.map_nil, Option.toList_some, ha, a1,
      hside, List.append_assoc]

/-- A loop on an optional state (result vector, further state) whose iterations return and
append records: the loop returns, and the records of the result, read through a projection,
are the concatenation of what the iterations append. -/
theorem foldl_option_fst_map {σ τ α β : Type}
    (f : Option (List σ × τ) → α → Option (List σ × τ)) (proj : σ → β) (g : α → List β)
    (l : List α)
    (h : ∀ st, ∀ x ∈ l, ∃ out, f (some st) x = some out ∧
      out.1.map proj = st.1.map proj ++ g x)
    (st : List σ × τ) :
    ∃ out, l.foldl f (some st) = some out ∧
      out.1.map proj = st.1.map proj ++ l.flatMap g := by
  induction l generalizing st with
  | nil => exact ⟨st, rfl, by simp⟩
  | cons x xs ih =>
    obtain ⟨st1, h1, a1⟩ := h st x (List.mem_cons_self _ _)
    obtain ⟨out, h2, a2⟩ := ih (fun st y hy => h st y (List.mem_cons_of_mem _ hy)) st1
    refine ⟨out, ?_, ?_⟩
    · rw [List.foldl_cons, h1, h2]
    · rw [a2, a1, List.flatMap_cons, List.append_assoc]

/-- Every residue of the five-residue example chain has the neighbours that its terminal
status requires. -/
theorem example_residues_five_terminal (i : Nat) (res : Residue (Nat × AtomEnum))
    (h : example_residues_five[i]? = some res) :
    (res.terminal_status ≠ .NTERM → i ≠ 0) ∧
    (res.terminal_status ≠ .CTERM → i + 1 < example_residues_five.length) := by
  have hi : i < 5 := (List.getElem?_eq_some_iff.mp h).1
  interval_cases i <;>
  · simp only [example_residues_five, List.getElem?_cons_succ, List.getElem?_cons_zero,
      Option.some.injEq] at h
    subst h
    decide

end ImproperGeneratorLemmas

/-! ## Claims on the backbone improper torsions -/

/-- C22: on a chain in which every residue has the neighbours its terminal status requires,
`generate_improper_torsion_interactions` returns, and its records are, residue by residue in
chain order: the side-chain records of the residue; then, unless the residue is N-terminal,
one record for `(N, previous C, CA, H)`, with `CD` in place of `H` for proline, the previous
residue being the residue before it in the chain; then exactly one record centred on `C`,
for `(C, CA, next N, O)` when the residue is not C-terminal and for `(C, CA, OXT, O)` when it
is.  In the loop body, the `N` block of an N-terminal residue and the `C` block of a
C-terminal residue do not read the neighbour: they give the same result for a null
pointer. -/
theorem backbone_improper_torsions_by_terminal_status {A R : Type}
    (get_atom_type : A → String) (improper_torsion0 : ImproperTorsionInteraction A R)
    (residues : List (Residue A)) (table : List (ImproperTorsionParameter R))
    (hwf : ∀ (i : Nat) (x : Residue A), residues[i]? = some x →
      (x.terminal_status ≠ .NTERM → i ≠ 0) ∧
      (x.terminal_status ≠ .CTERM → i + 1 < residues.length)) :
    (∃ out : List (ImproperTorsionInteraction A R) × List String,
      generate_improper_torsion_interactions get_atom_type improper_torsion0 residues
        table = some out ∧
      out.1.map (fun r => (r.atom1, r.atom2, r.atom3, r.atom4)) =
        residues.enum.flatMap fun x =>
          (side_chain_enum_pairs x.2).1.map
              (fun q => (x.2.atom q.1, x.2.atom q.2.1, x.2.atom q.2.2.1, x.2.atom q.2.2.2)) ++
            (if x.2.terminal_status = .NTERM then []
              else (residues[x.1 - 1]?).toList.map fun previous =>
                (x.2.atom .N, previous.atom .C, x.2.atom .CA,
                  x.2.atom (if x.2.residue_type = .PRO then .CD else .H))) ++
            (if x.2.terminal_status = .CTERM then
                [(x.2.atom .C, x.2.atom .CA, x.2.atom .OXT, x.2.atom .O)]
              else (residues[x.1 + 1]?).toList.map fun next =>
                (x.2.atom .C, x.2.atom .CA, next.atom .N, x.2.atom .O))) ∧
    (∀ x ∈ residues.enum,
      (x.2.terminal_status ≠ .NTERM → x.1 ≠ 0 ∧ (residues[x.1 - 1]?).isSome = true) ∧
      (x.2.terminal_status ≠ .CTERM → (residues[x.1 + 1]?).isSome = true)) ∧
    (∀ (st : List (ImproperTorsionInteraction A R) × List String) (res : Residue A),
      (res.terminal_status = .NTERM → ∀ previous_residue : Option (Residue A),
        backbone_n_improper_torsion get_atom_type improper_torsion0 table st
          previous_residue res = some st) ∧
      (res.terminal_status = .CTERM → ∀ next_residue : Option (Residue A),
        backbone_c_improper_torsion get_atom_type improper_torsion0 table st
            next_residue res =
          some (push_improper_torsion get_atom_type improper_torsion0 table st
            (res.atom .C, res.atom .CA, res.atom .OXT, res.atom .O)))) := by
  have hnb : ∀ x ∈ residues.enum,
      (x.2.terminal_status ≠ .NTERM → x.1 ≠ 0 ∧ (residues[x.1 - 1]?).isSome = true) ∧
      (x.2.terminal_status ≠ .CTERM → (residues[x.1 + 1]?).isSome = true) := by
    intro x hx
    have hx' := List.mem_enum_iff_getElem?.mp hx
    obtain ⟨h1, h2⟩ := hwf x.1 x.2 hx'
    have hlt : x.1 < residues.length := (List.getElem?_eq_some_iff.mp hx').1
    constructor
    · intro hn
      have h0 := h1 hn
      have : x.1 - 1 < residues.length := by omega
      exact ⟨h0, by rw [List.getElem?_eq_getElem this]; rfl⟩
    · intro hc
      rw [List.getElem?_eq_getElem (h2 hc)]
      rfl
  refine ⟨?_, hnb, ?_⟩
  · unfold generate_improper_torsion_interactions
    obtain ⟨out, h1, h2⟩ := foldl_option_fst_map
      (fun (st : Option (List (ImproperTorsionInteraction A R) × List String))
          (x : Nat × Residue A) =>
        match st with
        | none => none
        | some st =>
          residue_improper_torsions get_atom_type improper_torsion0 table
            st (if x.1 = 0 then none else residues[x.1 - 1]?) residues[x.1 + 1]? x.2)
      (fun r => (r.atom1, r.atom2, r.atom3, r.atom4))
      (fun x =>
        (side_chain_enum_pairs x.2).1.map
            (fun q => (x.2.atom q.1, x.2.atom q.2.1, x.2.atom q.2.2.1, x.2.atom q.2.2.2)) ++
          (if x.2.terminal_status = .NTERM then []
            else (residues[x.1 - 1]?).toList.map fun previous =>
              (x.2.atom .N, previous.atom .C, x.2.atom .CA,
                x.2.atom (if x.2.residue_type = .PRO then .CD else .H))) ++
          (if x.2.terminal_status = .CTERM then
              [(x.2.atom .C, x.2.atom .CA, x.2.atom .OXT, x.2.atom .O)]
            else (residues[x.1 + 1]?).toList.map fun next =>
              (x.2.atom .C, x.2.atom .CA, next.atom .N, x.2.atom .O)))
      residues.enum
      (by
        intro st x hx
        obtain ⟨hn, hc⟩ := hnb x hx
        have key := residue_improper_torsions_atoms get_atom_type improper_torsion0 table st
          (if x.1 = 0 then none else residues[x.1 - 1]?) residues[x.1 + 1]? x.2
          (fun h => by rw [if_neg (hn h).1]; exact (hn h).2) hc
        obtain ⟨out, ho, ha⟩ := key
        refine ⟨out, ho, ?_⟩
        rw [ha]
        dsimp only
        by_cases h : x.2.terminal_status = .NTERM
        · rw [if_pos h, if_pos h]
        · rw [if_neg h, if_neg h, if_neg (hn h).1])
      ([], [])
    exact ⟨out, h1, by rw [h2]; rfl⟩
  · intro st res
    constructor
    · intro hn previous_residue
      unfold backbone_n_improper_torsion
      rw [if_neg (not_not.mpr hn)]
    · intro hc next_residue
      unfold backbone_c_improper_torsion
      rw [if_neg (not_not.mpr hc), if_pos hc]

/-- Witness of C22 on the five-residue example chain alanine - asparagine - glycine -
proline - glycine: the thirteen records of the generator, among them `(N, previous C, CA,
CD)` for the proline and `(C, CA, OXT, O)` for the C-terminal glycine. -/
theorem backbone_improper_torsions_by_terminal_status_witness :
    ∃ out : List (ImproperTorsionInteraction (Nat × AtomEnum) ℚ) × List String,
      generate_improper_torsion_interactions example_atom_type example_improper_torsion0
        example_residues_five example_improper_torsion_parameters = some out ∧
      out.1.map (fun r => (r.atom1, r.atom2, r.atom3, r.atom4)) =
        [((0, .C), (0, .CA), (1, .N), (0, .O)),
         ((1, .CG), (1, .ND2), (1, .CB), (1, .OD1)),
         ((1, .CG), (1, .CB), (1, .ND2), (1, .OD1)),
         ((1, .ND2), (1, .CG), (1, .HD21), (1, .HD22)),
         ((1, .ND2), (1, .CG), (1, .HD22), (1, .HD21)),
         ((1, .N), (0, .C), (1, .CA), (1, .H)),
         ((1, .C), (1, .CA), (2, .N), (1, .O)),
         ((2, .N), (1, .C), (2, .CA), (2, .H)),
         ((2, .C), (2, .CA), (3, .N), (2, .O)),
         ((3, .N), (2, .C), (3, .CA), (3, .CD)),
         ((3, .C), (3, .CA), (4, .N), (3, .O)),
         ((4, .N), (3, .C), (4, .CA), (4, .H)),
         ((4, .C), (4, .CA), (4, .OXT), (4, .O))] :=
  (backbone_improper_torsions_by_terminal_status example_atom_type example_improper_torsion0
    example_residues_five example_improper_torsion_parameters
    example_residues_five_terminal).1

/-! ## Claims on the constants of bonded pairs and angle bends -/

/-- C27: every record of `generate_bonded_pair_interactions` carries the `kb` and `r0` of the
first table entry, in table order, whose `(type1, type2)` is the pair of types of its two
atoms in either order, and every ordered bond whose pair of types has such an entry gets
this record; the first such entry, and so the constants, are the same for the types
`(a, b)` and for `(b, a)`. -/
theorem bonded_pair_constants_of_first_entry {A R : Type} (chain : ChainFB A R)
    (table : List (BondedPairParameter R)) :
    (∀ r ∈ generate_bonded_pair_interactions chain table,
      ∃ p, (table.find? fun p => decide (bonded_pair_matches p
          (chain.get_atom_type r.atom1) (chain.get_atom_type r.atom2))) = some p ∧
        r.kb = p.kb ∧ r.r0 = p.r0) ∧
    (∀ type1 type2 : String,
      (table.find? fun p => decide (bonded_pair_matches p type1 type2)) =
        table.find? fun p => decide (bonded_pair_matches p type2 type1)) ∧
    (∀ (atom1 atom2 : A) (type1 type2 : String),
      (scan_bonded_pair atom1 atom2 type1 type2 table).map (fun r => (r.kb, r.r0)) =
        (scan_bonded_pair atom2 atom1 type2 type1 table).map fun r => (r.kb, r.r0)) ∧
    (∀ atom1 ∈ chain.atoms, ∀ atom2 ∈ chain.covalent_bonds atom1,
      (chain.residue_index atom1 < chain.residue_index atom2 ∨
        (chain.residue_index atom1 = chain.residue_index atom2 ∧
          chain.index atom1 < chain.index atom2)) →
      ∀ p, (table.find? fun p => decide (bonded_pair_matches p
          (chain.get_atom_type atom1) (chain.get_atom_type atom2))) = some p →
        ({ atom1 := atom1, atom2 := atom2, kb := p.kb, r0 := p.r0 } :
          BondedPairInteraction A R) ∈ generate_bonded_pair_interactions chain table) ∧
    (∀ (atom1 atom2 : A) (type1 type2 : String) (p : BondedPairParameter R)
        (before after : List (BondedPairParameter R)),
      table = before ++ p :: after → bonded_pair_matches p type1 type2 →
      (∀ q ∈ before, ¬ bonded_pair_matches q type1 type2) →
      scan_bonded_pair atom1 atom2 type1 type2 table =
        [{ atom1 := atom1, atom2 := atom2, kb := p.kb, r0 := p.r0 }]) := by
  have hfind : ∀ type1 type2 : String,
      (table.find? fun p => decide (bonded_pair_matches p type1 type2)) =
        table.find? fun p => decide (bonded_pair_matches p type2 type1) := by
    intro type1 type2
    congr 1
    funext p
    exact decide_eq_decide.mpr (bonded_pair_matches_comm p type1 type2)
  refine ⟨?_, hfind, ?_, ?_, ?_⟩
  · intro r hr
    have hscan := (mem_generate_bonded_pair_interactions chain table r hr).2.2.2
    rw [scan_bonded_pair_eq_find] at hscan
    cases hf : table.find? fun p => decide (bonded_pair_matches p
        (chain.get_atom_type r.atom1) (chain.get_atom_type r.atom2)) with
    | none =>
      rw [hf] at hscan
      cases hscan
    | some p =>
      rw [hf] at hscan
      simp only [Option.map_some', Option.toList_some, List.mem_singleton] at hscan
      refine ⟨p, rfl, ?_, ?_⟩
      · rw [hscan]
      · rw [hscan]
  · intro atom1 atom2 type1 type2
    rw [scan_bonded_pair_eq_find, scan_bonded_pair_eq_find, hfind type1 type2]
    cases table.find? fun p => decide (bonded_pair_matches p type2 type1) <;> rfl
  · intro atom1 h1 atom2 h2 hlt p hp
    unfold generate_bonded_pair_interactions
    refine List.mem_flatMap.mpr ⟨atom1, h1, List.mem_flatMap.mpr ⟨atom2, h2, ?_⟩⟩
    rw [if_pos hlt, scan_bonded_pair_eq_find, hp]
    exact List.mem_singleton.mpr rfl
  · intro atom1 atom2 type1 type2 p before after htable hp hbefore
    rw [scan_bonded_pair_eq_find, htable]
    have hf : ((before ++ p :: after).find? fun p =>
        decide (bonded_pair_matches p type1 type2)) = some p := by
      rw [List.find?_append, List.find?_eq_none.mpr
        (fun q hq => by simpa using hbefore q hq)]
      rw [Option.none_or]
      exact List.find?_cons_of_pos (p := fun p => decide (bonded_pair_matches p type1 type2)) _ (decide_eq_true hp)
    rw [hf]
    rfl

/-- Witness of C27 on the five-atom example `NH1 - CT1 - C - O - HB1` with the single table
entry `(CT1, NH1)`: the bond from atom 0 to atom 1, of types `(NH1, CT1)`, gets a record with
the constants of this entry, and it is the only record. -/
theorem bonded_pair_constants_of_first_entry_witness :
    ({ atom1 := 0, atom2 := 1, kb := 300, r0 := 1 } : BondedPairInteraction Nat ℚ) ∈
      generate_bonded_pair_interactions example_chain example_bonded_pair_parameters ∧
    generate_bonded_pair_interactions example_chain example_bonded_pair_parameters =
      [{ atom1 := 0, atom2 := 1, kb := 300, r0 := 1 }] :=
  ⟨(bonded_pair_constants_of_first_entry example_chain
      example_bonded_pair_parameters).2.2.2.1 0 (by decide) 1 (by decide) (by decide)
      { type1 := "CT1", type2 := "NH1", r0 := 1, kb := 300 } (by decide),
    by decide⟩

/-- C29: every record of `generate_angle_bend_interactions` carries the `theta0`, `k0`,
`r13` and `kub` of the first table entry, in table order, whose type triple is the triple of
types of its three atoms or the reverse of it, and every visited triple whose types have
such an entry gets this record; the middle type of this entry is the type of `atom2`, and an
entry with another middle type passes the test for no such triple. -/
theorem angle_bend_constants_of_first_entry {A R : Type} (chain : ChainFB A R)
    (table : List (AngleBendParameter R)) :
    (∀ r ∈ (generate_angle_bend_interactions chain table).1,
      ∃ p, (table.find? fun p => decide (angle_bend_matches p (chain.get_atom_type r.atom1)
          (chain.get_atom_type r.atom2) (chain.get_atom_type r.atom3))) = some p ∧
        r.theta0 = p.theta0 ∧ r.k0 = p.k0 ∧ r.r13 = p.r13 ∧ r.kub = p.kub ∧
        p.type2 = chain.get_atom_type r.atom2 ∧
        ((p.type1 = chain.get_atom_type r.atom1 ∧ p.type3 = chain.get_atom_type r.atom3) ∨
          (p.type1 = chain.get_atom_type r.atom3 ∧ p.type3 = chain.get_atom_type r.atom1))) ∧
    (∀ (p : AngleBendParameter R) (type1 type2 type3 : String), p.type2 ≠ type2 →
      ¬ angle_bend_matches p type1 type2 type3) ∧
    (∀ atom2 ∈ chain.atoms, ∀ pair ∈ neighbour_pairs (chain.covalent_bonds atom2),
      ∀ p, (table.find? fun p => decide (angle_bend_matches p (chain.get_atom_type pair.1)
          (chain.get_atom_type atom2) (chain.get_atom_type pair.2))) = some p →
        ({ atom1 := pair.1, atom2 := atom2, atom3 := pair.2, theta0 := p.theta0, k0 := p.k0,
           r13 := p.r13, kub := p.kub } : AngleBendInteraction A R) ∈
          (generate_angle_bend_interactions chain table).1) ∧
    (∀ (atom1 atom2 atom3 : A) (type1 type2 type3 : String) (p : AngleBendParameter R)
        (before after : List (AngleBendParameter R)),
      table = before ++ p :: after → angle_bend_matches p type1 type2 type3 →
      (∀ q ∈ before, ¬ angle_bend_matches q type1 type2 type3) →
      scan_angle_bend atom1 atom2 atom3 type1 type2 type3 table =
        some { atom1 := atom1, atom2 := atom2, atom3 := atom3, theta0 := p.theta0,
               k0 := p.k0, r13 := p.r13, kub := p.kub }) := by
  refine ⟨?_, ?_, ?_, ?_⟩
  · intro r hr
    obtain ⟨_, _, hscan⟩ := mem_generate_angle_bend_interactions chain table r hr
    rw [scan_angle_bend_eq_find] at hscan
    cases hf : table.find? fun p => decide (angle_bend_matches p (chain.get_atom_type r.atom1)
        (chain.get_atom_type r.atom2) (chain.get_atom_type r.atom3)) with
    | none =>
      rw [hf] at hscan
      cases hscan
    | some p =>
      rw [hf] at hscan
      have hr' := Option.some.inj hscan
      have hm := List.find?_some hf
      rw [decide_eq_true_eq] at hm
      refine ⟨p, rfl, ?_, ?_, ?_, ?_, ?_, ?_⟩
      · rw [← hr']
      · rw [← hr']
      · rw [← hr']
      · rw [← hr']
      · rcases hm with ⟨_, h, _⟩ | ⟨_, h, _⟩ <;> exact h
      · rcases hm with ⟨h1, _, h3⟩ | ⟨h1, _, h3⟩
        · exact Or.inl ⟨h1, h3⟩
        · exact Or.inr ⟨h1, h3⟩
  · rintro p type1 type2 type3 hne (⟨_, h, _⟩ | ⟨_, h, _⟩) <;> exact hne h
  · intro atom2 h2 pair hpair p hp
    rw [generate_angle_bend_interactions_eq]
    refine List.mem_flatMap.mpr ⟨atom2, h2, List.mem_flatMap.mpr ⟨pair, hpair, ?_⟩⟩
    rw [scan_angle_bend_eq_find, hp]
    exact List.mem_singleton.mpr rfl
  · intro atom1 atom2 atom3 type1 type2 type3 p before after htable hp hbefore
    rw [scan_angle_bend_eq_find, htable]
    have hf : ((before ++ p :: after).find? fun p =>
        decide (angle_bend_matches p type1 type2 type3)) = some p := by
      rw [List.find?_append, List.find?_eq_none.mpr
        (fun q hq => by simpa using hbefore q hq)]
      rw [Option.none_or]
      exact List.find?_cons_of_pos (p := fun p => decide (angle_bend_matches p type1 type2 type3)) _ (decide_eq_true hp)
    rw [hf]
    rfl

/-- Witness of C29 on the five-atom example `NH1 - CT1 - C - O - HB1` with the single table
entry `(NH1, CT1, C)`: the triple of atoms 0, 1, 2 gets a record with the constants of this
entry, and it is the only record. -/
theorem angle_bend_constants_of_first_entry_witness :
    ({ atom1 := 0, atom2 := 1, atom3 := 2, theta0 := 107, k0 := 50, r13 := 0, kub := 0 } :
        AngleBendInteraction Nat ℚ) ∈
      (generate_angle_bend_interactions example_chain example_angle_bend_parameters).1 ∧
    (generate_angle_bend_interactions example_chain example_angle_bend_parameters).1 =
      [{ atom1 := 0, atom2 := 1, atom3 := 2, theta0 := 107, k0 := 50, r13 := 0, kub := 0 }] :=
  ⟨(angle_bend_constants_of_first_entry example_chain
      example_angle_bend_parameters).2.2.1 1 (by decide) (0, 2) (by decide)
      { type1 := "NH1", type2 := "CT1", type3 := "C", theta0 := 107, k0 := 50, r13 := 0,
        kub := 0 } (by decide),
    by decide⟩

/-! ## Lemmas on the angle-bend energy term -/

section TermAngleBendLemmas

variable {A R : Type} [Field R]

/-- A value in the range of `int` is kept. -/
theorem int_wrap_of_range (x : Int) (h0 : -2147483648 ≤ x) (h1 : x < 2147483648) :
    int_wrap x = x := by
  unfold int_wrap
  omega

/-- Wrapping before an addition does not change the wrapped sum. -/
theorem int_wrap_add (x y : Int) : int_wrap (int_wrap x + y) = int_wrap (x + y) := by
  unfold int_wrap
  omega

/-- Wrapping twice is wrapping once. -/
theorem int_wrap_idem (x : Int) : int_wrap (int_wrap x) = int_wrap x := by
  unfold int_wrap
  omega

/-- A loop on the state (sum, `int` counter) whose kept iterations add the energies of a list
of items to the sum and the length of the list to the counter, and whose other iterations
change nothing. -/
theorem foldl_sum_count {α τ : Type} (f : R × Int → α → R × Int) (keep : α → Bool)
    (T : α → List τ) (e : τ → R) (l : List α)
    (h : ∀ st, int_wrap st.2 = st.2 → ∀ x ∈ l, f st x =
      if keep x then (st.1 + ((T x).map e).sum, int_wrap (st.2 + ((T x).length : Int)))
      else st)
    (st : R × Int) (hst : int_wrap st.2 = st.2) :
    l.foldl f st =
      (st.1 + (((l.filter keep).flatMap T).map e).sum,
        int_wrap (st.2 + (((l.filter keep).flatMap T).length : Int))) := by
  induction l generalizing st with
  | nil => simp [hst]
  | cons x xs ih =>
    rw [List.foldl_cons, h st hst x (List.mem_cons_self _ _)]
    cases hk : keep x
    · rw [List.filter_cons_of_neg (by simp [hk])]
      simp only [Bool.false_eq_true, if_false]
      exact ih (fun st hst y hy => h st hst y (List.mem_cons_of_mem _ hy)) st hst
    · rw [List.filter_cons_of_pos hk, List.flatMap_cons, List.map_append, List.sum_append,
        List.length_append]
      simp only [if_true]
      rw [ih (fun st hst y hy => h st hst y (List.mem_cons_of_mem _ hy)) _
        (int_wrap_idem _)]
      simp only [Nat.cast_add]
      rw [int_wrap_add, add_assoc, add_assoc]

/-- Source `calc_spring_energy` returns `k (x - x_eq)^2` and increments the `int` counter. -/
theorem calc_spring_energy_eq (counter : Int) (x x_eq k : R) :
    calc_spring_energy counter x x_eq k = (k * (x - x_eq) ^ 2, int_wrap (counter + 1)) := by
  unfold calc_spring_energy
  dsimp only
  rw [pow_two, mul_assoc]

/-- Source `calc_anglebend_energy` returns the sum of the spring energies of the triples of
the vertex and increments the counter once for each of them. -/
theorem calc_anglebend_energy_eq (chain : ChainFB A R) (is_ps : A → Bool)
    (calc_angle : A → A → A → R) (counter : Int) (hc : int_wrap counter = counter)
    (atom2 : A) :
    calc_anglebend_energy chain is_ps calc_angle counter atom2 =
      (((vertex_triples chain is_ps atom2).map
          fun t => 1 * (calc_angle t.1 t.2.1 t.2.2 - 1) ^ 2).sum,
        int_wrap (counter + ((vertex_triples chain is_ps atom2).length : Int))) := by
  unfold calc_anglebend_energy vertex_triples
  rw [foldl_sum_count _ (fun pair => !(is_ps pair.1 || is_ps atom2 || is_ps pair.2))
    (fun pair => [(pair.1, atom2, pair.2)])
    (fun t => 1 * (calc_angle t.1 t.2.1 t.2.2 - 1) ^ 2) _ _ _ hc]
  · have hflat : ∀ l : List (A × A),
        (l.flatMap fun pair => [(pair.1, atom2, pair.2)]) =
          l.map fun pair => (pair.1, atom2, pair.2) := by
      intro l
      induction l with
      | nil => rfl
      | cons x xs ih => rw [List.flatMap_cons, ih]; rfl
    rw [hflat, zero_add]
  · intro st _ pair _
    dsimp only
    rw [calc_spring_energy_eq]
    cases hskip : (is_ps pair.1 || is_ps atom2 || is_ps pair.2)
    · simp
    · simp

/-- Source `evaluate` returns the sum of the spring energies of the summed triples and leaves
in the counter their number, as an `int`. -/
theorem evaluate_eq (chain : ChainFB A R) (residues : List (List A)) (is_ps : A → Bool)
    (is_sidechain_atom : A → Bool) (calc_angle : A → A → A → R) (omit_sidechains : Bool)
    (counter : Int) :
    evaluate chain residues is_ps is_sidechain_atom calc_angle omit_sidechains counter =
      (((summed_triples chain residues is_ps is_sidechain_atom omit_sidechains).map
          fun t => 1 * (calc_angle t.1 t.2.1 t.2.2 - 1) ^ 2).sum,
        int_wrap ((summed_triples chain residues is_ps is_sidechain_atom
          omit_sidechains).length : Int)) := by
  unfold evaluate summed_triples
  rw [foldl_sum_count _ (fun _ => true)
    (fun res => (res.filter fun atom => !(omit_sidechains && is_sidechain_atom atom)).flatMap
      (vertex_triples chain is_ps))
    (fun t => 1 * (calc_angle t.1 t.2.1 t.2.2 - 1) ^ 2) _ _ _
    (by decide : int_wrap 0 = 0)]
  · rw [List.filter_true, zero_add, zero_add]
  · intro st hst res _
    rw [if_pos rfl]
    apply foldl_sum_count _ _ _ _ _ _ _ hst
    intro st hst atom _
    dsimp only
    rw [calc_anglebend_energy_eq _ _ _ _ hst]
    cases hskip : (omit_sidechains && is_sidechain_atom atom)
    · simp
    · simp

end TermAngleBendLemmas

/-! ## Claims on the angle-bend energy term -/

/-- C36 (counterexample): with the counter at `INT_MAX = 2147483647`, one call of
`calc_spring_energy` leaves the counter at `-2147483648`, not at `INT_MAX + 1`. -/
theorem calc_spring_energy_counter_overflow :
    (calc_spring_energy 2147483647 (3 : ℚ) 1 1).2 = -2147483648 ∧
    (calc_spring_energy 2147483647 (3 : ℚ) 1 1).2 ≠ 2147483647 + 1 := by
  decide

/-- C36 (amended): in the angle-bend energy term, `calc_spring_energy` returns
`k (x - x_eq)^2` and increments the `int` counter, by exactly one when the counter is below
`INT_MAX`; `calc_anglebend_energy` increments it once for every triple of its vertex without
an atom of type `PS`; and `evaluate`, which sets the counter to 0 first, returns the sum of
the spring energies of the summed triples and leaves in the counter their number, whenever
this number is below `2^31`, whatever the counter was before the call.  The summed triples
are the triples `(atom1, atom2, atom3)` of a vertex `atom2` of some residue and a neighbour
pair `(atom1, atom3)` of it, without the side-chain vertices when `omit_sidechains` is set
and without the triples that contain an atom of type `PS`. -/
theorem evaluate_counter_counts_summed_triples {A R : Type} [Field R] (chain : ChainFB A R)
    (residues : List (List A)) (is_ps : A → Bool) (is_sidechain_atom : A → Bool)
    (calc_angle : A → A → A → R) (omit_sidechains : Bool) (counter : Int) :
    (∀ (c : Int) (x x_eq k : R),
      calc_spring_energy c x x_eq k = (k * (x - x_eq) ^ 2, int_wrap (c + 1)) ∧
      (-2147483648 ≤ c → c < 2147483647 → (calc_spring_energy c x x_eq k).2 = c + 1)) ∧
    (∀ (c : Int) (atom2 : A), -2147483648 ≤ c → c < 2147483648 →
      (calc_anglebend_energy chain is_ps calc_angle c atom2).2 =
        int_wrap (c + ((vertex_triples chain is_ps atom2).length : Int)) ∧
      (c + ((vertex_triples chain is_ps atom2).length : Int) < 2147483648 →
        (calc_anglebend_energy chain is_ps calc_angle c atom2).2 =
          c + ((vertex_triples chain is_ps atom2).length : Int))) ∧
    (evaluate chain residues is_ps is_sidechain_atom calc_angle omit_sidechains counter).2 =
      int_wrap ((summed_triples chain residues is_ps is_sidechain_atom
        omit_sidechains).length : Int) ∧
    ((summed_triples chain residues is_ps is_sidechain_atom omit_sidechains).length <
        2147483648 →
      (evaluate chain residues is_ps is_sidechain_atom calc_angle omit_sidechains counter).2 =
        ((summed_triples chain residues is_ps is_sidechain_atom omit_sidechains).length :
          Int)) ∧
    (evaluate chain residues is_ps is_sidechain_atom calc_angle omit_sidechains counter).1 =
      ((summed_triples chain residues is_ps is_sidechain_atom omit_sidechains).map
        fun t => (calc_spring_energy 0 (calc_angle t.1 t.2.1 t.2.2) 1 1).1).sum ∧
    (∀ counter' : Int,
      evaluate chain residues is_ps is_sidechain_atom calc_angle omit_sidechains counter' =
        evaluate chain residues is_ps is_sidechain_atom calc_angle omit_sidechains
          counter) ∧
    (∀ atom1 atom2 atom3 : A,
      (atom1, atom2, atom3) ∈
          summed_triples chain residues is_ps is_sidechain_atom omit_sidechains ↔
        (∃ res ∈ residues, atom2 ∈ res) ∧
        ¬ (omit_sidechains = true ∧ is_sidechain_atom atom2 = true) ∧
        (atom1, atom3) ∈ neighbour_pairs (chain.covalent_bonds atom2) ∧
        is_ps atom1 = false ∧ is_ps atom2 = false ∧ is_ps atom3 = false) := by
  refine ⟨?_, ?_, ?_, ?_, ?_, ?_, ?_⟩
  · intro c x x_eq k
    refine ⟨calc_spring_energy_eq c x x_eq k, ?_⟩
    intro h0 h1
    rw [calc_spring_energy_eq]
    exact int_wrap_of_range _ (by omega) (by omega)
  · intro c atom2 h0 h1
    rw [calc_anglebend_energy_eq _ _ _ _ (int_wrap_of_range c h0 h1)]
    refine ⟨rfl, ?_⟩
    intro hlt
    exact int_wrap_of_range _ (by omega) hlt
  · rw [evaluate_eq]
  · intro hlt
    rw [evaluate_eq]
    exact int_wrap_of_range _ (by omega) (by omega)
  · rw [evaluate_eq]
    have hfun : (fun t : A × A × A =>
        (calc_spring_energy 0 (calc_angle t.1 t.2.1 t.2.2) 1 1).1) =
        fun t => 1 * (calc_angle t.1 t.2.1 t.2.2 - 1) ^ 2 := by
      funext t
      rw [calc_spring_energy_eq]
    rw [hfun]
  · intro counter'
    rw [evaluate_eq, evaluate_eq]
  · intro atom1 atom2 atom3
    unfold summed_triples vertex_triples
    simp only [List.mem_flatMap, List.mem_filter, List.mem_map, Prod.mk.injEq,
      Bool.not_eq_true', Bool.and_eq_false_imp, Bool.or_eq_false_iff, Prod.exists]
    constructor
    · rintro ⟨res, hres, v, ⟨hv, hkeep⟩, a, b, ⟨hpair, ⟨ha, hv2⟩, hb⟩, rfl, rfl, rfl⟩
      refine ⟨⟨res, hres, hv⟩, ?_, hpair, ha, hv2, hb⟩
      rintro ⟨ho, hs⟩
      rw [hkeep ho] at hs
      cases hs
    · rintro ⟨⟨res, hres, hv⟩, hkeep, hpair, ha, hv2, hb⟩
      refine ⟨res, hres, atom2, ⟨hv, ?_⟩, atom1, atom3, ⟨hpair, ⟨ha, hv2⟩, hb⟩, rfl, rfl, rfl⟩
      intro ho
      cases hs : is_sidechain_atom atom2
      · rfl
      · exact absurd ⟨ho, hs⟩ hkeep

/-- Witness of C36 (amended) on the five-atom example molecule in two residues, atom 0 of
type `PS`, atom 3 a side-chain atom, side chains omitted, the counter at 7 before the call:
the one summed triple is `(1, 2, 3)`, and the counter is 1 after the call. -/
theorem evaluate_counter_counts_summed_triples_witness :
    summed_triples example_chain example_residue_atoms (fun a => a == 0) (fun a => a == 3)
      true = [(1, 2, 3)] ∧
    (evaluate example_chain example_residue_atoms (fun a => a == 0) (fun a => a == 3)
      example_calc_angle true 7).2 =
      ((summed_triples example_chain example_residue_atoms (fun a => a == 0)
        (fun a => a == 3) true).length : Int) :=
  ⟨by decide, (evaluate_counter_counts_summed_triples example_chain example_residue_atoms
    (fun a => a == 0) (fun a => a == 3) example_calc_angle true 7).2.2.2.1 (by decide)⟩

end topology
